import Mathlib

/-!
# Shadow node, forward-plus caches, program cache and buffers of grit-ogre

A shallow embedding of the functions the claims are about:

* `CompositorShadowNode::buildClosestLightList`, `findNextEmptyShadowCastingLightEntry`,
  `ShadowMappingLightCmp`, `postInitializePass`, the constructor, `finalTargetResized`,
  `isShadowMapIdxActive`, `getPssmSplits` and `setShadowMapsToPass`
  (OgreCompositorShadowNode.cpp);
* `ForwardPlusBase::getCachedGridFor` and `fillGlobalLightListBuffer` (OgreForwardPlusBase.cpp);
* `GL3PlusGLSLMonolithicProgramManager` (OgreGLSLMonolithicProgramManager.cpp);
* `ParallaxCorrectedCubemap::destroyProbe` (OgreParallaxCorrectedCubemap.cpp);
* `GL3PlusBufferInterface::advanceFrame` (OgreGL3PlusBufferInterface.cpp).

Conventions. Pointers are natural numbers naming the object, a nullable pointer is an
`Option`. `Real`/`float` values are exact rationals. Reads outside an array and failed
assertions are explicit results (`none`, `Except.error`).
-/

namespace Ogre

/-! ## Declarations the sources use but do not contain -/

/-- Constants declared in headers that are not among the sources; every function that
needs one takes the record as its first argument, and the theorems hold for every value. -/
structure Headers where
  /-- The bit `VisibilityFlags::LAYER_SHADOW_CASTER`. -/
  LAYER_SHADOW_CASTER : Nat
  /-- The enum value `Light::LT_DIRECTIONAL`. -/
  LT_DIRECTIONAL : Nat
  /-- The enum value `Light::LT_POINT`. -/
  LT_POINT : Nat
  /-- The enum value `Light::LT_SPOTLIGHT`. -/
  LT_SPOTLIGHT : Nat
  /-- The enum value `Light::NUM_LIGHT_TYPES`. -/
  NUM_LIGHT_TYPES : Nat
deriving DecidableEq

/-- The values the engine gives these constants: shadow-caster layer bit 30, and the
three light types of the data model in the order directional, point, spot. -/
def stdHeaders : Headers :=
  { LAYER_SHADOW_CASTER := 2 ^ 30, LT_DIRECTIONAL := 0, LT_POINT := 1, LT_SPOTLIGHT := 2,
    NUM_LIGHT_TYPES := 3 }

/-- The largest `size_t`, the value of `~0` converted to `size_t` (64-bit target). -/
def SIZE_MAX : Nat := 2 ^ 64 - 1

/-! ## Data model of the shadow node -/

/-- What the selector reads of a `Light`: its identity and `getType()`. -/
structure Light where
  id : Nat
  type : Nat
deriving DecidableEq, Inhabited

/-- One index of `LightListInfo`: the parallel arrays `lights`, `visibilityMask` and
`boundingSphere` all have `lights.size()` elements. `fDist` is
`mCameraPos.distance( boundingSphere[i].getCenter() ) - boundingSphere[i].getRadius()`
for the camera of the call. -/
structure LightListEntry where
  light : Light
  visibilityMask : Nat
  fDist : ℚ
deriving DecidableEq, Inhabited

abbrev LightListInfo := List LightListEntry

/-- A shadow-casting light slot: `LightClosest( light, globalIndex, distance )`. -/
structure LightClosest where
  light : Option Light
  globalIndex : Nat
  distance : ℚ
deriving DecidableEq

/-- The default-constructed `LightClosest()`: null light, index 0, distance 0. -/
def LightClosest.blank : LightClosest := ⟨none, 0, 0⟩

/-- A `Vector2`. -/
structure Vector2 where
  x : ℚ
  y : ℚ
deriving DecidableEq

/-- An `AxisAlignedBox`, by its two corners. -/
structure AxisAlignedBox where
  minimum : ℚ × ℚ × ℚ
  maximum : ℚ × ℚ × ℚ
deriving DecidableEq

/-- The enum `ShadowMapTechniques`. -/
inductive ShadowMapTechniques where
  | SHADOWMAP_UNIFORM
  | SHADOWMAP_PLANEOPTIMAL
  | SHADOWMAP_FOCUSED
  | SHADOWMAP_PSSM
deriving DecidableEq

/-- The enum `TextureDefinitionBase::TextureSource`. -/
inductive TextureSource where
  | TEXTURE_INPUT
  | TEXTURE_LOCAL
  | TEXTURE_GLOBAL
deriving DecidableEq

/-- What the modelled functions read of a `ShadowTextureDefinition`. -/
structure ShadowTextureDefinition where
  /-- The light slot this shadow map is for. -/
  light : Nat
  split : Nat
  shadowMapTechnique : ShadowMapTechniques
  numSplits : Nat
  mrtIndex : Nat
  /-- The value of `getSharesSetupWith()`: `SIZE_MAX` for a setup of its own. -/
  sharesSetupWith : Nat
  /-- The `index` that `mDefinition->getTextureSource( getTextureName(), index,
  textureSource )` yields for the texture name of this definition. -/
  textureIndex : Nat
  /-- The `textureSource` the same call yields. -/
  textureSource : TextureSource
  pssmLambda : ℚ := 95 / 100
deriving DecidableEq

/-- A shadow camera setup object, by its class; a `PSSMShadowCameraSetup` holds its
split points. -/
inductive ShadowCameraSetup where
  | DefaultShadowCameraSetup
  | FocusedShadowCameraSetup
  | PSSMShadowCameraSetup (splitPoints : List ℚ)
deriving DecidableEq

/-- A `CompositorChannel`: the textures of one local texture definition, a `TexturePtr`
being the number that names the texture. -/
structure CompositorChannel where
  textures : List Nat
deriving DecidableEq

/-- The part of `ShadowMapCamera` the modelled functions touch. The pointer
`shadowCameraSetup` is the position of the setup object in the node's list
`shadowCameraSetups`. -/
structure ShadowMapCamera where
  camera : Nat
  scenePassesViewportSize : List Vector2
  idxToLocalTextures : Nat := 0
  idxToContiguousTex : Nat := 0
  shadowCameraSetup : Nat := 0
deriving DecidableEq

/-- The part of `CompositorShadowNodeDef` the modelled functions read. -/
structure CompositorShadowNodeDef where
  mNumLights : Nat
  mLightTypesMask : List Nat
  mShadowMapTexDefinitions : List ShadowTextureDefinition := []
deriving DecidableEq

/-- The members of `CompositorShadowNode` the modelled functions read or write. -/
structure CompositorShadowNode where
  mDefinition : CompositorShadowNodeDef
  mLastCamera : Option Nat
  mLastFrame : Nat
  mShadowMapCastingLights : List LightClosest
  mAffectedLights : List Bool
  mNumActiveShadowMapCastingLights : Nat
  mTmpSortedIndexes : List Nat
  mCastersBox : AxisAlignedBox
  mShadowMapCameras : List ShadowMapCamera
  mLocalTextures : List CompositorChannel := []
  mContiguousShadowMapTex : List Nat := []
  mCurrentLightList : List LightClosest := []
  /-- The setup objects the shadow-map cameras point to (shared between the cameras of
  definitions that share a setup). -/
  shadowCameraSetups : List ShadowCameraSetup := []
deriving DecidableEq

/-- What one call of `buildClosestLightList` reads from its collaborators. -/
structure BuildArgs where
  /-- The pointer `newCamera`. -/
  newCamera : Nat
  /-- The value of `mWorkspace->getFrameCount()`. -/
  currentFrameCount : Nat
  /-- The value of `newCamera->getLastViewport()->getVisibilityMask()`. -/
  viewportVisibilityMask : Nat
  /-- The value of `sceneManager->getVisibilityMask()`. -/
  sceneVisibilityMask : Nat
  /-- The list `sceneManager->getGlobalLightList()`. -/
  globalLightList : LightListInfo
  /-- The box `sceneManager->_calculateCurrentCastersBox( ... )` returns. -/
  castersBox : AxisAlignedBox
deriving DecidableEq

/-! ## The selector -/

/-- The argument `1u << type` as the callee receives it, a `uint8`. -/
def lightTypeBit (type : Nat) : Nat := (1 <<< type) % 256

/-- The scan of `findNextEmptyShadowCastingLightEntry` from slot `lightIdx` on: the
slots still to visit, the running `lightIdx` and `newStartIdx`; the result is the pair
(`*startIdx`, `*entryToUse`). A slot without a mask entry accepts no light type. -/
def findNextEmptyScan (mLightTypesMask : List Nat) (lightTypeMask : Nat) :
    List LightClosest → Nat → Nat → Nat × Nat
  | [], lightIdx, newStartIdx => (newStartIdx, lightIdx)
  | s :: rest, lightIdx, newStartIdx =>
    if s.light = none then
      if mLightTypesMask.getD lightIdx 0 &&& lightTypeMask ≠ 0 then
        (min lightIdx newStartIdx, lightIdx)
      else
        findNextEmptyScan mLightTypesMask lightTypeMask rest (lightIdx + 1)
          (min lightIdx newStartIdx)
    else
      findNextEmptyScan mLightTypesMask lightTypeMask rest (lightIdx + 1) newStartIdx

/-- `CompositorShadowNode::findNextEmptyShadowCastingLightEntry`: the new values of
`*startIdx` and `*entryToUse`. -/
def findNextEmptyShadowCastingLightEntry (node : CompositorShadowNode)
    (lightTypeMask startIdx : Nat) : Nat × Nat :=
  findNextEmptyScan node.mDefinition.mLightTypesMask lightTypeMask
    (node.mShadowMapCastingLights.drop startIdx) startIdx
    node.mShadowMapCastingLights.length

/-- `ShadowMappingLightCmp::operator()` on two indices of the light list. -/
def ShadowMappingLightCmp (H : Headers) (lightList : LightListInfo)
    (mCombinedVisibilityFlags : Nat) (l r : Nat) : Bool :=
  let visibilityMaskL := (lightList.getD l default).visibilityMask
  let visibilityMaskR := (lightList.getD r default).visibilityMask
  if visibilityMaskL &&& mCombinedVisibilityFlags ≠ 0 ∧
      ¬ (visibilityMaskR &&& mCombinedVisibilityFlags ≠ 0) then true
  else if ¬ (visibilityMaskL &&& mCombinedVisibilityFlags ≠ 0) ∧
      visibilityMaskR &&& mCombinedVisibilityFlags ≠ 0 then false
  else if visibilityMaskL &&& H.LAYER_SHADOW_CASTER ≠ 0 ∧
      ¬ (visibilityMaskR &&& H.LAYER_SHADOW_CASTER ≠ 0) then true
  else if ¬ (visibilityMaskL &&& H.LAYER_SHADOW_CASTER ≠ 0) ∧
      visibilityMaskR &&& H.LAYER_SHADOW_CASTER ≠ 0 then false
  else
    decide ((lightList.getD l default).fDist < (lightList.getD r default).fDist)

/-- The order `std::partial_sort_copy` sorts by: `a` may stand before `b` when `b` is
not less than `a` under the comparator. -/
def notAfter (comp : Nat → Nat → Bool) (a b : Nat) : Prop := comp b a = false

instance notAfterDecidable (comp : Nat → Nat → Bool) : DecidableRel (notAfter comp) :=
  fun a b => inferInstanceAs (Decidable (comp b a = false))

/-- `std::partial_sort_copy( first, last, d_first, d_last, comp )` on the input values
and the present contents of the output range: the `min` of the two lengths smallest
inputs, ascending, overwrite the front of the output; the rest of the output keeps its
contents. The standard leaves the order of equivalent elements open; here they keep
their input order. -/
def partial_sort_copy (comp : Nat → Nat → Bool) (input output : List Nat) : List Nat :=
  (List.insertionSort (notAfter comp) input).take (min input.length output.length) ++
    output.drop (min input.length output.length)

/-- `std::vector::resize( count, value )`. -/
def vectorResize {α : Type} (v : List α) (count : Nat) (value : α) : List α :=
  v.take count ++ List.replicate (count - v.length) value

/-- The first loop of `buildClosestLightList`: the lights from `itor` on (with the
index `listIdx` of the first), the node, `begEmptyLightIdx` and `nxtEmptyLightIdx`. -/
def directionalLoop (H : Headers) (combinedVisibilityFlags : Nat) :
    List LightListEntry → Nat → CompositorShadowNode → Nat → Nat →
      CompositorShadowNode × Nat × Nat
  | [], _, node, begEmptyLightIdx, nxtEmptyLightIdx =>
    (node, begEmptyLightIdx, nxtEmptyLightIdx)
  | e :: rest, listIdx, node, begEmptyLightIdx, nxtEmptyLightIdx =>
    if e.light.type = H.LT_DIRECTIONAL ∧
        nxtEmptyLightIdx < node.mShadowMapCastingLights.length then
      if e.visibilityMask &&& combinedVisibilityFlags ≠ 0 ∧
          e.visibilityMask &&& H.LAYER_SHADOW_CASTER ≠ 0 then
        let node1 : CompositorShadowNode :=
          { node with
            mAffectedLights := node.mAffectedLights.set listIdx true
            mShadowMapCastingLights :=
              node.mShadowMapCastingLights.set nxtEmptyLightIdx ⟨some e.light, listIdx, 0⟩ }
        let found := findNextEmptyShadowCastingLightEntry node1
          (lightTypeBit H.LT_DIRECTIONAL) begEmptyLightIdx
        directionalLoop H combinedVisibilityFlags rest (listIdx + 1)
          { node1 with mNumActiveShadowMapCastingLights :=
              node1.mNumActiveShadowMapCastingLights + 1 }
          found.1 found.2
      else
        directionalLoop H combinedVisibilityFlags rest (listIdx + 1) node
          begEmptyLightIdx nxtEmptyLightIdx
    else
      (node, begEmptyLightIdx, nxtEmptyLightIdx)

/-- The index `startIndex`: the length of the run of directional lights the list
starts with. -/
def directionalRunLength (H : Headers) (lightList : LightListInfo) : Nat :=
  (lightList.takeWhile (fun e => decide (e.light.type = H.LT_DIRECTIONAL))).length

/-- The second loop of `buildClosestLightList` over the entries of `mTmpSortedIndexes`
from `itor` on. Reading `visibilityMask[*itor]` outside the light list is `none`. -/
def closestLoop (H : Headers) (lightList : LightListInfo) (combinedVisibilityFlags : Nat) :
    List Nat → CompositorShadowNode → Nat → Nat → Option CompositorShadowNode
  | [], node, _, _ => some node
  | idx :: rest, node, begEmptyLightIdx, _nxtEmptyLightIdx =>
    match lightList[idx]? with
    | none => none
    | some e =>
      if ¬ (e.visibilityMask &&& combinedVisibilityFlags ≠ 0) ∨
          ¬ (e.visibilityMask &&& H.LAYER_SHADOW_CASTER ≠ 0) ∨
          begEmptyLightIdx ≥ node.mShadowMapCastingLights.length then
        some node
      else
        let found := findNextEmptyShadowCastingLightEntry node
          (lightTypeBit e.light.type) begEmptyLightIdx
        if found.2 < node.mShadowMapCastingLights.length then
          closestLoop H lightList combinedVisibilityFlags rest
            { node with
              mAffectedLights := node.mAffectedLights.set idx true
              mShadowMapCastingLights :=
                node.mShadowMapCastingLights.set found.2 ⟨some e.light, idx, 0⟩
              mNumActiveShadowMapCastingLights :=
                node.mNumActiveShadowMapCastingLights + 1 }
            found.1 found.2
        else
          closestLoop H lightList combinedVisibilityFlags rest node found.1 found.2

/-- `CompositorShadowNode::buildClosestLightList( newCamera, lodCamera )`. The result
is `none` when the call reads outside the light list (undefined behaviour). -/
def buildClosestLightList (H : Headers) (node : CompositorShadowNode) (args : BuildArgs) :
    Option CompositorShadowNode :=
  if node.mLastCamera = some args.newCamera ∧ node.mLastFrame = args.currentFrameCount then
    some node
  else
    let combinedVisibilityFlags := args.viewportVisibilityMask &&& args.sceneVisibilityMask
    let node1 : CompositorShadowNode :=
      { node with
        mLastFrame := args.currentFrameCount
        mLastCamera := some args.newCamera
        mShadowMapCastingLights :=
          List.replicate node.mDefinition.mNumLights LightClosest.blank
        mNumActiveShadowMapCastingLights := 0 }
    let found := findNextEmptyShadowCastingLightEntry node1 (lightTypeBit H.LT_DIRECTIONAL) 0
    let node2 : CompositorShadowNode :=
      { node1 with mAffectedLights := List.replicate args.globalLightList.length false }
    let afterDirectional :=
      directionalLoop H combinedVisibilityFlags args.globalLightList 0 node2 found.1 found.2
    let node3 := afterDirectional.1
    let begEmptyLightIdx := afterDirectional.2.1
    let nxtEmptyLightIdx := afterDirectional.2.2
    let startIndex := directionalRunLength H args.globalLightList
    let resized := vectorResize node3.mTmpSortedIndexes
      (node3.mShadowMapCastingLights.length - begEmptyLightIdx) SIZE_MAX
    let sorted := partial_sort_copy
      (ShadowMappingLightCmp H args.globalLightList combinedVisibilityFlags)
      (List.range' startIndex (args.globalLightList.length - startIndex)) resized
    match closestLoop H args.globalLightList combinedVisibilityFlags sorted
        { node3 with mTmpSortedIndexes := sorted } begEmptyLightIdx nxtEmptyLightIdx with
    | none => none
    | some node4 => some { node4 with mCastersBox := args.castersBox }

/-! ## Vocabulary of the claims -/

/-- A light is eligible for a shadow slot when it is visible under the combined
visibility flags and carries the shadow-caster flag: the test both loops apply. -/
def eligible (H : Headers) (flags : Nat) (e : LightListEntry) : Prop :=
  e.visibilityMask &&& flags ≠ 0 ∧ e.visibilityMask &&& H.LAYER_SHADOW_CASTER ≠ 0

instance eligibleDecidable (H : Headers) (flags : Nat) (e : LightListEntry) :
    Decidable (eligible H flags e) := by unfold eligible; infer_instance

/-- The light at global index `i` is eligible. -/
def eligibleAt (H : Headers) (flags : Nat) (lights : LightListInfo) (i : Nat) : Prop :=
  eligible H flags (lights.getD i default)

instance eligibleAtDecidable (H : Headers) (flags : Nat) (lights : LightListInfo) (i : Nat) :
    Decidable (eligibleAt H flags lights i) := by unfold eligibleAt; infer_instance

/-- The light-type mask of slot `slot` accepts lights of type `type`: the test
`mLightTypesMask[slot] & (1u << type)` of the slot scan. -/
def slotAccepts (d : CompositorShadowNodeDef) (slot type : Nat) : Prop :=
  d.mLightTypesMask.getD slot 0 &&& lightTypeBit type ≠ 0

instance slotAcceptsDecidable (d : CompositorShadowNodeDef) (slot type : Nat) :
    Decidable (slotAccepts d slot type) := by unfold slotAccepts; infer_instance

/-- The slot contents `LightClosest( lights[i], i, 0 )` both loops store for the light
at global index `i`. -/
def slotOf (lightList : LightListInfo) (i : Nat) : LightClosest :=
  ⟨some (lightList.getD i default).light, i, 0⟩

/-- The affected bitset after `mAffectedLights[i] = true` for each `i` of `idxs`. -/
def markAffected (affected : List Bool) (idxs : List Nat) : List Bool :=
  idxs.foldl (fun a i => a.set i true) affected

/-- The global indices of the eligible lights among `ls`, in list order, when the first
element of `ls` has global index `i`. -/
def eligibleIdxFrom (H : Headers) (flags : Nat) : List LightListEntry → Nat → List Nat
  | [], _ => []
  | e :: rest, i =>
    if eligible H flags e then i :: eligibleIdxFrom H flags rest (i + 1)
    else eligibleIdxFrom H flags rest (i + 1)

/-- The key the comparator orders by, lexicographically with `false` before `true`:
(not visible, not a shadow caster, distance minus radius). -/
def sortKey (H : Headers) (lights : LightListInfo) (flags i : Nat) : Bool ×ₗ Bool ×ₗ ℚ :=
  toLex (decide (¬ ((lights.getD i default).visibilityMask &&& flags ≠ 0)),
    toLex (decide (¬ ((lights.getD i default).visibilityMask &&& H.LAYER_SHADOW_CASTER ≠ 0)),
      (lights.getD i default).fDist))

/-- The winners of the first loop when every slot accepts directional lights: the first
`S` eligible lights of the directional run the list starts with, in list order. -/
def directionalWinners (H : Headers) (flags : Nat) (lights : LightListInfo) (S : Nat) :
    List Nat :=
  (eligibleIdxFrom H flags (lights.take (directionalRunLength H lights)) 0).take S

/-- The indices after the leading directional run, sorted by the comparator: what
`std::partial_sort_copy` would produce with room for all of them. -/
def sortedRest (H : Headers) (flags : Nat) (lights : LightListInfo) : List Nat :=
  List.insertionSort (notAfter (ShadowMappingLightCmp H lights flags))
    (List.range' (directionalRunLength H lights)
      (lights.length - directionalRunLength H lights))

/-- The winners of the second loop when every slot accepts every eligible light: the
eligible lights at the front of the `k` closest of the rest. -/
def closestWinners (H : Headers) (flags : Nat) (lights : LightListInfo) (k : Nat) :
    List Nat :=
  ((sortedRest H flags lights).take k).takeWhile
    (fun i => decide (eligibleAt H flags lights i))

/-- The combined visibility flags of a call: viewport mask and scene-manager mask. -/
def combinedFlags (args : BuildArgs) : Nat :=
  args.viewportVisibilityMask &&& args.sceneVisibilityMask

/-- The slotted lights, in slot order, when every slot accepts every eligible light:
the directional winners, then the closest winners for the slots left. -/
def winners (H : Headers) (args : BuildArgs) (S : Nat) : List Nat :=
  directionalWinners H (combinedFlags args) args.globalLightList S ++
    closestWinners H (combinedFlags args) args.globalLightList
      (S - (directionalWinners H (combinedFlags args) args.globalLightList S).length)

/-- The number of eligible lights among `ls`. -/
def eligibleCount (H : Headers) (flags : Nat) (ls : List LightListEntry) : Nat :=
  (ls.filter (fun e => decide (eligible H flags e))).length

/-! ## Concrete inputs -/

/-- A visibility mask that is visible under flags `1` and carries the shadow-caster bit
of `stdHeaders`. -/
def casterMask : Nat := 2 ^ 30 + 1

/-- A light list from (type, distance minus radius) pairs: light `i` has identity
`100 + i` and the mask `casterMask`. -/
def mkLightList (l : List (Nat × ℚ)) : LightListInfo :=
  l.enum.map (fun p => ⟨⟨100 + p.1, p.2.1⟩, casterMask, p.2.2⟩)

/-- A freshly constructed node with the given slot masks: null last camera, last frame
`-1`, `mNumLights` blank slots. -/
def freshNode (masks : List Nat) : CompositorShadowNode :=
  { mDefinition := { mNumLights := masks.length, mLightTypesMask := masks }
    mLastCamera := none
    mLastFrame := SIZE_MAX
    mShadowMapCastingLights := List.replicate masks.length LightClosest.blank
    mAffectedLights := []
    mNumActiveShadowMapCastingLights := 0
    mTmpSortedIndexes := []
    mCastersBox := ⟨(0, 0, 0), (0, 0, 0)⟩
    mShadowMapCameras := [] }

/-- The arguments of a call for camera `1` in frame `0` with all masks `1`. -/
def mkArgs (l : List (Nat × ℚ)) : BuildArgs :=
  { newCamera := 1
    currentFrameCount := 0
    viewportVisibilityMask := 1
    sceneVisibilityMask := 1
    globalLightList := mkLightList l
    castersBox := ⟨(0, 0, 0), (1, 1, 1)⟩ }

/-- Three directional lights and ten point lights with distinct distances. -/
def scenarioLights : List (Nat × ℚ) :=
  [(0, 5), (0, 3), (0, 4), (1, 9), (1, 2), (1, 7), (1, 1), (1, 8), (1, 3), (1, 6), (1, 5),
    (1, 4), (1, 10)]

/-- Three slots that accept every light type; one directional and two point lights. -/
def fitsNode : CompositorShadowNode := freshNode [7, 7, 7]

/-- The call for `fitsNode`: as many eligible lights as slots. -/
def fitsArgs : BuildArgs := mkArgs [(0, 5), (1, 2), (1, 1)]

/-- Two slots that accept every light type. -/
def overNode : CompositorShadowNode := freshNode [7, 7]

/-- The call for `overNode`: one directional and three point lights, all eligible. -/
def overArgs : BuildArgs := mkArgs [(0, 5), (1, 2), (1, 1), (1, 3)]

/-- The node of the scenario: slot 0 for directional lights only, slots 1 to 3 for point
and spot lights only. -/
def scenarioNode : CompositorShadowNode := freshNode [1, 6, 6, 6]

/-- The call of the scenario. -/
def scenarioArgs : BuildArgs := mkArgs scenarioLights

/-- A node that has already served camera `1` in frame `0`. -/
def servedNode : CompositorShadowNode :=
  { freshNode [7, 7] with mLastCamera := some 1, mLastFrame := 0 }

/-! ## The grid cache of `ForwardPlusBase` -/

/-- A `CachedGrid` entry. -/
structure CachedGrid where
  camera : Nat
  reflection : Bool
  aspectRatio : ℚ
  shadowNode : Option Nat
  lastFrame : Nat
  gridBuffer : Option Nat
  globalLightListBuffer : Option Nat
deriving DecidableEq

/-- What `getCachedGridFor` reads of its `Camera` argument: the pointer itself,
`isReflected()` and `getAspectRatio()`. -/
structure GridCamera where
  ptr : Nat
  isReflected : Bool
  aspectRatio : ℚ
deriving DecidableEq

/-- The literal `1e-6f` of the aspect-ratio test, as the decimal it denotes. -/
def aspectTolerance : ℚ := 1 / 1000000

/-- The condition of the `if` in the lookup loop of `getCachedGridFor`. -/
def cachedGridMatches (itor : CachedGrid) (camera : GridCamera) (shadowNode : Option Nat) :
    Prop :=
  itor.camera = camera.ptr ∧ itor.reflection = camera.isReflected ∧
    itor.aspectRatio - camera.aspectRatio < aspectTolerance ∧ itor.shadowNode = shadowNode

instance cachedGridMatchesDecidable (itor : CachedGrid) (camera : GridCamera)
    (shadowNode : Option Nat) : Decidable (cachedGridMatches itor camera shadowNode) := by
  unfold cachedGridMatches; infer_instance

/-- The lookup loop of the mutable `getCachedGridFor` over the entries from `itor` on:
`none` when no entry matches, otherwise the returned `upToDate`, the offset of the
matched entry from `itor`, and the entries with the match's `lastFrame` refreshed. -/
def getCachedGridLoop (camera : GridCamera) (shadowNode : Option Nat) (frameCount : Nat) :
    List CachedGrid → Option (Bool × Nat × List CachedGrid)
  | [] => none
  | itor :: rest =>
    if cachedGridMatches itor camera shadowNode then
      some (decide (itor.lastFrame = frameCount), 0,
        { itor with lastFrame := frameCount } :: rest)
    else
      match getCachedGridLoop camera shadowNode frameCount rest with
      | none => none
      | some (upToDate, offset, entries) => some (upToDate, offset + 1, itor :: entries)

/-- The mutable `ForwardPlusBase::getCachedGridFor( camera, outCachedGrid )` on the
vector `mCachedGrid`, with `shadowNode` the value of
`mSceneManager->getCurrentShadowNode()` and `frameCount` that of
`mVaoManager->getFrameCount()`. The result is the returned flag, the index of the entry
`*outCachedGrid` points to, and the vector after the call. -/
def getCachedGridFor (mCachedGrid : List CachedGrid) (camera : GridCamera)
    (shadowNode : Option Nat) (frameCount : Nat) : Bool × Nat × List CachedGrid :=
  match getCachedGridLoop camera shadowNode frameCount mCachedGrid with
  | some found => found
  | none =>
    (false, mCachedGrid.length,
      mCachedGrid ++ [{ camera := camera.ptr, reflection := camera.isReflected,
                        aspectRatio := camera.aspectRatio, shadowNode := shadowNode,
                        lastFrame := frameCount, gridBuffer := none,
                        globalLightListBuffer := none }])

/-- The lookup key the spec gives the cache: same camera, reflection flag and shadow
node, and aspect ratios less than the tolerance apart. -/
def sameGridKey (g : CachedGrid) (camera : GridCamera) (shadowNode : Option Nat) : Prop :=
  g.camera = camera.ptr ∧ g.reflection = camera.isReflected ∧
    |g.aspectRatio - camera.aspectRatio| < aspectTolerance ∧ g.shadowNode = shadowNode

/-- A cache with one entry for camera 7 at aspect ratio 1 under shadow node 3, last
used in frame 4. -/
def oneGridCache : List CachedGrid :=
  [{ camera := 7, reflection := false, aspectRatio := 1, shadowNode := some 3,
     lastFrame := 4, gridBuffer := some 11, globalLightListBuffer := some 12 }]

/-- Camera 7, not reflected, at aspect ratio 2. -/
def wideCamera : GridCamera := { ptr := 7, isReflected := false, aspectRatio := 2 }

/-- One call of the mutable `getCachedGridFor`: what it reads of its camera, and the
values of `getCurrentShadowNode()` and `getFrameCount()` at the time of the call. -/
structure GridCall where
  camera : GridCamera
  shadowNode : Option Nat
  frameCount : Nat
deriving DecidableEq

/-- The vector `mCachedGrid` after a sequence of calls of the mutable `getCachedGridFor`,
one after the other. -/
def runGridCalls (mCachedGrid : List CachedGrid) : List GridCall → List CachedGrid
  | [] => mCachedGrid
  | call :: calls =>
    runGridCalls
      (getCachedGridFor mCachedGrid call.camera call.shadowNode call.frameCount).2.2 calls

/-- Two entries do not have the same key: they differ in camera, in reflection flag or in
shadow node, or their aspect ratios are at least the tolerance apart. -/
def distinctGridKeys (a b : CachedGrid) : Prop :=
  a.camera ≠ b.camera ∨ a.reflection ≠ b.reflection ∨ a.shadowNode ≠ b.shadowNode ∨
    aspectTolerance ≤ |a.aspectRatio - b.aspectRatio|

instance distinctGridKeysDecidable (a b : CachedGrid) : Decidable (distinctGridKeys a b) := by
  unfold distinctGridKeys; infer_instance

/-- The fields of an entry that make up its key. -/
def CachedGrid.key (g : CachedGrid) : Nat × Bool × ℚ × Option Nat :=
  (g.camera, g.reflection, g.aspectRatio, g.shadowNode)

/-- Three calls for camera 7 under shadow node 3: at aspect ratio 2, at aspect ratio 1
and again at aspect ratio 2. -/
def someGridCalls : List GridCall :=
  [⟨⟨7, false, 2⟩, some 3, 0⟩, ⟨⟨7, false, 1⟩, some 3, 1⟩, ⟨⟨7, false, 2⟩, some 3, 2⟩]

/-! ## The program cache of `GL3PlusGLSLMonolithicProgramManager` -/

/-- What the manager uses from outside the sources: the hash `FastHash( data, len,
hashSoFar )` on the four bytes of a shader ID, as a function of the ID and the hash so
far, and `GL3PlusGLSLShader::getShaderID()` as a function of the shader pointer. -/
structure ProgramEnv where
  FastHash : Nat → Nat → Nat
  getShaderID : Nat → Nat

/-- A `GL3PlusGLSLMonolithicProgram` object: its address and the stages it was
constructed from, in the order of the constructor's arguments. -/
structure GL3PlusGLSLMonolithicProgram where
  ptr : Nat
  vertexShader : Option Nat
  hullShader : Option Nat
  domainShader : Option Nat
  geometryShader : Option Nat
  fragmentShader : Option Nat
  computeShader : Option Nat
deriving DecidableEq

/-- The manager: the map of programs (key and program, in insertion order), the active
program and the six active stages of the base class. -/
structure GL3PlusGLSLMonolithicProgramManager where
  mMonolithicPrograms : List (Nat × GL3PlusGLSLMonolithicProgram)
  mActiveMonolithicProgram : Option GL3PlusGLSLMonolithicProgram
  mActiveVertexShader : Option Nat
  mActiveFragmentShader : Option Nat
  mActiveGeometryShader : Option Nat
  mActiveDomainShader : Option Nat
  mActiveHullShader : Option Nat
  mActiveComputeShader : Option Nat
deriving DecidableEq

/-- The manager after its constructor: empty map, no active program, no active stage. -/
def GL3PlusGLSLMonolithicProgramManager.initial : GL3PlusGLSLMonolithicProgramManager :=
  { mMonolithicPrograms := [], mActiveMonolithicProgram := none,
    mActiveVertexShader := none, mActiveFragmentShader := none,
    mActiveGeometryShader := none, mActiveDomainShader := none,
    mActiveHullShader := none, mActiveComputeShader := none }

/-- `std::map::find`: the program stored under `key`, if any. -/
def mapFind (m : List (Nat × GL3PlusGLSLMonolithicProgram)) (key : Nat) : Option GL3PlusGLSLMonolithicProgram :=
  match m with
  | [] => none
  | (k, p) :: rest => if k = key then some p else mapFind rest key

/-- `m[key] = p`: replaces the program stored under `key` or adds the entry. -/
def mapAssign (m : List (Nat × GL3PlusGLSLMonolithicProgram)) (key : Nat) (p : GL3PlusGLSLMonolithicProgram) :
    List (Nat × GL3PlusGLSLMonolithicProgram) :=
  match m with
  | [] => [(key, p)]
  | (k, q) :: rest => if k = key then (key, p) :: rest else (k, q) :: mapAssign rest key p

/-- One step `if (stage) activeKey = FastHash( &shaderID, 4, activeKey )`. -/
def hashStage (env : ProgramEnv) (stage : Option Nat) (activeKey : Nat) : Nat :=
  match stage with
  | some shader => env.FastHash (env.getShaderID shader) activeKey
  | none => activeKey

/-- The key `getActiveMonolithicProgram` computes: the stages are folded in the order
vertex, fragment, geometry, domain, hull, compute, starting from 0. -/
def activeKey (env : ProgramEnv) (mgr : GL3PlusGLSLMonolithicProgramManager) : Nat :=
  hashStage env mgr.mActiveComputeShader
    (hashStage env mgr.mActiveHullShader
      (hashStage env mgr.mActiveDomainShader
        (hashStage env mgr.mActiveGeometryShader
          (hashStage env mgr.mActiveFragmentShader
            (hashStage env mgr.mActiveVertexShader 0)))))

/-- `getActiveMonolithicProgram()`: the returned pointer and the manager after the call.
`fresh` is the address `new` gives the program if one is created. -/
def getActiveMonolithicProgram (env : ProgramEnv) (mgr : GL3PlusGLSLMonolithicProgramManager) (fresh : Nat) :
    Option GL3PlusGLSLMonolithicProgram × GL3PlusGLSLMonolithicProgramManager :=
  match mgr.mActiveMonolithicProgram with
  | some p => (some p, mgr)
  | none =>
    if activeKey env mgr > 0 then
      match mapFind mgr.mMonolithicPrograms (activeKey env mgr) with
      | none =>
        let created : GL3PlusGLSLMonolithicProgram :=
          { ptr := fresh
            vertexShader := mgr.mActiveVertexShader
            hullShader := mgr.mActiveHullShader
            domainShader := mgr.mActiveDomainShader
            geometryShader := mgr.mActiveGeometryShader
            fragmentShader := mgr.mActiveFragmentShader
            computeShader := mgr.mActiveComputeShader }
        (some created,
          { mgr with
            mActiveMonolithicProgram := some created
            mMonolithicPrograms :=
              mapAssign mgr.mMonolithicPrograms (activeKey env mgr) created })
      | some found => (some found, { mgr with mActiveMonolithicProgram := some found })
    else
      (none, mgr)

/-- `setActiveFragmentShader( fragmentShader )`. -/
def setActiveFragmentShader (mgr : GL3PlusGLSLMonolithicProgramManager) (fragmentShader : Option Nat) :
    GL3PlusGLSLMonolithicProgramManager :=
  if fragmentShader ≠ mgr.mActiveFragmentShader then
    { mgr with mActiveFragmentShader := fragmentShader, mActiveMonolithicProgram := none }
  else mgr

/-- `setActiveVertexShader( vertexShader )`. -/
def setActiveVertexShader (mgr : GL3PlusGLSLMonolithicProgramManager) (vertexShader : Option Nat) :
    GL3PlusGLSLMonolithicProgramManager :=
  if vertexShader ≠ mgr.mActiveVertexShader then
    { mgr with mActiveVertexShader := vertexShader, mActiveMonolithicProgram := none }
  else mgr

/-- `setActiveGeometryShader( geometryShader )`. -/
def setActiveGeometryShader (mgr : GL3PlusGLSLMonolithicProgramManager) (geometryShader : Option Nat) :
    GL3PlusGLSLMonolithicProgramManager :=
  if geometryShader ≠ mgr.mActiveGeometryShader then
    { mgr with mActiveGeometryShader := geometryShader, mActiveMonolithicProgram := none }
  else mgr

/-- `setActiveHullShader( hullShader )`. -/
def setActiveHullShader (mgr : GL3PlusGLSLMonolithicProgramManager) (hullShader : Option Nat) : GL3PlusGLSLMonolithicProgramManager :=
  if hullShader ≠ mgr.mActiveHullShader then
    { mgr with mActiveHullShader := hullShader, mActiveMonolithicProgram := none }
  else mgr

/-- `setActiveDomainShader( domainShader )`. -/
def setActiveDomainShader (mgr : GL3PlusGLSLMonolithicProgramManager) (domainShader : Option Nat) :
    GL3PlusGLSLMonolithicProgramManager :=
  if domainShader ≠ mgr.mActiveDomainShader then
    { mgr with mActiveDomainShader := domainShader, mActiveMonolithicProgram := none }
  else mgr

/-- `setActiveComputeShader( computeShader )`. -/
def setActiveComputeShader (mgr : GL3PlusGLSLMonolithicProgramManager) (computeShader : Option Nat) :
    GL3PlusGLSLMonolithicProgramManager :=
  if computeShader ≠ mgr.mActiveComputeShader then
    { mgr with mActiveComputeShader := computeShader, mActiveMonolithicProgram := none }
  else mgr

/-- Binding a vertex and a fragment shader: the two setter calls. -/
def bindStages (mgr : GL3PlusGLSLMonolithicProgramManager) (vertexShader fragmentShader : Nat) : GL3PlusGLSLMonolithicProgramManager :=
  setActiveFragmentShader (setActiveVertexShader mgr (some vertexShader)) (some fragmentShader)

/-- The consistency every reachable manager state has: an active program is the one the
map stores under the key of the active stages. -/
def ActiveIsCached (env : ProgramEnv) (mgr : GL3PlusGLSLMonolithicProgramManager) : Prop :=
  ∀ p, mgr.mActiveMonolithicProgram = some p →
    mapFind mgr.mMonolithicPrograms (activeKey env mgr) = some p

/-- A hash for concrete runs: shader ID plus one plus twice the hash so far. -/
def toyEnv : ProgramEnv := { FastHash := fun id h => id + 1 + 2 * h, getShaderID := fun s => s }

/-- The lookup key as the claim words it: `FastHash` folded, from seed 0, over the shader
IDs of the non-null active stages in the order vertex, fragment, geometry, domain, hull,
compute. -/
def foldedStageKey (env : ProgramEnv) (mgr : GL3PlusGLSLMonolithicProgramManager) : Nat :=
  ([mgr.mActiveVertexShader, mgr.mActiveFragmentShader, mgr.mActiveGeometryShader,
      mgr.mActiveDomainShader, mgr.mActiveHullShader, mgr.mActiveComputeShader].filterMap
    id).foldl (fun key shader => env.FastHash (env.getShaderID shader) key) 0

/-- The program `new GL3PlusGLSLMonolithicProgram( ... )` builds from the active stages
of the manager at the address `fresh`. -/
def programOfActiveStages (mgr : GL3PlusGLSLMonolithicProgramManager) (fresh : Nat) :
    GL3PlusGLSLMonolithicProgram :=
  { ptr := fresh
    vertexShader := mgr.mActiveVertexShader
    hullShader := mgr.mActiveHullShader
    domainShader := mgr.mActiveDomainShader
    geometryShader := mgr.mActiveGeometryShader
    fragmentShader := mgr.mActiveFragmentShader
    computeShader := mgr.mActiveComputeShader }

/-- A manager with one program cached under key 9, vertex shader 1 and compute shader 4
bound, and no active program. -/
def boundManager : GL3PlusGLSLMonolithicProgramManager :=
  { mMonolithicPrograms := [(9, ⟨70, some 5, none, none, none, some 6, none⟩)]
    mActiveMonolithicProgram := none
    mActiveVertexShader := some 1, mActiveFragmentShader := none
    mActiveGeometryShader := none, mActiveDomainShader := none
    mActiveHullShader := none, mActiveComputeShader := some 4 }

/-! ## `postInitializePass` -/

/-- What `postInitializePass` reads of the pass: `passDef->mShadowMapIdx`, whether
`passDef->getType() == PASS_SCENE`, the viewport's actual width and height in pixels, and
`getShadowMapSupportedLightTypes()` of the parent target definition (a `uint8`). -/
structure PassInfo where
  mShadowMapIdx : Nat
  isPassScene : Bool
  actualWidth : Nat
  actualHeight : Nat
  shadowMapSupportedLightTypes : Nat
deriving DecidableEq

/-- The vector `Vector2( vp->getActualWidth(), vp->getActualHeight() )`. -/
def PassInfo.vpSize (pass : PassInfo) : Vector2 := ⟨pass.actualWidth, pass.actualHeight⟩

/-- The shadow-map camera the constructor builds: every recorded viewport size is
`-Vector2::UNIT_SCALE`. -/
def constructedCamera (H : Headers) (camera : Nat) : ShadowMapCamera :=
  { camera := camera, scenePassesViewportSize := List.replicate H.NUM_LIGHT_TYPES ⟨-1, -1⟩ }

/-- A `Vector3`. -/
structure Vector3 where
  x : ℚ
  y : ℚ
  z : ℚ
deriving DecidableEq

/-- A `ColourValue`. -/
structure ColourValue where
  r : ℚ
  g : ℚ
  b : ℚ
  a : ℚ
deriving DecidableEq

/-- `ColourValue::operator*( Real )`. -/
def ColourValue.scale (c : ColourValue) (f : ℚ) : ColourValue :=
  ⟨c.r * f, c.g * f, c.b * f, c.a * f⟩

/-- What `fillGlobalLightListBuffer` reads of a light of `mCurrentLightList`. -/
structure FwdLight where
  /-- The value of `getParentNode()->_getDerivedPosition()`. -/
  derivedPosition : Vector3
  type : Nat
  diffuseColour : ColourValue
  specularColour : ColourValue
  powerScale : ℚ
  attenuationRange : ℚ
  attenuationLinear : ℚ
  attenuationQuadric : ℚ
  derivedDirection : Vector3
  /-- The value of `getSpotlightInnerAngle().valueRadians()`. -/
  spotlightInnerAngle : ℚ
  /-- The value of `getSpotlightOuterAngle().valueRadians()`. -/
  spotlightOuterAngle : ℚ
  spotlightFalloff : ℚ
deriving DecidableEq

/-- What the function uses from outside the sources, as functions on rationals: the
products `viewMatrix * v` and `viewMatrix3 * v` for the camera's view matrix, and
`cosf`. -/
structure ViewEnv where
  viewMatrix : Vector3 → Vector3
  viewMatrix3 : Vector3 → Vector3
  cosf : ℚ → ℚ

/-- The options of `unmap`. -/
inductive UnmapOptions where
  | UO_KEEP_PERSISTENT
  | UO_UNMAP_ALL
deriving DecidableEq

/-- A `TexBufferPacked` as the function sees it: its contents as 4-byte floats, and the
`map( elementStart, elementCount )` and `unmap( option )` calls made on it so far (the
elements of the buffer are bytes). -/
structure TexBufferPacked where
  floats : List ℚ
  mapCalls : List (Nat × Nat)
  unmapCalls : List UnmapOptions
deriving DecidableEq

/-- The constant `ForwardPlusBase::NumBytesPerLight`. -/
def NumBytesPerLight : Nat := 6 * 4 * 4

/-- The write cursor: the floats of the buffer and the offset of `lightData` from the
start of the mapping, in floats. -/
structure LightDataCursor where
  floats : List ℚ
  lightData : Nat
deriving DecidableEq

/-- The statement `*lightData++ = value` for a mapping of `mappedFloats` floats; a write
outside the mapping is `none`. -/
def store (mappedFloats : Nat) (cur : LightDataCursor) (value : ℚ) : Option LightDataCursor :=
  if cur.lightData < mappedFloats ∧ cur.lightData < cur.floats.length then
    some ⟨cur.floats.set cur.lightData value, cur.lightData + 1⟩
  else none

/-- The statement `++lightData`. -/
def skip (cur : LightDataCursor) : LightDataCursor := ⟨cur.floats, cur.lightData + 1⟩

/-- The statements of the loop body that move `lightData`, in program order, for one
light: `some value` is `*lightData++ = value`, `none` is `++lightData`. -/
def lightWrites (env : ViewEnv) (light : FwdLight) : List (Option ℚ) :=
  [ some (env.viewMatrix light.derivedPosition).x,
    some (env.viewMatrix light.derivedPosition).y,
    some (env.viewMatrix light.derivedPosition).z,
    some (light.type : ℚ),
    some (light.diffuseColour.scale light.powerScale).r,
    some (light.diffuseColour.scale light.powerScale).g,
    some (light.diffuseColour.scale light.powerScale).b,
    none,
    some (light.specularColour.scale light.powerScale).r,
    some (light.specularColour.scale light.powerScale).g,
    some (light.specularColour.scale light.powerScale).b,
    none,
    some light.attenuationRange,
    some light.attenuationLinear,
    some light.attenuationQuadric,
    some (1 / light.attenuationRange),
    some (env.viewMatrix3 light.derivedDirection).x,
    some (env.viewMatrix3 light.derivedDirection).y,
    some (env.viewMatrix3 light.derivedDirection).z,
    none,
    some (1 / (env.cosf (light.spotlightInnerAngle * (1 / 2)) -
      env.cosf (light.spotlightOuterAngle * (1 / 2)))),
    some (env.cosf (light.spotlightOuterAngle * (1 / 2))),
    some light.spotlightFalloff,
    none ]

/-- Runs statements on the cursor, in order; `none` when a write leaves the mapping. -/
def runWrites (mappedFloats : Nat) : List (Option ℚ) → LightDataCursor →
    Option LightDataCursor
  | [], cur => some cur
  | some value :: rest, cur =>
    match store mappedFloats cur value with
    | none => none
    | some cur1 => runWrites mappedFloats rest cur1
  | none :: rest, cur => runWrites mappedFloats rest (skip cur)

/-- The body of the `while` loop of `fillGlobalLightListBuffer` for one light. -/
def writeLight (env : ViewEnv) (mappedFloats : Nat) (light : FwdLight)
    (cur : LightDataCursor) : Option LightDataCursor :=
  runWrites mappedFloats (lightWrites env light) cur

/-- The `while( itLights != enLights )` loop of `fillGlobalLightListBuffer`. -/
def writeLights (env : ViewEnv) (mappedFloats : Nat) :
    List FwdLight → LightDataCursor → Option LightDataCursor
  | [], cur => some cur
  | light :: rest, cur =>
    match writeLight env mappedFloats light cur with
    | none => none
    | some cur1 => writeLights env mappedFloats rest cur1

/-- `ForwardPlusBase::fillGlobalLightListBuffer( camera, globalLightListBuffer )` with
`mCurrentLightList` as an argument: the buffer after the call. The result is `none` when
the buffer is smaller than the range to map or a write leaves the mapping. -/
def fillGlobalLightListBuffer (env : ViewEnv) (mCurrentLightList : List FwdLight)
    (globalLightListBuffer : TexBufferPacked) : Option TexBufferPacked :=
  if mCurrentLightList.length = 0 then some globalLightListBuffer
  else if NumBytesPerLight * mCurrentLightList.length ≤ 4 * globalLightListBuffer.floats.length
  then
    match writeLights env (NumBytesPerLight * mCurrentLightList.length / 4) mCurrentLightList
        ⟨globalLightListBuffer.floats, 0⟩ with
    | none => none
    | some cur =>
      some { floats := cur.floats
             mapCalls := globalLightListBuffer.mapCalls ++
               [(0, NumBytesPerLight * mCurrentLightList.length)]
             unmapCalls := globalLightListBuffer.unmapCalls ++ [.UO_KEEP_PERSISTENT] }
  else none

/-- The record of one light as the spec lays it out, 24 floats: view-space position and
type at 0 to 3, diffuse times power at 4 to 6, specular times power at 8 to 10, (range,
linear, quadratic, 1/range) at 12 to 15, view-rotated direction at 16 to 18, spot
parameters at 20 to 22; the floats 7, 11, 19 and 23 keep what `old` holds there. -/
def lightRecord (env : ViewEnv) (light : FwdLight) (old : List ℚ) : List ℚ :=
  [ (env.viewMatrix light.derivedPosition).x,
    (env.viewMatrix light.derivedPosition).y,
    (env.viewMatrix light.derivedPosition).z,
    (light.type : ℚ),
    light.diffuseColour.r * light.powerScale,
    light.diffuseColour.g * light.powerScale,
    light.diffuseColour.b * light.powerScale,
    old.getD 7 0,
    light.specularColour.r * light.powerScale,
    light.specularColour.g * light.powerScale,
    light.specularColour.b * light.powerScale,
    old.getD 11 0,
    light.attenuationRange,
    light.attenuationLinear,
    light.attenuationQuadric,
    1 / light.attenuationRange,
    (env.viewMatrix3 light.derivedDirection).x,
    (env.viewMatrix3 light.derivedDirection).y,
    (env.viewMatrix3 light.derivedDirection).z,
    old.getD 19 0,
    1 / (env.cosf (light.spotlightInnerAngle * (1 / 2)) -
      env.cosf (light.spotlightOuterAngle * (1 / 2))),
    env.cosf (light.spotlightOuterAngle * (1 / 2)),
    light.spotlightFalloff,
    old.getD 23 0 ]

/-- The records of the lights, one after the other, over the old contents `old` of the
mapped floats. -/
def lightRecords (env : ViewEnv) : List FwdLight → List ℚ → List ℚ
  | [], _ => []
  | light :: rest, old =>
    lightRecord env light (old.take 24) ++ lightRecords env rest (old.drop 24)

/-- Stand-ins for concrete runs: the view matrix is the identity and `cosf` is replaced
by `fun a => 1 - a`. -/
def toyViewEnv : ViewEnv :=
  { viewMatrix := fun v => v, viewMatrix3 := fun v => v, cosf := fun a => 1 - a }

/-- A point light and a spot light. -/
def toyLights : List FwdLight :=
  [ { derivedPosition := ⟨1, 2, 3⟩, type := 1, diffuseColour := ⟨1, 1, 1, 1⟩,
      specularColour := ⟨1, 1, 1, 1⟩, powerScale := 2, attenuationRange := 10,
      attenuationLinear := 1, attenuationQuadric := 0, derivedDirection := ⟨0, 0, 1⟩,
      spotlightInnerAngle := 1, spotlightOuterAngle := 2, spotlightFalloff := 1 },
    { derivedPosition := ⟨4, 5, 6⟩, type := 2, diffuseColour := ⟨1, 0, 0, 1⟩,
      specularColour := ⟨0, 1, 0, 1⟩, powerScale := 3, attenuationRange := 20,
      attenuationLinear := 1, attenuationQuadric := 1, derivedDirection := ⟨0, 1, 0⟩,
      spotlightInnerAngle := 1, spotlightOuterAngle := 3, spotlightFalloff := 2 } ]

/-- An unmapped buffer of 64 floats, all zero, with no call made on it yet. -/
def toyBuffer : TexBufferPacked :=
  { floats := List.replicate 64 0, mapCalls := [], unmapCalls := [] }

/-- The codes of `Exception::ExceptionCodes` the modelled functions raise. -/
inductive ExceptionCodes where
  | ERR_INVALIDPARAMS
  | ERR_NOT_IMPLEMENTED
deriving DecidableEq

/-- How a call can end other than by returning: an `OGRE_EXCEPT`, a failed `assert`
(debug build), or a read outside a vector. -/
inductive NodeFailure where
  | exception (code : ExceptionCodes)
  | assertionFailed
  | outOfBounds
deriving DecidableEq

/-- `CompositorShadowNode::isShadowMapIdxActive( shadowMapIdx )`; `none` when
`shadowTexDef.light` is not an index of `mShadowMapCastingLights`. -/
def isShadowMapIdxActive (node : CompositorShadowNode) (shadowMapIdx : Nat) : Option Bool :=
  if shadowMapIdx < node.mDefinition.mShadowMapTexDefinitions.length then
    match node.mDefinition.mShadowMapTexDefinitions[shadowMapIdx]? with
    | none => none
    | some shadowTexDef =>
      match node.mShadowMapCastingLights[shadowTexDef.light]? with
      | none => none
      | some slot => some (decide (slot.light ≠ none))
  else
    some true

/-- `CompositorShadowNode::getPssmSplits( shadowMapIdx )`: the split points the returned
pointer points to, `none` for the null pointer. -/
def getPssmSplits (node : CompositorShadowNode) (shadowMapIdx : Nat) :
    Except NodeFailure (Option (List ℚ)) :=
  if shadowMapIdx < node.mShadowMapCastingLights.length then
    match node.mDefinition.mShadowMapTexDefinitions[shadowMapIdx]? with
    | none => .error .outOfBounds
    | some shadowTexDef =>
      if shadowTexDef.shadowMapTechnique = .SHADOWMAP_PSSM then
        match isShadowMapIdxActive node shadowMapIdx with
        | none => .error .outOfBounds
        | some false => .ok none
        | some true =>
          match node.mShadowMapCameras[shadowMapIdx]? with
          | none => .error .outOfBounds
          | some shadowMapCamera =>
            match node.shadowCameraSetups[shadowMapCamera.shadowCameraSetup]? with
            | none => .error .outOfBounds
            | some (.PSSMShadowCameraSetup splitPoints) => .ok (some splitPoints)
            | some _ => .error .assertionFailed
      else .ok none
  else .ok none

/-- Whether shadow map `shadowMapIdx` has an assigned caster, as the claims word it: its
definition exists and the light slot the definition names holds a light. -/
def hasAssignedCaster (node : CompositorShadowNode) (shadowMapIdx : Nat) : Bool :=
  match node.mDefinition.mShadowMapTexDefinitions[shadowMapIdx]? with
  | none => false
  | some shadowTexDef =>
    match node.mShadowMapCastingLights[shadowTexDef.light]? with
    | none => false
    | some slot => slot.light.isSome

/-- A PSSM definition for light slot 0 with three splits, rendering split `split` to MRT
index 0 of local texture `split`; the splits after the first share the setup of the
first. -/
def pssmDefinition (split : Nat) : ShadowTextureDefinition :=
  { light := 0, split := split, shadowMapTechnique := .SHADOWMAP_PSSM, numSplits := 3,
    mrtIndex := 0, sharesSetupWith := if split = 0 then SIZE_MAX else 0,
    textureIndex := split, textureSource := .TEXTURE_LOCAL }

/-- A node for one directional light with three PSSM splits: one light slot, three shadow
maps that share one setup, one texture each. The slot holds light 100. -/
def pssmNode : CompositorShadowNode :=
  { mDefinition :=
      { mNumLights := 1, mLightTypesMask := [1],
        mShadowMapTexDefinitions := [pssmDefinition 0, pssmDefinition 1, pssmDefinition 2] }
    mLastCamera := some 1
    mLastFrame := 0
    mShadowMapCastingLights := [⟨some ⟨100, 0⟩, 0, 5⟩]
    mAffectedLights := [true, false, false]
    mNumActiveShadowMapCastingLights := 1
    mTmpSortedIndexes := []
    mCastersBox := ⟨(0, 0, 0), (1, 1, 1)⟩
    mShadowMapCameras :=
      [{ constructedCamera stdHeaders 50 with idxToLocalTextures := 0, idxToContiguousTex := 0 },
       { constructedCamera stdHeaders 51 with idxToLocalTextures := 1, idxToContiguousTex := 1 },
       { constructedCamera stdHeaders 52 with idxToLocalTextures := 2, idxToContiguousTex := 2 }]
    mLocalTextures := [⟨[20]⟩, ⟨[21]⟩, ⟨[22]⟩]
    mContiguousShadowMapTex := [20, 21, 22]
    mCurrentLightList := []
    shadowCameraSetups := [.PSSMShadowCameraSetup [1, 10, 40, 100]] }

/-- What the constructor takes from outside the sources. -/
structure NodeEnv where
  /-- The camera `sceneManager->createCamera( ... )` returns for shadow map
  `shadowMapIdx`. -/
  createCamera : Nat → Nat
  /-- The split points `calculateSplitPoints( splitCount, nearDist, farDist, lambda )`
  leaves in a `PSSMShadowCameraSetup`. -/
  calculateSplitPoints : Nat → ℚ → ℚ → ℚ → List ℚ

/-- The body of the `while` loop of the constructor for the definition `itor`, on the
node under construction; `shadowMapIdx` is the number of cameras pushed so far. The two
`uint32` casts are exact (the indices are below the number of textures). A texture
without the MRT index raises `ERR_INVALIDPARAMS`, the technique `SHADOWMAP_PLANEOPTIMAL`
falls to the `default:` label of the `switch`. -/
def constructShadowMap (H : Headers) (env : NodeEnv) (itor : ShadowTextureDefinition)
    (node : CompositorShadowNode) : Except NodeFailure CompositorShadowNode :=
  let shadowMapIdx := node.mShadowMapCameras.length
  if itor.textureSource ≠ .TEXTURE_LOCAL then .error .assertionFailed
  else
    match node.mLocalTextures[itor.textureIndex]? with
    | none => .error .outOfBounds
    | some channel =>
      match channel.textures[itor.mrtIndex]? with
      | none => .error (.exception .ERR_INVALIDPARAMS)
      | some refTex =>
        let itContig := node.mContiguousShadowMapTex.indexOf refTex
        let contiguous :=
          if itContig = node.mContiguousShadowMapTex.length then
            node.mContiguousShadowMapTex ++ [refTex]
          else node.mContiguousShadowMapTex
        let push (setup : Nat) (setups : List ShadowCameraSetup) :
            Except NodeFailure CompositorShadowNode :=
          .ok { node with
                mContiguousShadowMapTex := contiguous
                shadowCameraSetups := setups
                mShadowMapCameras := node.mShadowMapCameras ++
                  [{ constructedCamera H (env.createCamera shadowMapIdx) with
                     idxToLocalTextures := itor.textureIndex
                     idxToContiguousTex := itContig
                     shadowCameraSetup := setup }] }
        if itor.sharesSetupWith ≠ SIZE_MAX then
          match node.mShadowMapCameras[itor.sharesSetupWith]? with
          | none => .error .outOfBounds
          | some other => push other.shadowCameraSetup node.shadowCameraSetups
        else
          match itor.shadowMapTechnique with
          | .SHADOWMAP_UNIFORM =>
            push node.shadowCameraSetups.length
              (node.shadowCameraSetups ++ [.DefaultShadowCameraSetup])
          | .SHADOWMAP_FOCUSED =>
            push node.shadowCameraSetups.length
              (node.shadowCameraSetups ++ [.FocusedShadowCameraSetup])
          | .SHADOWMAP_PSSM =>
            push node.shadowCameraSetups.length
              (node.shadowCameraSetups ++
                [.PSSMShadowCameraSetup
                  (env.calculateSplitPoints itor.numSplits (1 / 10) 100 (95 / 100))])
          | .SHADOWMAP_PLANEOPTIMAL => .error (.exception .ERR_NOT_IMPLEMENTED)

/-- The `while( itor != end )` loop of the constructor. -/
def constructorLoop (H : Headers) (env : NodeEnv) :
    List ShadowTextureDefinition → CompositorShadowNode →
      Except NodeFailure CompositorShadowNode
  | [], node => .ok node
  | itor :: rest, node =>
    match constructShadowMap H env itor node with
    | .error e => .error e
    | .ok node1 => constructorLoop H env rest node1

/-- The constructor `CompositorShadowNode::CompositorShadowNode`, with `mLocalTextures`
as the constructor of the base class `CompositorNode` leaves it. (`createPasses()` of the
base class is outside the sources and not part of the model.) -/
def newCompositorShadowNode (H : Headers) (env : NodeEnv)
    (definition : CompositorShadowNodeDef) (mLocalTextures : List CompositorChannel) :
    Except NodeFailure CompositorShadowNode :=
  match constructorLoop H env definition.mShadowMapTexDefinitions
      { mDefinition := definition
        mLastCamera := none
        mLastFrame := SIZE_MAX
        mShadowMapCastingLights := []
        mAffectedLights := []
        mNumActiveShadowMapCastingLights := 0
        mTmpSortedIndexes := []
        mCastersBox := ⟨(0, 0, 0), (0, 0, 0)⟩
        mShadowMapCameras := []
        mLocalTextures := mLocalTextures } with
  | .error e => .error e
  | .ok node =>
    .ok { node with
          mShadowMapCastingLights := vectorResize [] definition.mNumLights LightClosest.blank }

/-- `CompositorShadowNode::getIndexToContiguousShadowMapTex( shadowMapIdx )`. -/
def getIndexToContiguousShadowMapTex (node : CompositorShadowNode) (shadowMapIdx : Nat) :
    Option Nat :=
  (node.mShadowMapCameras[shadowMapIdx]?).map (fun c => c.idxToContiguousTex)

/-- The `while( itor != end )` loop of `finalTargetResized` on the cleared vector
`mContiguousShadowMapTex`; `itDef` and `itor` advance together. -/
def rebuildContiguous (mLocalTextures : List CompositorChannel) :
    List ShadowTextureDefinition → List ShadowMapCamera → List Nat →
      Except NodeFailure (List Nat)
  | _, [], contiguous => .ok contiguous
  | [], _ :: _, _ => .error .outOfBounds
  | itDef :: defs, itor :: cameras, contiguous =>
    if itor.idxToContiguousTex ≥ contiguous.length then
      match mLocalTextures[itor.idxToLocalTextures]? with
      | none => .error .outOfBounds
      | some channel =>
        match channel.textures[itDef.mrtIndex]? with
        | none => .error .outOfBounds
        | some tex => rebuildContiguous mLocalTextures defs cameras (contiguous ++ [tex])
    else rebuildContiguous mLocalTextures defs cameras contiguous

/-- `CompositorShadowNode::finalTargetResized( finalTarget )`; `resizedTextures` is what
`CompositorNode::finalTargetResized` of the base class (outside the sources) leaves in
`mLocalTextures`. -/
def finalTargetResized (node : CompositorShadowNode)
    (resizedTextures : List CompositorChannel) : Except NodeFailure CompositorShadowNode :=
  match rebuildContiguous resizedTextures node.mDefinition.mShadowMapTexDefinitions
      node.mShadowMapCameras [] with
  | .error e => .error e
  | .ok contiguous =>
    .ok { node with mLocalTextures := resizedTextures, mContiguousShadowMapTex := contiguous }

/-- A sequence of `finalTargetResized` notifications, one after the other. -/
def finalTargetResizedAll :
    CompositorShadowNode → List (List CompositorChannel) →
      Except NodeFailure CompositorShadowNode
  | node, [] => .ok node
  | node, resizedTextures :: rest =>
    match finalTargetResized node resizedTextures with
    | .error e => .error e
    | .ok node1 => finalTargetResizedAll node1 rest

/-- The texture a definition names in the given local textures:
`mLocalTextures[index].textures[mrtIndex]`. -/
def definitionTexture (mLocalTextures : List CompositorChannel)
    (d : ShadowTextureDefinition) : Option Nat :=
  (mLocalTextures[d.textureIndex]?).bind (fun channel => channel.textures[d.mrtIndex]?)

/-- The texture of shadow map `i`:
`mLocalTextures[idxToLocalTextures(i)].textures[mrtIndex(i)]`. -/
def shadowMapTexture (node : CompositorShadowNode) (i : Nat) : Option Nat :=
  match node.mShadowMapCameras[i]?, node.mDefinition.mShadowMapTexDefinitions[i]? with
  | some camera, some d =>
    (node.mLocalTextures[camera.idxToLocalTextures]?).bind
      (fun channel => channel.textures[d.mrtIndex]?)
  | _, _ => none

/-- The entry `mContiguousShadowMapTex[idxToContiguousTex(i)]`. -/
def contiguousTexture (node : CompositorShadowNode) (i : Nat) : Option Nat :=
  (getIndexToContiguousShadowMapTex node i).bind
    (fun idx => node.mContiguousShadowMapTex[idx]?)

/-- The contiguous list holds each distinct shadow texture exactly once, and the entry at
the index of every shadow map is the texture of that map. -/
def ContiguousTexturesExact (node : CompositorShadowNode) : Prop :=
  node.mContiguousShadowMapTex.Nodup ∧
  (∀ t ∈ node.mContiguousShadowMapTex, ∃ i, shadowMapTexture node i = some t) ∧
  ∀ i, i < node.mDefinition.mShadowMapTexDefinitions.length →
    ∃ t, shadowMapTexture node i = some t ∧ contiguousTexture node i = some t

/-- The definitions the constructor accepts for the given local textures: every texture
is local and has the MRT index, a shared setup is that of an earlier definition, and a
definition with a setup of its own uses an implemented technique. -/
def acceptedDefinitions (definition : CompositorShadowNodeDef)
    (mLocalTextures : List CompositorChannel) : Prop :=
  ∀ p ∈ definition.mShadowMapTexDefinitions.enum,
    p.2.textureSource = .TEXTURE_LOCAL ∧
    (definitionTexture mLocalTextures p.2).isSome = true ∧
    (if p.2.sharesSetupWith ≠ SIZE_MAX then p.2.sharesSetupWith < p.1
      else p.2.shadowMapTechnique ≠ .SHADOWMAP_PLANEOPTIMAL)

instance acceptedDefinitionsDecidable (definition : CompositorShadowNodeDef)
    (mLocalTextures : List CompositorChannel) :
    Decidable (acceptedDefinitions definition mLocalTextures) := by
  unfold acceptedDefinitions; infer_instance

/-- The resized textures keep the aliasing pattern of the definitions: every definition
still names a texture, and two definitions name the same texture after the resize
exactly when they did before. -/
def sameAliasing (definition : CompositorShadowNodeDef)
    (mLocalTextures resizedTextures : List CompositorChannel) : Prop :=
  (∀ d ∈ definition.mShadowMapTexDefinitions,
    (definitionTexture resizedTextures d).isSome = true) ∧
  ∀ d1 ∈ definition.mShadowMapTexDefinitions, ∀ d2 ∈ definition.mShadowMapTexDefinitions,
    (definitionTexture resizedTextures d1 = definitionTexture resizedTextures d2 ↔
      definitionTexture mLocalTextures d1 = definitionTexture mLocalTextures d2)

instance sameAliasingDecidable (definition : CompositorShadowNodeDef)
    (mLocalTextures resizedTextures : List CompositorChannel) :
    Decidable (sameAliasing definition mLocalTextures resizedTextures) := by
  unfold sameAliasing; infer_instance

/-- Cameras 50, 51, ... and fixed split points. -/
def toyNodeEnv : NodeEnv :=
  { createCamera := fun shadowMapIdx => 50 + shadowMapIdx
    calculateSplitPoints := fun _ _ _ _ => [1, 10, 40, 100] }

/-- Four shadow maps for two lights: three PSSM splits that render to MRT indices 0, 1
and 0 of local texture 0, and a focused map on local texture 1. -/
def atlasDefinition : CompositorShadowNodeDef :=
  { mNumLights := 2, mLightTypesMask := [1, 6]
    mShadowMapTexDefinitions :=
      [{ pssmDefinition 0 with textureIndex := 0, mrtIndex := 0 },
       { pssmDefinition 1 with textureIndex := 0, mrtIndex := 1 },
       { pssmDefinition 2 with textureIndex := 0, mrtIndex := 0 },
       { light := 1, split := 0, shadowMapTechnique := .SHADOWMAP_FOCUSED, numSplits := 1,
         mrtIndex := 0, sharesSetupWith := SIZE_MAX, textureIndex := 1,
         textureSource := .TEXTURE_LOCAL }] }

/-- Local textures before and after a resize: texture 0 has two MRT attachments. -/
def atlasTextures : List CompositorChannel := [⟨[20, 21]⟩, ⟨[22]⟩]

/-- The textures after a resize: every texture is a new one. -/
def atlasTexturesResized : List CompositorChannel := [⟨[30, 31]⟩, ⟨[32]⟩]

/-- The vector `mContiguousShadowMapTex` after the constructor's loop has seen the
textures `refTex` of the definitions in order, starting from `contiguous`. -/
def contiguousOf (contiguous : List Nat) : List Nat → List Nat
  | [] => contiguous
  | refTex :: rest =>
    contiguousOf
      (if contiguous.indexOf refTex = contiguous.length then contiguous ++ [refTex]
        else contiguous) rest

/-- The indices `idxToContiguousTex` the constructor's loop assigns for these textures. -/
def contiguousIdxOf (contiguous : List Nat) : List Nat → List Nat
  | [] => []
  | refTex :: rest =>
    contiguous.indexOf refTex ::
      contiguousIdxOf
        (if contiguous.indexOf refTex = contiguous.length then contiguous ++ [refTex]
          else contiguous) rest

/-- The vector the loop of `finalTargetResized` builds from the indices of the cameras
and the textures of their definitions, starting from `contiguous`. -/
def rebuiltOf (contiguous : List Nat) : List Nat → List Nat → List Nat
  | idx :: idxs, tex :: texs =>
    rebuiltOf (if idx ≥ contiguous.length then contiguous ++ [tex] else contiguous) idxs texs
  | _, _ => contiguous

/-- What `setShadowMapsToPass` reads of its arguments and of the compositor manager. -/
structure ShadowPassArgs where
  /-- The value of `pass->getMaxSimultaneousLights()`. -/
  maxSimultaneousLights : Nat
  /-- The value of `pass->getNumShadowContentTextures()`. -/
  numShadowContentTextures : Nat
  /-- The list `rend->getLights()`. -/
  renderableLights : List LightClosest
  /-- The texture `compoMgr->getNullShadowTexture( PF_R8G8B8A8 )`. -/
  nullShadowTexture : Nat
deriving DecidableEq

/-- What the call leaves in the texture unit of one shadow-content index: the texture
given to `_setTexturePtr` and the frustum given to `setTextureProjector` for that index
(`none` for the null pointer). -/
structure ShadowTextureUnit where
  texture : Nat
  textureProjector : Option Nat
deriving DecidableEq

/-- The second light loop of `setShadowMapsToPass` from `itor` on: the renderable's lights
that are not marked affected are skipped while `slotsToSkip > 0` and then pushed while
`slotsLeft > 0`. `none` when `globalIndex` is not an index of `mAffectedLights`. -/
def pushNonCasters (mAffectedLights : List Bool) :
    List LightClosest → Nat → Nat → List LightClosest → Option (List LightClosest)
  | [], _, _, mCurrentLightList => some mCurrentLightList
  | itor :: rest, slotsToSkip, slotsLeft, mCurrentLightList =>
    if slotsLeft > 0 then
      match mAffectedLights[itor.globalIndex]? with
      | none => none
      | some true => pushNonCasters mAffectedLights rest slotsToSkip slotsLeft mCurrentLightList
      | some false =>
        if slotsToSkip > 0 then
          pushNonCasters mAffectedLights rest (slotsToSkip - 1) slotsLeft mCurrentLightList
        else
          pushNonCasters mAffectedLights rest slotsToSkip (slotsLeft - 1)
            (mCurrentLightList ++ [itor])
    else some mCurrentLightList

/-- The first texture loop of `setShadowMapsToPass`: `definitionsLeft` is the distance of
`shadowTexItor` from `shadowTexItorEnd`. The result is the units set so far and
`shadowIdx` at the end of the loop. -/
def bindShadowMaps (node : CompositorShadowNode) (numShadowContentTextures : Nat) :
    Nat → Nat → List ShadowTextureUnit → Except NodeFailure (List ShadowTextureUnit × Nat)
  | 0, shadowIdx, units => .ok (units, shadowIdx)
  | definitionsLeft + 1, shadowIdx, units =>
    if shadowIdx < numShadowContentTextures then
      match node.mShadowMapCameras[shadowIdx]? with
      | none => .error .outOfBounds
      | some shadowMapCamera =>
        match node.mLocalTextures[shadowIdx]? with
        | none => .error .outOfBounds
        | some channel =>
          match channel.textures[0]? with
          | none => .error .outOfBounds
          | some shadowTex =>
            bindShadowMaps node numShadowContentTextures definitionsLeft (shadowIdx + 1)
              (units ++ [⟨shadowTex, some shadowMapCamera.camera⟩])
    else .ok (units, shadowIdx)

/-- `CompositorShadowNode::setShadowMapsToPass( rend, pass, autoParamDataSource,
startLight )` in a debug build: the node after the call, whose `mCurrentLightList` is the
list the returned pointer points to, and the shadow-content texture units of the pass in
the order of their shadow index. The sizes are below `2 ^ 63`, so that
`std::max<ptrdiff_t>( a - b, 0 )` is the truncated difference. -/
def setShadowMapsToPass (node : CompositorShadowNode) (args : ShadowPassArgs)
    (startLight : Nat) :
    Except NodeFailure (CompositorShadowNode × List ShadowTextureUnit) :=
  let lightsPerPass := args.maxSimultaneousLights
  let shadowMapStart := min startLight node.mShadowMapCastingLights.length
  let shadowMapEnd := min (startLight + lightsPerPass) node.mShadowMapCastingLights.length
  let casters :=
    (node.mShadowMapCastingLights.drop shadowMapStart).take (shadowMapEnd - shadowMapStart)
  let slotsToSkip := startLight - casters.length
  let slotsLeft := lightsPerPass - (shadowMapEnd - shadowMapStart)
  match pushNonCasters node.mAffectedLights args.renderableLights slotsToSkip slotsLeft
      casters with
  | none => .error .outOfBounds
  | some mCurrentLightList =>
    if shadowMapStart < node.mDefinition.mShadowMapTexDefinitions.length then
      match bindShadowMaps node args.numShadowContentTextures
          (node.mDefinition.mShadowMapTexDefinitions.length - shadowMapStart) 0 [] with
      | .error e => .error e
      | .ok (units, shadowIdx) =>
        .ok ({ node with mCurrentLightList := mCurrentLightList },
          units ++ List.replicate (args.numShadowContentTextures - shadowIdx)
            ⟨args.nullShadowTexture, none⟩)
    else .error .assertionFailed

/-- The light list as the claim words it: the window `[startLight, startLight +
maxSimultaneousLights)` of all shadow-casting light slots in slot order followed by the
renderable's lights that are not marked affected, in the renderable's order. -/
def lightWindow (node : CompositorShadowNode) (args : ShadowPassArgs) (startLight : Nat) :
    List LightClosest :=
  ((node.mShadowMapCastingLights ++
      args.renderableLights.filter
        (fun l => decide (node.mAffectedLights[l.globalIndex]? = some false))).drop
    startLight).take args.maxSimultaneousLights

/-- A node that declares no shadow maps and no shadow-casting lights, after
`buildClosestLightList` for three global lights. -/
def noShadowMapsNode : CompositorShadowNode :=
  { freshNode [] with
    mLastCamera := some 1, mLastFrame := 0, mAffectedLights := [false, false, false] }

/-- A node with one light slot, holding light 100, and one focused shadow map for it. -/
def oneMapNode : CompositorShadowNode :=
  { mDefinition :=
      { mNumLights := 1, mLightTypesMask := [7]
        mShadowMapTexDefinitions :=
          [{ light := 0, split := 0, shadowMapTechnique := .SHADOWMAP_FOCUSED, numSplits := 1,
             mrtIndex := 0, sharesSetupWith := SIZE_MAX, textureIndex := 0,
             textureSource := .TEXTURE_LOCAL }] }
    mLastCamera := some 1
    mLastFrame := 0
    mShadowMapCastingLights := [⟨some ⟨100, 1⟩, 0, 5⟩]
    mAffectedLights := [true, false, false]
    mNumActiveShadowMapCastingLights := 1
    mTmpSortedIndexes := []
    mCastersBox := ⟨(0, 0, 0), (1, 1, 1)⟩
    mShadowMapCameras := [constructedCamera stdHeaders 50]
    mLocalTextures := [⟨[20]⟩]
    mContiguousShadowMapTex := [20]
    mCurrentLightList := []
    shadowCameraSetups := [.FocusedShadowCameraSetup] }

/-- A renderable lit by the lights 100, 101 and 102 with global indices 0, 1 and 2, and a
pass with `lightsPerPass` lights per iteration and `units` shadow-content texture
units; the null shadow texture is texture 99. -/
def threeLightsPass (lightsPerPass units : Nat) : ShadowPassArgs :=
  { maxSimultaneousLights := lightsPerPass
    numShadowContentTextures := units
    renderableLights := [⟨some ⟨100, 0⟩, 0, 5⟩, ⟨some ⟨101, 1⟩, 1, 6⟩, ⟨some ⟨102, 1⟩, 2, 7⟩]
    nullShadowTexture := 99 }

/-! ## `ParallaxCorrectedCubemap::destroyProbe` -/

/-- What a call of `destroyProbe` leaves behind: the exception it raised (`none` when it
returned), the vector `mProbes`, and the probes `OGRE_DELETE` freed. -/
structure DestroyProbeResult where
  exception : Option ExceptionCodes
  mProbes : List Nat
  deleted : List Nat
deriving DecidableEq

/-- `ParallaxCorrectedCubemap::destroyProbe( probe )` on the vector `mProbes`. The
iterator `itor` is the position `std::find` returns; it is `end()` exactly when it is not
below the size. The helper `efficientVectorRemove( container, iterator )` of the engine's
headers is not among the sources and is an argument. -/
def destroyProbe (efficientVectorRemove : List Nat → Nat → List Nat) (mProbes : List Nat)
    (probe : Nat) : DestroyProbeResult :=
  let itor := mProbes.indexOf probe
  if h : itor < mProbes.length then
    { exception := none
      mProbes := efficientVectorRemove mProbes itor
      deleted := [mProbes[itor]] }
  else
    { exception := some .ERR_INVALIDPARAMS, mProbes := mProbes, deleted := [] }

/-- A removal for concrete runs: the last element is moved to the freed position and the
vector shrinks by one. -/
def moveLastRemove (container : List Nat) (idx : Nat) : List Nat :=
  (container.set idx (container.getLastD 0)).dropLast

/-! ## `GL3PlusBufferInterface::advanceFrame` -/

/-- The enum `MappingState`, in the order of its declaration. -/
inductive MappingState where
  | MS_UNMAPPED
  | MS_MAPPED
  | MS_PERSISTENT_INCOHERENT
  | MS_PERSISTENT_COHERENT
deriving DecidableEq

/-- The integer value of a `MappingState`, which `<=` and `>=` compare. -/
def MappingState.toNat : MappingState → Nat
  | .MS_UNMAPPED => 0
  | .MS_MAPPED => 1
  | .MS_PERSISTENT_INCOHERENT => 2
  | .MS_PERSISTENT_COHERENT => 3

/-- The members of `BufferPacked` that the buffer interface reads or writes; the numbers
are `size_t`. -/
structure BufferPacked where
  mInternalBufferStart : Nat
  mFinalBufferStart : Nat
  mNumElements : Nat
  mBytesPerElement : Nat := 1
  mMappingState : MappingState := .MS_UNMAPPED
  mMappingStart : Nat := 0
  mMappingCount : Nat := 0
  mLastMappingStart : Nat := 0
  mLastMappingCount : Nat := 0
deriving DecidableEq

/-- `GL3PlusBufferInterface::advanceFrame( bAdvanceFrame )` on `mBuffer`, with
`dynamicBufferMultiplier` the value of `vaoManager->getDynamicBufferMultiplier()`: the
returned frame and the buffer after the call. The arithmetic is that of `size_t`; `none`
stands for a division by zero. -/
def advanceFrame (dynamicBufferMultiplier : Nat) (mBuffer : BufferPacked)
    (bAdvanceFrame : Bool) : Option (Nat × BufferPacked) :=
  if mBuffer.mNumElements = 0 then none
  else
    let dynamicCurrentFrame :=
      ((mBuffer.mFinalBufferStart + (SIZE_MAX + 1) - mBuffer.mInternalBufferStart) %
        (SIZE_MAX + 1)) / mBuffer.mNumElements
    let store (dynamicCurrentFrame : Nat) : Option (Nat × BufferPacked) :=
      some (dynamicCurrentFrame,
        { mBuffer with
          mFinalBufferStart :=
            (mBuffer.mInternalBufferStart + dynamicCurrentFrame * mBuffer.mNumElements) %
              (SIZE_MAX + 1) })
    if bAdvanceFrame then
      if dynamicBufferMultiplier = 0 then none
      else store (((dynamicCurrentFrame + 1) % (SIZE_MAX + 1)) % dynamicBufferMultiplier)
    else store dynamicCurrentFrame

/-- The buffer after `count` calls of `advanceFrame( true )`. -/
def advanceFrames (dynamicBufferMultiplier : Nat) :
    Nat → BufferPacked → Option BufferPacked
  | 0, mBuffer => some mBuffer
  | count + 1, mBuffer =>
    match advanceFrame dynamicBufferMultiplier mBuffer true with
    | none => none
    | some (_, mBuffer1) => advanceFrames dynamicBufferMultiplier count mBuffer1

/-- A buffer of 100 elements per frame whose region starts at element 1000, in the
frame `k` of its ring. -/
def ringBuffer (k : Nat) : BufferPacked :=
  { mInternalBufferStart := 1000, mFinalBufferStart := 1000 + k * 100, mNumElements := 100 }

/-! ## `GL3PlusBufferInterface::map` and `unmap` -/

/-- A call `glMapBufferRange( mTarget, offset, length, flags )`, offset and length in
bytes. The flags always hold the write, invalidate-buffer, unsynchronized and
flush-explicit bits; the record keeps the two bits that vary. -/
structure MapBufferRangeCall where
  offset : Nat
  length : Nat
  persistentBit : Bool
  coherentBit : Bool
deriving DecidableEq

/-- A call `glFlushMappedBufferRange( mTarget, offset, length )`: the two numbers are
bytes, the offset counted from the start of the mapping. -/
structure FlushMappedBufferRangeCall where
  offset : Nat
  length : Nat
deriving DecidableEq

/-- The `GL3PlusBufferInterface` with the buffer it serves. A pointer into the store of
the buffer object is the number of the byte of the store it points at, so that
`glMapBufferRange` returns its `offset`; the null pointer is `none`. -/
structure GL3PlusBufferInterface where
  mBuffer : BufferPacked
  mMappedPtr : Option Nat
deriving DecidableEq

/-- The value of a `size_t` expression. -/
def size_t (value : Nat) : Nat := value % (SIZE_MAX + 1)

/-- What a call of `map` leaves behind: the returned pointer, the interface, and the
calls of `glMapBufferRange` it made. -/
structure MapResult where
  retVal : Option Nat
  interface : GL3PlusBufferInterface
  glCalls : List MapBufferRangeCall
deriving DecidableEq

/-- `GL3PlusBufferInterface::map( elementStart, elementCount, prevMappingState,
bAdvanceFrame )`, with `dynamicBufferMultiplier` and `canPersistentMap` the values of
`getDynamicBufferMultiplier()` and `supportsArbBufferStorage()` of the VAO manager.
`none` stands for the division by zero of `advanceFrame`. -/
def GL3PlusBufferInterface.map (dynamicBufferMultiplier : Nat) (canPersistentMap : Bool)
    (self : GL3PlusBufferInterface) (elementStart elementCount : Nat)
    (prevMappingState : MappingState) (bAdvanceFrame : Bool) : Option MapResult :=
  match advanceFrame dynamicBufferMultiplier self.mBuffer bAdvanceFrame with
  | none => none
  | some (dynamicCurrentFrame, mBuffer) =>
    let bytesPerElement := mBuffer.mBytesPerElement
    let persistent : Bool :=
      decide (mBuffer.mMappingState.toNat ≥ MappingState.MS_PERSISTENT_INCOHERENT.toNat) &&
        canPersistentMap
    let mapped : GL3PlusBufferInterface × List MapBufferRangeCall :=
      if prevMappingState = .MS_UNMAPPED ∨ canPersistentMap = false then
        let offset :=
          if persistent then mBuffer.mInternalBufferStart
          else
            size_t (mBuffer.mInternalBufferStart + elementStart +
              mBuffer.mNumElements * dynamicCurrentFrame)
        let length :=
          if persistent then size_t (mBuffer.mNumElements * dynamicBufferMultiplier)
          else elementCount
        (⟨{ mBuffer with mMappingStart := offset, mMappingCount := length },
            some (size_t (offset * bytesPerElement))⟩,
          [{ offset := size_t (offset * bytesPerElement)
             length := size_t (length * bytesPerElement)
             persistentBit := persistent
             coherentBit :=
               persistent && decide (mBuffer.mMappingState = .MS_PERSISTENT_COHERENT) }])
      else (⟨mBuffer, self.mMappedPtr⟩, [])
    let lastMappingStart :=
      if persistent then size_t (elementStart + mBuffer.mNumElements * dynamicCurrentFrame)
      else 0
    some
      { retVal :=
          if persistent then
            mapped.1.mMappedPtr.map (fun p => p + size_t (lastMappingStart * bytesPerElement))
          else mapped.1.mMappedPtr
        interface :=
          { mapped.1 with
            mBuffer :=
              { mapped.1.mBuffer with
                mLastMappingStart := lastMappingStart
                mLastMappingCount := elementCount } }
        glCalls := mapped.2 }

/-- What a call of `unmap` leaves behind: the interface, the calls of
`glFlushMappedBufferRange` and the number of calls of `glUnmapBuffer` it made. -/
structure UnmapResult where
  interface : GL3PlusBufferInterface
  flushCalls : List FlushMappedBufferRangeCall
  unmapCalls : Nat
deriving DecidableEq

/-- `GL3PlusBufferInterface::unmap( unmapOption, flushStartElem, flushSizeElem )` in a
debug build; `none` is a failed assertion. -/
def GL3PlusBufferInterface.unmap (canPersistentMap : Bool) (self : GL3PlusBufferInterface)
    (unmapOption : UnmapOptions) (flushStartElem flushSizeElem : Nat) : Option UnmapResult :=
  if ¬ (flushStartElem < self.mBuffer.mLastMappingCount) then none
  else if ¬ (size_t (flushStartElem + flushSizeElem) ≤ self.mBuffer.mLastMappingCount) then
    none
  else if self.mBuffer.mMappingState.toNat ≤ MappingState.MS_PERSISTENT_INCOHERENT.toNat ∨
      unmapOption = .UO_UNMAP_ALL ∨ canPersistentMap = false then
    let flushSizeElem :=
      if flushSizeElem = 0 then self.mBuffer.mLastMappingCount - flushStartElem
      else flushSizeElem
    let flush : FlushMappedBufferRangeCall :=
      { offset := size_t (self.mBuffer.mLastMappingStart + flushStartElem)
        length := size_t (flushSizeElem * self.mBuffer.mBytesPerElement) }
    if unmapOption = .UO_UNMAP_ALL ∨ canPersistentMap = false ∨
        self.mBuffer.mMappingState = .MS_MAPPED then
      some { interface := { self with mMappedPtr := none }, flushCalls := [flush],
             unmapCalls := 1 }
    else some { interface := self, flushCalls := [flush], unmapCalls := 0 }
  else some { interface := self, flushCalls := [], unmapCalls := 0 }

/-- The byte range the claim gives the flush of an `unmap`: it starts at byte
`(mLastMappingStart + flushStart) * bytesPerElement` of the mapping and is `flushSize *
bytesPerElement` bytes long, with `mLastMappingCount - flushStart` for a `flushSize` of
0. -/
def writtenByteRange (mBuffer : BufferPacked) (flushStartElem flushSizeElem : Nat) :
    FlushMappedBufferRangeCall :=
  { offset := (mBuffer.mLastMappingStart + flushStartElem) * mBuffer.mBytesPerElement
    length :=
      (if flushSizeElem = 0 then mBuffer.mLastMappingCount - flushStartElem
        else flushSizeElem) * mBuffer.mBytesPerElement }

/-- An interface on the ring buffer in frame `k`, with 4-byte elements and the given
mapping state, not mapped. -/
def ringInterface (k : Nat) (state : MappingState) : GL3PlusBufferInterface :=
  { mBuffer := { ringBuffer k with mBytesPerElement := 4, mMappingState := state }
    mMappedPtr := none }

/-- The interface after a regular map of ten elements of 4 bytes. -/
def mappedInterface : GL3PlusBufferInterface :=
  { mBuffer :=
      { ringBuffer 0 with
        mBytesPerElement := 4, mMappingState := .MS_MAPPED, mMappingStart := 1000
        mMappingCount := 10, mLastMappingStart := 0, mLastMappingCount := 10 }
    mMappedPtr := some 4000 }

/-- A call on the manager: one of the six setters with its argument, or
`getActiveMonolithicProgram()` with the address `new` would give a created program. -/
inductive ManagerCall where
  | setActiveVertexShader (vertexShader : Option Nat)
  | setActiveFragmentShader (fragmentShader : Option Nat)
  | setActiveGeometryShader (geometryShader : Option Nat)
  | setActiveHullShader (hullShader : Option Nat)
  | setActiveDomainShader (domainShader : Option Nat)
  | setActiveComputeShader (computeShader : Option Nat)
  | getActiveMonolithicProgram (fresh : Nat)
deriving DecidableEq

/-- The manager after one call. -/
def ManagerCall.run (env : ProgramEnv) (mgr : GL3PlusGLSLMonolithicProgramManager) :
    ManagerCall → GL3PlusGLSLMonolithicProgramManager
  | .setActiveVertexShader s => Ogre.setActiveVertexShader mgr s
  | .setActiveFragmentShader s => Ogre.setActiveFragmentShader mgr s
  | .setActiveGeometryShader s => Ogre.setActiveGeometryShader mgr s
  | .setActiveHullShader s => Ogre.setActiveHullShader mgr s
  | .setActiveDomainShader s => Ogre.setActiveDomainShader mgr s
  | .setActiveComputeShader s => Ogre.setActiveComputeShader mgr s
  | .getActiveMonolithicProgram fresh => (Ogre.getActiveMonolithicProgram env mgr fresh).2

/-- The manager after a sequence of calls, one after the other. -/
def runManagerCalls (env : ProgramEnv) :
    GL3PlusGLSLMonolithicProgramManager → List ManagerCall →
      GL3PlusGLSLMonolithicProgramManager
  | mgr, [] => mgr
  | mgr, call :: calls => runManagerCalls env (call.run env mgr) calls

/-- The stages a program was created from are the active stages of the manager. -/
def programMatchesStages (p : GL3PlusGLSLMonolithicProgram)
    (mgr : GL3PlusGLSLMonolithicProgramManager) : Prop :=
  p.vertexShader = mgr.mActiveVertexShader ∧ p.hullShader = mgr.mActiveHullShader ∧
    p.domainShader = mgr.mActiveDomainShader ∧
    p.geometryShader = mgr.mActiveGeometryShader ∧
    p.fragmentShader = mgr.mActiveFragmentShader ∧
    p.computeShader = mgr.mActiveComputeShader

instance programMatchesStagesDecidable (p : GL3PlusGLSLMonolithicProgram)
    (mgr : GL3PlusGLSLMonolithicProgramManager) : Decidable (programMatchesStages p mgr) := by
  unfold programMatchesStages; infer_instance

/-- Vertex shader 1 with fragment shader 4 is bound and resolved, then vertex shader 2
with fragment shader 2 is bound; under `toyEnv` both combinations have the key 9. -/
def collidingCalls : List ManagerCall :=
  [.setActiveVertexShader (some 1), .setActiveFragmentShader (some 4),
    .getActiveMonolithicProgram 70, .setActiveVertexShader (some 2),
    .setActiveFragmentShader (some 2)]

/-- The key of the stages a program was created from, folded as
`getActiveMonolithicProgram` folds the key of the active stages. -/
def programKey (env : ProgramEnv) (p : GL3PlusGLSLMonolithicProgram) : Nat :=
  hashStage env p.computeShader
    (hashStage env p.hullShader
      (hashStage env p.domainShader
        (hashStage env p.geometryShader
          (hashStage env p.fragmentShader
            (hashStage env p.vertexShader 0)))))

/-- Every program of the map is stored under the key of the stages it was created
from. -/
def MapKeysMatch (env : ProgramEnv) (mgr : GL3PlusGLSLMonolithicProgramManager) : Prop :=
  ∀ k p, mapFind mgr.mMonolithicPrograms k = some p → programKey env p = k

/-! ## `ParallaxCorrectedCubemap::update` -/

/-- Constants the cubemap code takes from headers that are not among the sources. -/
structure CubemapHeaders where
  /-- The value of the preprocessor constant `OGRE_MAX_CUBE_PROBES`. -/
  OGRE_MAX_CUBE_PROBES : Nat
  /-- The value of `std::numeric_limits<Real>::max()`. -/
  realMax : ℚ
deriving DecidableEq

/-- Four probes, and the largest single-precision float. -/
def stdCubemapHeaders : CubemapHeaders :=
  { OGRE_MAX_CUBE_PROBES := 4, realMax := 340282346638528859811704183484516925440 }

/-- What `update` reads of a `CubemapProbe`: the pointer, whether
`getAreaLS().contains( posLS )` holds for the camera position, and `getNDF( posLS )`. -/
structure CubemapProbe where
  ptr : Nat
  containsCamera : Bool
  ndf : ℚ
deriving DecidableEq

/-- An entry of `mCollectedProbes`: the null pointer, `&mBlankProbe`, or a probe. -/
inductive CollectedProbe where
  | null
  | blank
  | probe (ptr : Nat)
deriving DecidableEq

/-- The members of `ParallaxCorrectedCubemap` that `update` writes up to the call of
`calculateBlendFactors`, and the value of the local `numCollectedProbes` at that call. -/
structure CollectedState where
  mCollectedProbes : List CollectedProbe
  mProbeNDFs : List ℚ
  mProbeBlendFactors : List ℚ
  numCollectedProbes : Nat
deriving DecidableEq

/-- The `for` loop that looks for the probe to drop, from index `i` on: the stored NDFs
from `i` on, `highestNdf` and `highestNdfIdx`; the result is their final values. -/
def highestNdfScan (ndf : ℚ) : List ℚ → Nat → ℚ → Nat → ℚ × Nat
  | [], _, highestNdf, highestNdfIdx => (highestNdf, highestNdfIdx)
  | stored :: rest, i, highestNdf, highestNdfIdx =>
    if ndf < stored ∧ stored ≥ highestNdf then highestNdfScan ndf rest (i + 1) stored i
    else highestNdfScan ndf rest (i + 1) highestNdf highestNdfIdx

/-- The `while( itor != end )` loop of `update` from `itor` on, on `mCollectedProbes`,
`mProbeNDFs` and `numCollectedProbes`. -/
def collectLoop (H : CubemapHeaders) :
    List CubemapProbe → List CollectedProbe × List ℚ × Nat →
      List CollectedProbe × List ℚ × Nat
  | [], state => state
  | probe :: rest, (mCollectedProbes, mProbeNDFs, numCollectedProbes) =>
    if probe.containsCamera then
      if probe.ndf > 0 then
        let probeIdx :=
          if numCollectedProbes ≥ H.OGRE_MAX_CUBE_PROBES then
            (highestNdfScan probe.ndf (mProbeNDFs.take H.OGRE_MAX_CUBE_PROBES) 0 (-1)
              H.OGRE_MAX_CUBE_PROBES).2
          else numCollectedProbes
        if probeIdx < H.OGRE_MAX_CUBE_PROBES then
          collectLoop H rest
            (mCollectedProbes.set probeIdx (.probe probe.ptr),
              mProbeNDFs.set probeIdx probe.ndf, numCollectedProbes)
        else collectLoop H rest (mCollectedProbes, mProbeNDFs, numCollectedProbes)
      else (mCollectedProbes.set 0 (.probe probe.ptr), mProbeNDFs.set 0 probe.ndf, 1)
    else collectLoop H rest (mCollectedProbes, mProbeNDFs, numCollectedProbes)

/-- `ParallaxCorrectedCubemap::calculateBlendFactors( numProbes )` in a debug build: the
array `mProbeBlendFactors`, or `none` for the failed assertion. Reals are exact
rationals; a reciprocal of 0, an infinity in floating point, is 0 here. -/
def calculateBlendFactors (H : CubemapHeaders) (mProbeNDFs : List ℚ) (numProbes : Nat) :
    Option (List ℚ) :=
  if numProbes < H.OGRE_MAX_CUBE_PROBES then
    let sumNdf := ((mProbeNDFs.take numProbes).sum : ℚ)
    let invSumNdf := 1 / sumNdf
    let reverseSumNdf := (numProbes : ℚ) - sumNdf
    let invRevSumNdf := 1 / reverseSumNdf
    let factors := (mProbeNDFs.take numProbes).map
      (fun ndf => (1 - ndf * invSumNdf) * ((1 - ndf) * invRevSumNdf))
    let sumBlendFactor := if factors.sum ≤ 0 then 1 else factors.sum
    let invSumBlendFactor := 1 / sumBlendFactor
    some (factors.map (fun f => f * invSumBlendFactor) ++
      List.replicate (H.OGRE_MAX_CUBE_PROBES - numProbes) 0)
  else none

/-- `ParallaxCorrectedCubemap::update()` up to and including the call of
`calculateBlendFactors`, in a debug build; `none` for a failed assertion. -/
def ParallaxCorrectedCubemap.update (H : CubemapHeaders) (mProbes : List CubemapProbe) :
    Option CollectedState :=
  let collected := collectLoop H mProbes
    (List.replicate H.OGRE_MAX_CUBE_PROBES .null,
      List.replicate H.OGRE_MAX_CUBE_PROBES H.realMax, 0)
  let numCollectedProbes := collected.2.2
  let mCollectedProbes :=
    (List.range' numCollectedProbes (H.OGRE_MAX_CUBE_PROBES - numCollectedProbes)).foldl
      (fun probes i => probes.set i .blank) collected.1
  match calculateBlendFactors H collected.2.1 numCollectedProbes with
  | none => none
  | some mProbeBlendFactors =>
    some { mCollectedProbes := mCollectedProbes, mProbeNDFs := collected.2.1,
           mProbeBlendFactors := mProbeBlendFactors,
           numCollectedProbes := numCollectedProbes }

/-- Two probes whose areas hold the camera, with the NDFs 1/2 and 1/4. -/
def twoProbes : List CubemapProbe := [⟨10, true, 1 / 2⟩, ⟨11, true, 1 / 4⟩]

/-! ## `CompositorShadowNode::_update` -/

/-- What `_update` reads of its camera and of the lights, besides what
`buildClosestLightList` reads. -/
structure UpdateArgs where
  build : BuildArgs
  /-- The value of `camera->getNearClipDistance()`. -/
  nearClipDistance : ℚ
  /-- The value of `light->getShadowFarDistance()`, by the identity of the light. -/
  shadowFarDistance : Nat → ℚ

/-- A call `calculateSplitPoints( splitCount, nearDist, farDist, lambda )`. -/
structure SplitPointsCall where
  splitCount : Nat
  nearDist : ℚ
  farDist : ℚ
  lambda : ℚ
deriving DecidableEq

/-- The `while( itor != end )` loop of `_update` from `itor` and `itShadowCamera` on: the
node, whose setup objects the loop changes, and the calls of `calculateSplitPoints` made
so far. The index `itor->numSplits-1` is a `size_t`. Reading a slot, a setup, a split
point or a viewport size that does not exist, and stepping `itShadowCamera` at the end
of `mShadowMapCameras`, is `outOfBounds`; a failed `assert` is `assertionFailed`. The
camera placement and `getShadowCamera`, which are outside the sources, are not part of
the model. -/
def updateShadowMaps (env : NodeEnv) (args : UpdateArgs) :
    List ShadowTextureDefinition → List ShadowMapCamera → CompositorShadowNode →
      List SplitPointsCall → Except NodeFailure (CompositorShadowNode × List SplitPointsCall)
  | [], _, node, calls => .ok (node, calls)
  | _ :: _, [], _, _ => .error .outOfBounds
  | itor :: defs, itShadowCamera :: cameras, node, calls =>
    match node.mShadowMapCastingLights[itor.light]? with
    | none => .error .outOfBounds
    | some slot =>
      match slot.light with
      | none => updateShadowMaps env args defs cameras node calls
      | some light =>
        let recalculate (node : CompositorShadowNode) :
            CompositorShadowNode × List SplitPointsCall :=
          ({ node with
             shadowCameraSetups :=
               node.shadowCameraSetups.set itShadowCamera.shadowCameraSetup
                 (.PSSMShadowCameraSetup
                   (env.calculateSplitPoints itor.numSplits args.nearClipDistance
                     (args.shadowFarDistance light.id) itor.pssmLambda)) },
            calls ++ [⟨itor.numSplits, args.nearClipDistance,
              args.shadowFarDistance light.id, itor.pssmLambda⟩])
        let afterSplits : Except NodeFailure (CompositorShadowNode × List SplitPointsCall) :=
          if itor.shadowMapTechnique = .SHADOWMAP_PSSM then
            match node.shadowCameraSetups[itShadowCamera.shadowCameraSetup]? with
            | none => .error .outOfBounds
            | some (.PSSMShadowCameraSetup splitPoints) =>
              match splitPoints[0]? with
              | none => .error .outOfBounds
              | some first =>
                if first ≠ args.nearClipDistance then .ok (recalculate node)
                else
                  match splitPoints[(itor.numSplits + SIZE_MAX) % (SIZE_MAX + 1)]? with
                  | none => .error .outOfBounds
                  | some last =>
                    if last ≠ args.shadowFarDistance light.id then .ok (recalculate node)
                    else .ok (node, calls)
            | some _ => .error .assertionFailed
          else .ok (node, calls)
        match afterSplits with
        | .error e => .error e
        | .ok (node1, calls1) =>
          match itShadowCamera.scenePassesViewportSize[light.type]? with
          | none => .error .outOfBounds
          | some _ => updateShadowMaps env args defs cameras node1 calls1

/-- `CompositorShadowNode::_update( camera, lodCamera, sceneManager )` up to the
rendering of the passes: the node after the call and the calls of
`calculateSplitPoints` it made. -/
def CompositorShadowNode._update (H : Headers) (env : NodeEnv) (node : CompositorShadowNode)
    (args : UpdateArgs) : Except NodeFailure (CompositorShadowNode × List SplitPointsCall) :=
  match buildClosestLightList H node args.build with
  | none => .error .outOfBounds
  | some node1 =>
    updateShadowMaps env args node1.mDefinition.mShadowMapTexDefinitions
      node1.mShadowMapCameras node1 []

/-- Split points for concrete runs: `splitCount + 1` points, the first at the near
distance, the last at the far distance, the inner ones at the near distance. -/
def boundaryEnv : NodeEnv :=
  { createCamera := fun shadowMapIdx => 50 + shadowMapIdx
    calculateSplitPoints := fun splitCount nearDist farDist _ =>
      nearDist :: (List.replicate (splitCount - 1) nearDist ++ [farDist]) }

/-- A node with one slot for directional lights and `numSplits` PSSM shadow maps for it
that share one setup, whose cached split points are `splitPoints`. -/
def cascadeNode (numSplits : Nat) (splitPoints : List ℚ) : CompositorShadowNode :=
  { freshNode [1] with
    mDefinition :=
      { mNumLights := 1, mLightTypesMask := [1]
        mShadowMapTexDefinitions :=
          (List.range numSplits).map (fun split =>
            { pssmDefinition split with numSplits := numSplits }) }
    mShadowMapCameras :=
      (List.range numSplits).map (fun split =>
        { constructedCamera stdHeaders (50 + split) with
          idxToLocalTextures := split, idxToContiguousTex := split })
    shadowCameraSetups := [.PSSMShadowCameraSetup splitPoints] }

/-- An update for camera 1 in frame `frame`: one visible, shadow-casting directional
light, near clip distance 1, shadow far distance 100. -/
def cascadeArgs (frame : Nat) : UpdateArgs :=
  { build := { mkArgs [(0, 5)] with currentFrameCount := frame }
    nearClipDistance := 1
    shadowFarDistance := fun _ => 100 }

/-! ## What the second loop of `buildClosestLightList` reads -/

/-- The values `*itor` that the second loop of `buildClosestLightList` reads from
`mTmpSortedIndexes` and uses as index into `visibilityMask` and `lights`, in order, for
the entries from `itor` on. A read outside the light list ends the list. -/
def closestLoopReads (H : Headers) (lightList : LightListInfo) (combinedVisibilityFlags : Nat) :
    List Nat → CompositorShadowNode → Nat → Nat → List Nat
  | [], _, _, _ => []
  | idx :: rest, node, begEmptyLightIdx, _nxtEmptyLightIdx =>
    idx ::
      match lightList[idx]? with
      | none => []
      | some e =>
        if ¬ (e.visibilityMask &&& combinedVisibilityFlags ≠ 0) ∨
            ¬ (e.visibilityMask &&& H.LAYER_SHADOW_CASTER ≠ 0) ∨
            begEmptyLightIdx ≥ node.mShadowMapCastingLights.length then
          []
        else
          let found := findNextEmptyShadowCastingLightEntry node
            (lightTypeBit e.light.type) begEmptyLightIdx
          if found.2 < node.mShadowMapCastingLights.length then
            closestLoopReads H lightList combinedVisibilityFlags rest
              { node with
                mAffectedLights := node.mAffectedLights.set idx true
                mShadowMapCastingLights :=
                  node.mShadowMapCastingLights.set found.2 ⟨some e.light, idx, 0⟩
                mNumActiveShadowMapCastingLights :=
                  node.mNumActiveShadowMapCastingLights + 1 }
              found.1 found.2
          else
            closestLoopReads H lightList combinedVisibilityFlags rest node found.1 found.2

/-- The reads of the second loop in a call of `buildClosestLightList` that is not
answered from the memo. -/
structure SecondLoopReads where
  /-- The index `startIndex` of the first light after the leading directional run. -/
  startIndex : Nat
  /-- The number of entries of `mTmpSortedIndexes` that `std::partial_sort_copy` wrote:
  the distance from `mTmpSortedIndexes.begin()` to the iterator it returns. -/
  written : Nat
  /-- The contents of `mTmpSortedIndexes` when the second loop starts. -/
  mTmpSortedIndexes : List Nat
  /-- The entries of `mTmpSortedIndexes` the second loop uses as an index, in order. -/
  reads : List Nat
deriving DecidableEq

/-- The run of `buildClosestLightList( newCamera, lodCamera )` up to the end of the
second loop, for a call that is not answered from the memo, recording what the second
loop reads. -/
def buildClosestLightListReads (H : Headers) (node : CompositorShadowNode) (args : BuildArgs) :
    SecondLoopReads :=
  let combinedVisibilityFlags := args.viewportVisibilityMask &&& args.sceneVisibilityMask
  let node1 : CompositorShadowNode :=
    { node with
      mLastFrame := args.currentFrameCount
      mLastCamera := some args.newCamera
      mShadowMapCastingLights :=
        List.replicate node.mDefinition.mNumLights LightClosest.blank
      mNumActiveShadowMapCastingLights := 0 }
  let found := findNextEmptyShadowCastingLightEntry node1 (lightTypeBit H.LT_DIRECTIONAL) 0
  let node2 : CompositorShadowNode :=
    { node1 with mAffectedLights := List.replicate args.globalLightList.length false }
  let afterDirectional :=
    directionalLoop H combinedVisibilityFlags args.globalLightList 0 node2 found.1 found.2
  let node3 := afterDirectional.1
  let begEmptyLightIdx := afterDirectional.2.1
  let nxtEmptyLightIdx := afterDirectional.2.2
  let startIndex := directionalRunLength H args.globalLightList
  let resized := vectorResize node3.mTmpSortedIndexes
    (node3.mShadowMapCastingLights.length - begEmptyLightIdx) SIZE_MAX
  let sorted := partial_sort_copy
    (ShadowMappingLightCmp H args.globalLightList combinedVisibilityFlags)
    (List.range' startIndex (args.globalLightList.length - startIndex)) resized
  { startIndex := startIndex
    written := min (args.globalLightList.length - startIndex) resized.length
    mTmpSortedIndexes := sorted
    reads := closestLoopReads H args.globalLightList combinedVisibilityFlags sorted
      { node3 with mTmpSortedIndexes := sorted } begEmptyLightIdx nxtEmptyLightIdx }

/-- The call of frame 0 for a node with three slots that accept every light type: three
eligible point lights. -/
def threePointArgs : BuildArgs := mkArgs [(1, 2), (1, 1), (1, 3)]

/-- The call of frame 1 for the same node: one eligible directional light and one
eligible point light. -/
def directionalPointArgs : BuildArgs :=
  { mkArgs [(0, 5), (1, 1)] with currentFrameCount := 1 }

/-! ## The directional slots -/

/-- The slots whose light-type mask accepts directional lights, in slot order. -/
def directionalSlots (H : Headers) (d : CompositorShadowNodeDef) : List Nat :=
  (List.range d.mNumLights).filter (fun j => decide (slotAccepts d j H.LT_DIRECTIONAL))

/-- The global indices of the visible, shadow-caster-flagged lights of the run of
directional lights the list starts with, in list order. -/
def directionalCasters (H : Headers) (flags : Nat) (lights : LightListInfo) : List Nat :=
  eligibleIdxFrom H flags (lights.take (directionalRunLength H lights)) 0

/-- The state of the first loop of `buildClosestLightList` after it has put the lights
`dDone` into the slots `tDone`, pair by pair: these slots hold these lights, every other
slot is blank, the affected flags are those of `dDone`, and `begEmptyLightIdx` is the
first slot that is not taken, or the number of slots. -/
def DirectionalState (lights : LightListInfo) (d : CompositorShadowNodeDef)
    (tDone dDone : List Nat) (node : CompositorShadowNode) (begEmptyLightIdx : Nat) : Prop :=
  node.mDefinition = d ∧
  node.mShadowMapCastingLights.length = d.mNumLights ∧
  node.mAffectedLights.length = lights.length ∧
  tDone.length = dDone.length ∧
  (∀ p ∈ List.zip tDone dDone,
    node.mShadowMapCastingLights[p.1]? = some (slotOf lights p.2)) ∧
  (∀ j, j < d.mNumLights → j ∉ tDone →
    node.mShadowMapCastingLights[j]? = some LightClosest.blank) ∧
  (∀ k, k < lights.length → node.mAffectedLights[k]? = some (decide (k ∈ dDone))) ∧
  begEmptyLightIdx ≤ d.mNumLights ∧
  (∀ j, j < begEmptyLightIdx → j ∈ tDone) ∧
  (begEmptyLightIdx < d.mNumLights → begEmptyLightIdx ∉ tDone)

/-- The directional slots hold the directional casters pair by pair, in order, each
marked affected, and no other light of the leading directional run is in a slot or
marked affected. -/
def DirectionalSlotsHeld (H : Headers) (flags : Nat) (lights : LightListInfo)
    (d : CompositorShadowNodeDef) (node : CompositorShadowNode) : Prop :=
  node.mDefinition = d ∧
  node.mShadowMapCastingLights.length = d.mNumLights ∧
  (∀ p ∈ List.zip (directionalSlots H d) (directionalCasters H flags lights),
    node.mShadowMapCastingLights[p.1]? = some (slotOf lights p.2) ∧
      node.mAffectedLights[p.2]? = some true) ∧
  (∀ k, k < directionalRunLength H lights →
    k ∉ (directionalCasters H flags lights).take (directionalSlots H d).length →
    node.mAffectedLights[k]? = some false ∧
      ∀ s ∈ node.mShadowMapCastingLights, s.light ≠ none → s.globalIndex ≠ k)

/-- Slots 1 and 3 accept directional lights only, slot 0 point lights only, slot 2 point
and spot lights. -/
def directionalMixNode : CompositorShadowNode := freshNode [2, 1, 6, 1]

/-- The call for `directionalMixNode`: three eligible directional lights, then four
eligible point lights. -/
def directionalMixArgs : BuildArgs :=
  mkArgs [(0, 5), (0, 3), (0, 4), (1, 1), (1, 2), (1, 3), (1, 4)]

/-! ## The selection on any slot configuration -/

/-- The first slot that is not among `taken`, or `S` when the slots below `S` all are. -/
def firstFreeSlot (taken : List Nat) (S : Nat) : Nat :=
  ((List.range S).takeWhile (fun j => decide (j ∈ taken))).length

/-- The value of `begEmptyLightIdx` when the first loop of `buildClosestLightList` ends:
the first slot that holds no directional caster. -/
def firstSlotLeft (H : Headers) (flags : Nat) (lights : LightListInfo)
    (d : CompositorShadowNodeDef) : Nat :=
  firstFreeSlot ((directionalSlots H d).take (directionalCasters H flags lights).length)
    d.mNumLights

/-- The second loop of `buildClosestLightList` meets no entry of `mTmpSortedIndexes` that
`std::partial_sort_copy` did not write in this call: the list holds at least as many
lights after its leading directional run as the buffer has entries, or one of these
lights is not eligible (the loop then stops at the first such light, which sorts after
every eligible one). -/
def ScratchCovered (H : Headers) (flags : Nat) (lights : LightListInfo)
    (d : CompositorShadowNodeDef) : Prop :=
  d.mNumLights - firstSlotLeft H flags lights d ≤
      lights.length - directionalRunLength H lights ∨
    ∃ i, i < lights.length ∧ directionalRunLength H lights ≤ i ∧
      ¬ eligibleAt H flags lights i

instance scratchCoveredDecidable (H : Headers) (flags : Nat) (lights : LightListInfo)
    (d : CompositorShadowNodeDef) : Decidable (ScratchCovered H flags lights d) := by
  unfold ScratchCovered; infer_instance

theorem findNextEmptyScan_filled (masks : List Nat) (m : Nat) (pre rest : List LightClosest)
    (idx ns : Nat) (hpre : ∀ s ∈ pre, s.light ≠ none) :
    findNextEmptyScan masks m (pre ++ rest) idx ns =
      findNextEmptyScan masks m rest (idx + pre.length) ns := by
  induction pre generalizing idx with
  | nil => simp
  | cons s pre ih =>
    have hs : s.light ≠ none := hpre s (List.mem_cons_self _ _)
    have ih2 := ih (idx + 1) (fun t ht => hpre t (List.mem_cons_of_mem _ ht))
    rw [List.cons_append, findNextEmptyScan, if_neg hs, ih2, List.length_cons]
    congr 1; omega

theorem findNextEmpty_filled_blank (node : CompositorShadowNode) (m beg : Nat)
    (pre : List LightClosest) (e : Nat)
    (hslots : node.mShadowMapCastingLights = pre ++ List.replicate e LightClosest.blank)
    (hpre : ∀ s ∈ pre, s.light ≠ none) (hbeg : beg ≤ pre.length)
    (hacc : 0 < e → node.mDefinition.mLightTypesMask.getD pre.length 0 &&& m ≠ 0) :
    findNextEmptyShadowCastingLightEntry node m beg = (pre.length, pre.length) := by
  unfold findNextEmptyShadowCastingLightEntry
  rw [hslots, List.drop_append_of_le_length hbeg]
  rw [findNextEmptyScan_filled _ _ _ _ _ _ (fun s hs => hpre s (List.mem_of_mem_drop hs))]
  have hidx : beg + (List.drop beg pre).length = pre.length := by
    simp; omega
  rw [hidx]
  cases e with
  | zero => simp [findNextEmptyScan]
  | succ e =>
    have h := hacc (Nat.succ_pos e)
    have hb : LightClosest.blank.light = none := rfl
    rw [List.replicate_succ, findNextEmptyScan, if_pos hb, if_pos h]
    simp

theorem set_filled_blank (pre : List LightClosest) (e : Nat) (v : LightClosest) (he : 0 < e) :
    (pre ++ List.replicate e LightClosest.blank).set pre.length v =
      (pre ++ [v]) ++ List.replicate (e - 1) LightClosest.blank := by
  obtain ⟨e, rfl⟩ : ∃ k, e = k + 1 := ⟨e - 1, by omega⟩
  simp [List.replicate_succ]

theorem closestLoop_slots (H : Headers) (lights : LightListInfo) (flags : Nat)
    (es tail : List Nat) :
    ∀ (node : CompositorShadowNode) (pre : List LightClosest) (e beg nxt : Nat),
      node.mShadowMapCastingLights = pre ++ List.replicate e LightClosest.blank →
      (∀ s ∈ pre, s.light ≠ none) → beg ≤ pre.length → es.length ≤ e →
      (∀ i ∈ es, i < lights.length ∧ eligible H flags (lights.getD i default) ∧
        ∀ j, pre.length ≤ j → j < pre.length + e →
          slotAccepts node.mDefinition j (lights.getD i default).light.type) →
      ∃ beg1 nxt1, beg1 ≤ pre.length + es.length ∧
        closestLoop H lights flags (es ++ tail) node beg nxt =
          closestLoop H lights flags tail
            { node with
              mShadowMapCastingLights :=
                pre ++ es.map (slotOf lights) ++
                  List.replicate (e - es.length) LightClosest.blank
              mAffectedLights := markAffected node.mAffectedLights es
              mNumActiveShadowMapCastingLights :=
                node.mNumActiveShadowMapCastingLights + es.length } beg1 nxt1 := by
  induction es with
  | nil =>
    intro node pre e beg nxt hslots _ hbeg _ _
    refine ⟨beg, nxt, by simpa using hbeg, ?_⟩
    simp [markAffected, ← hslots]
  | cons i es ih =>
    intro node pre e beg nxt hslots hpre hbeg hlen hes
    obtain ⟨hi, helig, hacc⟩ := hes i (List.mem_cons_self _ _)
    have he : 0 < e := by simp at hlen; omega
    have hget : lights[i]? = some (lights.getD i default) := by
      simp [List.getD, List.getElem?_eq_getElem hi]
    have hfound := findNextEmpty_filled_blank node
      (lightTypeBit (lights.getD i default).light.type) beg pre e hslots hpre hbeg
      (fun _ => hacc pre.length (le_refl _) (by omega))
    have hsz : node.mShadowMapCastingLights.length = pre.length + e := by
      rw [hslots]; simp
    have hnb : ¬ (¬ ((lights.getD i default).visibilityMask &&& flags ≠ 0) ∨
          ¬ ((lights.getD i default).visibilityMask &&& H.LAYER_SHADOW_CASTER ≠ 0) ∨
          beg ≥ node.mShadowMapCastingLights.length) := by
      rw [hsz]
      intro h
      rcases h with h | h | h
      · exact h helig.1
      · exact h helig.2
      · omega
    have hlt : pre.length < node.mShadowMapCastingLights.length := by omega
    obtain ⟨beg1, nxt1, hb1, hrec⟩ := ih
      { node with
        mAffectedLights := node.mAffectedLights.set i true
        mShadowMapCastingLights :=
          node.mShadowMapCastingLights.set pre.length ⟨some (lights.getD i default).light, i, 0⟩
        mNumActiveShadowMapCastingLights := node.mNumActiveShadowMapCastingLights + 1 }
      (pre ++ [slotOf lights i]) (e - 1) pre.length pre.length
      (by simp only; rw [hslots, set_filled_blank _ _ _ he]; rfl)
      (by
        intro s hs
        rcases List.mem_append.1 hs with h | h
        · exact hpre s h
        · simp at h; subst h; simp [slotOf])
      (by simp) (by simp at hlen; omega)
      (by
        intro k hk
        obtain ⟨h1, h2, h3⟩ := hes k (List.mem_cons_of_mem _ hk)
        refine ⟨h1, h2, fun j hj1 hj2 => h3 j ?_ ?_⟩
        · simp at hj1; omega
        · simp at hj2; omega)
    have hb2 : beg1 ≤ pre.length + (i :: es).length := by
      rw [List.length_append] at hb1
      simp only [List.length_cons, List.length_nil] at hb1 ⊢
      omega
    refine ⟨beg1, nxt1, hb2, ?_⟩
    rw [List.cons_append, closestLoop, hget]
    simp only
    rw [if_neg hnb, hfound]
    simp only
    rw [if_pos hlt, hrec]
    congr 1
    simp only [markAffected, List.foldl_cons, List.map_cons, List.length_cons,
      List.append_assoc, List.singleton_append, CompositorShadowNode.mk.injEq, true_and, and_true]
    refine ⟨?_, by omega⟩
    congr 3
    omega

theorem getD_of_drop_eq_cons (lights : LightListInfo) (i : Nat) (x : LightListEntry)
    (rest : List LightListEntry) (h : lights.drop i = x :: rest) :
    lights.getD i default = x ∧ lights.drop (i + 1) = rest ∧ i < lights.length := by
  have hlt : i < lights.length := by
    by_contra hc
    rw [List.drop_eq_nil_of_le (by omega)] at h
    exact List.noConfusion h
  have h2 := List.drop_eq_getElem_cons hlt
  rw [h] at h2
  injection h2 with h3 h4
  refine ⟨?_, h4.symm, hlt⟩
  simp [List.getD, List.getElem?_eq_getElem hlt, h3]

theorem directionalLoop_none (H : Headers) (flags : Nat) (ls : List LightListEntry) :
    ∀ (listIdx : Nat) (node : CompositorShadowNode) (beg nxt : Nat),
      (∀ x ∈ ls.takeWhile (fun e => decide (e.light.type = H.LT_DIRECTIONAL)),
        ¬ eligible H flags x) →
      directionalLoop H flags ls listIdx node beg nxt = (node, beg, nxt) := by
  induction ls with
  | nil => intro listIdx node beg nxt _; rfl
  | cons x ls ih =>
    intro listIdx node beg nxt h
    rw [directionalLoop]
    by_cases hd : x.light.type = H.LT_DIRECTIONAL
    · have hx : ¬ eligible H flags x := h x (by simp [List.takeWhile, hd])
      have hrest := ih (listIdx + 1) node beg nxt (fun y hy => h y (by
        simp only [List.takeWhile, hd, decide_True]
        exact List.mem_cons_of_mem _ hy))
      by_cases hn : nxt < node.mShadowMapCastingLights.length
      · rw [if_pos ⟨hd, hn⟩, if_neg (show ¬ (x.visibilityMask &&& flags ≠ 0 ∧
            x.visibilityMask &&& H.LAYER_SHADOW_CASTER ≠ 0) from hx), hrest]
      · rw [if_neg (fun hc => hn hc.2)]
    · rw [if_neg (fun hc => hd hc.1)]

theorem directionalLoop_slots (H : Headers) (flags : Nat) (lights : LightListInfo)
    (run tail : List LightListEntry) :
    ∀ (listIdx : Nat) (node : CompositorShadowNode) (pre : List LightClosest) (e : Nat),
      node.mShadowMapCastingLights = pre ++ List.replicate e LightClosest.blank →
      (∀ s ∈ pre, s.light ≠ none) →
      (∀ x ∈ run, x.light.type = H.LT_DIRECTIONAL) →
      (∀ x, tail.head? = some x → x.light.type ≠ H.LT_DIRECTIONAL) →
      (∀ j, pre.length ≤ j → j < pre.length + e →
        slotAccepts node.mDefinition j H.LT_DIRECTIONAL) →
      lights.drop listIdx = run ++ tail →
      directionalLoop H flags (run ++ tail) listIdx node pre.length pre.length =
        ({ node with
            mShadowMapCastingLights :=
              pre ++ ((eligibleIdxFrom H flags run listIdx).take e).map (slotOf lights) ++
                List.replicate (e - ((eligibleIdxFrom H flags run listIdx).take e).length)
                  LightClosest.blank
            mAffectedLights :=
              markAffected node.mAffectedLights ((eligibleIdxFrom H flags run listIdx).take e)
            mNumActiveShadowMapCastingLights :=
              node.mNumActiveShadowMapCastingLights +
                ((eligibleIdxFrom H flags run listIdx).take e).length },
          pre.length + ((eligibleIdxFrom H flags run listIdx).take e).length,
          pre.length + ((eligibleIdxFrom H flags run listIdx).take e).length) := by
  induction run with
  | nil =>
    intro listIdx node pre e hslots _ _ htail _ _
    have hnode : ({ node with
        mShadowMapCastingLights := pre ++ List.replicate e LightClosest.blank
        mAffectedLights := node.mAffectedLights
        mNumActiveShadowMapCastingLights := node.mNumActiveShadowMapCastingLights } :
          CompositorShadowNode) = node := by rw [← hslots]
    cases tail with
    | nil => simp [directionalLoop, eligibleIdxFrom, markAffected, hnode]
    | cons x tail =>
      have hx := htail x rfl
      simp [directionalLoop, eligibleIdxFrom, markAffected, hnode, hx]
  | cons x run ih =>
    intro listIdx node pre e hslots hpre hrun htail hacc hdrop
    have hd : x.light.type = H.LT_DIRECTIONAL := hrun x (List.mem_cons_self _ _)
    obtain ⟨hgetD, hdrop1, _⟩ := getD_of_drop_eq_cons lights listIdx x (run ++ tail) hdrop
    have hsz : node.mShadowMapCastingLights.length = pre.length + e := by
      rw [hslots]; simp
    rw [List.cons_append, directionalLoop]
    cases e with
    | zero =>
      rw [if_neg (fun hc => by have := hc.2; omega)]
      have hnode : ({ node with
          mShadowMapCastingLights := pre
          mAffectedLights := node.mAffectedLights
          mNumActiveShadowMapCastingLights := node.mNumActiveShadowMapCastingLights } :
            CompositorShadowNode) = node := by
        have : node.mShadowMapCastingLights = pre := by simpa using hslots
        rw [← this]
      simp [markAffected, hnode]
    | succ e =>
      rw [if_pos ⟨hd, by omega⟩]
      by_cases hel : eligible H flags x
      · rw [if_pos (show x.visibilityMask &&& flags ≠ 0 ∧
            x.visibilityMask &&& H.LAYER_SHADOW_CASTER ≠ 0 from hel)]
        simp only
        have hset : node.mShadowMapCastingLights.set pre.length ⟨some x.light, listIdx, 0⟩ =
            (pre ++ [slotOf lights listIdx]) ++ List.replicate e LightClosest.blank := by
          rw [hslots, set_filled_blank _ _ _ (Nat.succ_pos e)]
          have hgetD2 : lights[listIdx]?.getD default = x := by
            rw [← List.getD_eq_getElem?_getD]; exact hgetD
          simp [slotOf, hgetD2]
        have hpre1 : ∀ s ∈ pre ++ [slotOf lights listIdx], s.light ≠ none := by
          intro s hs
          rcases List.mem_append.1 hs with h | h
          · exact hpre s h
          · simp at h; subst h; simp [slotOf]
        have hfound := findNextEmpty_filled_blank
          { node with
            mAffectedLights := node.mAffectedLights.set listIdx true
            mShadowMapCastingLights :=
              node.mShadowMapCastingLights.set pre.length ⟨some x.light, listIdx, 0⟩ }
          (lightTypeBit H.LT_DIRECTIONAL) pre.length
          (pre ++ [slotOf lights listIdx]) e hset hpre1 (by simp)
          (fun he => hacc (pre ++ [slotOf lights listIdx]).length (by simp) (by simp; omega))
        rw [hfound]
        have hrec := ih (listIdx + 1)
          { node with
            mAffectedLights := node.mAffectedLights.set listIdx true
            mShadowMapCastingLights :=
              node.mShadowMapCastingLights.set pre.length ⟨some x.light, listIdx, 0⟩
            mNumActiveShadowMapCastingLights := node.mNumActiveShadowMapCastingLights + 1 }
          (pre ++ [slotOf lights listIdx]) e hset hpre1
          (fun y hy => hrun y (List.mem_cons_of_mem _ hy)) htail
          (fun j hj1 hj2 => hacc j (by simp at hj1; omega) (by simp at hj2; omega)) hdrop1
        simp only at hrec ⊢
        rw [hrec]
        simp only [eligibleIdxFrom, if_pos hel, List.take_succ_cons, List.map_cons,
          List.length_cons, List.length_append, List.length_nil, markAffected, List.foldl_cons,
          List.append_assoc, List.singleton_append, Prod.mk.injEq,
          CompositorShadowNode.mk.injEq, true_and, and_true]
        refine ⟨⟨?_, by omega⟩, by omega, by omega⟩
        congr 3
        omega
      · rw [if_neg (show ¬ (x.visibilityMask &&& flags ≠ 0 ∧
            x.visibilityMask &&& H.LAYER_SHADOW_CASTER ≠ 0) from hel)]
        have hrec := ih (listIdx + 1) node pre (e + 1) hslots hpre
          (fun y hy => hrun y (List.mem_cons_of_mem _ hy)) htail hacc hdrop1
        rw [hrec]
        simp only [eligibleIdxFrom, if_neg hel]

theorem ShadowMappingLightCmp_iff (H : Headers) (lights : LightListInfo) (flags l r : Nat) :
    ShadowMappingLightCmp H lights flags l r = true ↔
      (((lights.getD l default).visibilityMask &&& flags ≠ 0 ∧
          ¬ ((lights.getD r default).visibilityMask &&& flags ≠ 0)) ∨
        ((((lights.getD l default).visibilityMask &&& flags ≠ 0) ↔
            ((lights.getD r default).visibilityMask &&& flags ≠ 0)) ∧
          (((lights.getD l default).visibilityMask &&& H.LAYER_SHADOW_CASTER ≠ 0 ∧
              ¬ ((lights.getD r default).visibilityMask &&& H.LAYER_SHADOW_CASTER ≠ 0)) ∨
            ((((lights.getD l default).visibilityMask &&& H.LAYER_SHADOW_CASTER ≠ 0) ↔
                ((lights.getD r default).visibilityMask &&& H.LAYER_SHADOW_CASTER ≠ 0)) ∧
              (lights.getD l default).fDist < (lights.getD r default).fDist)))) := by
  unfold ShadowMappingLightCmp
  simp only []
  split_ifs <;> (try simp only [decide_eq_true_eq]) <;> tauto

theorem ShadowMappingLightCmp_iff_key (H : Headers) (lights : LightListInfo) (flags l r : Nat) :
    ShadowMappingLightCmp H lights flags l r = true ↔
      sortKey H lights flags l < sortKey H lights flags r := by
  rw [ShadowMappingLightCmp_iff]
  unfold sortKey
  rw [Prod.Lex.lt_iff]
  simp only []
  rw [Prod.Lex.lt_iff]
  generalize lights.getD l default = el
  generalize lights.getD r default = er
  by_cases vl : el.visibilityMask &&& flags = 0 <;>
  by_cases vr : er.visibilityMask &&& flags = 0 <;>
  by_cases cl : el.visibilityMask &&& H.LAYER_SHADOW_CASTER = 0 <;>
  by_cases cr : er.visibilityMask &&& H.LAYER_SHADOW_CASTER = 0 <;>
  simp [vl, vr, cl, cr]

theorem notAfter_iff_key (H : Headers) (lights : LightListInfo) (flags a b : Nat) :
    notAfter (ShadowMappingLightCmp H lights flags) a b ↔
      sortKey H lights flags a ≤ sortKey H lights flags b := by
  unfold notAfter
  rw [Bool.eq_false_iff, Ne, ShadowMappingLightCmp_iff_key, not_lt]

theorem notAfter_total (H : Headers) (lights : LightListInfo) (flags a b : Nat) :
    notAfter (ShadowMappingLightCmp H lights flags) a b ∨
      notAfter (ShadowMappingLightCmp H lights flags) b a := by
  rw [notAfter_iff_key, notAfter_iff_key]
  exact le_total _ _

theorem notAfter_trans (H : Headers) (lights : LightListInfo) (flags a b c : Nat)
    (hab : notAfter (ShadowMappingLightCmp H lights flags) a b)
    (hbc : notAfter (ShadowMappingLightCmp H lights flags) b c) :
    notAfter (ShadowMappingLightCmp H lights flags) a c := by
  rw [notAfter_iff_key] at *
  exact le_trans hab hbc

theorem notAfter_eligible_first (H : Headers) (lights : LightListInfo) (flags a b : Nat)
    (hab : notAfter (ShadowMappingLightCmp H lights flags) a b)
    (hb : eligibleAt H flags lights b) : eligibleAt H flags lights a := by
  unfold notAfter at hab
  rw [Bool.eq_false_iff, Ne, ShadowMappingLightCmp_iff] at hab
  unfold eligibleAt eligible at *
  by_contra hc
  apply hab
  tauto

theorem notAfter_eligible_dist (H : Headers) (lights : LightListInfo) (flags a b : Nat)
    (hab : notAfter (ShadowMappingLightCmp H lights flags) a b)
    (ha : eligibleAt H flags lights a) (hb : eligibleAt H flags lights b) :
    (lights.getD a default).fDist ≤ (lights.getD b default).fDist := by
  unfold notAfter at hab
  rw [Bool.eq_false_iff, Ne, ShadowMappingLightCmp_iff] at hab
  unfold eligibleAt eligible at *
  by_contra hc
  apply hab
  have := not_le.1 hc
  tauto

theorem filter_eq_takeWhile_of_first {α : Type} (p : α → Bool) (s : List α)
    (h : s.Pairwise (fun a b => p b = true → p a = true)) :
    s.filter p = s.takeWhile p := by
  induction s with
  | nil => rfl
  | cons a t ih =>
    rw [List.pairwise_cons] at h
    by_cases ha : p a = true
    · simp [List.filter, List.takeWhile, ha, ih h.2]
    · have : ∀ b ∈ t, ¬ p b = true := fun b hb hpb => ha (h.1 b hb hpb)
      simp [List.filter, List.takeWhile, ha]
      exact fun b hb => Bool.eq_false_iff.2 (this b hb)

theorem takeWhile_take {α : Type} (p : α → Bool) (s : List α) (k : Nat) :
    (s.take k).takeWhile p = (s.takeWhile p).take k := by
  induction s generalizing k with
  | nil => simp
  | cons a t ih =>
    cases k with
    | zero => simp
    | succ k =>
      by_cases ha : p a = true
      · simp [List.takeWhile, ha, ih]
      · simp [List.takeWhile, ha]

/-! ## The selection when every slot accepts every eligible light -/

theorem mem_eligibleIdxFrom (H : Headers) (flags : Nat) (ls : List LightListEntry) :
    ∀ (i j : Nat), j ∈ eligibleIdxFrom H flags ls i ↔
      i ≤ j ∧ ∃ e, ls[j - i]? = some e ∧ eligible H flags e := by
  induction ls with
  | nil => intro i j; simp [eligibleIdxFrom]
  | cons x ls ih =>
    intro i j
    rw [eligibleIdxFrom]
    by_cases hx : eligible H flags x
    · rw [if_pos hx, List.mem_cons, ih]
      constructor
      · rintro (rfl | ⟨h1, e, h2, h3⟩)
        · exact ⟨le_refl _, x, by simp, hx⟩
        · refine ⟨by omega, e, ?_, h3⟩
          have : j - i = (j - (i + 1)) + 1 := by omega
          rw [this, List.getElem?_cons_succ]; exact h2
      · rintro ⟨h1, e, h2, h3⟩
        by_cases hji : j = i
        · exact Or.inl hji
        · right
          refine ⟨by omega, e, ?_, h3⟩
          have : j - i = (j - (i + 1)) + 1 := by omega
          rw [this, List.getElem?_cons_succ] at h2; exact h2
    · rw [if_neg hx, ih]
      constructor
      · rintro ⟨h1, e, h2, h3⟩
        refine ⟨by omega, e, ?_, h3⟩
        have : j - i = (j - (i + 1)) + 1 := by omega
        rw [this, List.getElem?_cons_succ]; exact h2
      · rintro ⟨h1, e, h2, h3⟩
        have hji : j ≠ i := by
          rintro rfl
          simp at h2
          subst h2
          exact hx h3
        refine ⟨by omega, e, ?_, h3⟩
        have : j - i = (j - (i + 1)) + 1 := by omega
        rw [this, List.getElem?_cons_succ] at h2; exact h2

theorem directionalRunLength_le (H : Headers) (lights : LightListInfo) :
    directionalRunLength H lights ≤ lights.length := by
  unfold directionalRunLength
  exact (List.takeWhile_sublist _).length_le

theorem take_directionalRunLength (H : Headers) (lights : LightListInfo) :
    lights.take (directionalRunLength H lights) =
      lights.takeWhile (fun e => decide (e.light.type = H.LT_DIRECTIONAL)) := by
  unfold directionalRunLength
  exact (List.prefix_iff_eq_take.1 (List.takeWhile_prefix _)).symm

theorem findNextEmpty_all_blank (node : CompositorShadowNode) (m S : Nat)
    (hslots : node.mShadowMapCastingLights = List.replicate S LightClosest.blank) :
    (findNextEmptyShadowCastingLightEntry node m 0).1 = 0 := by
  unfold findNextEmptyShadowCastingLightEntry
  rw [hslots, List.drop_zero]
  have key : ∀ (k idx : Nat),
      (findNextEmptyScan node.mDefinition.mLightTypesMask m
        (List.replicate k LightClosest.blank) idx 0).1 = 0 := by
    intro k
    induction k with
    | zero => intro idx; simp [findNextEmptyScan]
    | succ k ih =>
      intro idx
      have hb : LightClosest.blank.light = none := rfl
      rw [List.replicate_succ, findNextEmptyScan, if_pos hb]
      split_ifs
      · simp
      · rw [Nat.min_zero]; exact ih _
  cases S with
  | zero => simp [findNextEmptyScan]
  | succ S =>
    have hb : LightClosest.blank.light = none := rfl
    rw [List.replicate_succ, findNextEmptyScan, if_pos hb]
    split_ifs
    · simp
    · rw [Nat.zero_min]; exact key _ _



theorem slotOf_filled (lights : LightListInfo) (l : List Nat) :
    ∀ s ∈ l.map (slotOf lights), s.light ≠ none := by
  intro s hs
  obtain ⟨i, _, rfl⟩ := List.mem_map.1 hs
  simp [slotOf]

theorem directionalLoop_uniform (H : Headers) (flags : Nat) (lights : LightListInfo)
    (node : CompositorShadowNode) (S : Nat)
    (hslots : node.mShadowMapCastingLights = List.replicate S LightClosest.blank)
    (hacc : ∀ x ∈ lights, eligible H flags x →
      ∀ j, j < S → slotAccepts node.mDefinition j x.light.type) :
    ∃ nxt, directionalLoop H flags lights 0 node
        (findNextEmptyShadowCastingLightEntry node (lightTypeBit H.LT_DIRECTIONAL) 0).1
        (findNextEmptyShadowCastingLightEntry node (lightTypeBit H.LT_DIRECTIONAL) 0).2 =
      ({ node with
          mShadowMapCastingLights :=
            (directionalWinners H flags lights S).map (slotOf lights) ++
              List.replicate (S - (directionalWinners H flags lights S).length)
                LightClosest.blank
          mAffectedLights :=
            markAffected node.mAffectedLights (directionalWinners H flags lights S)
          mNumActiveShadowMapCastingLights :=
            node.mNumActiveShadowMapCastingLights +
              (directionalWinners H flags lights S).length },
        (directionalWinners H flags lights S).length, nxt) := by
  have hsplit := List.takeWhile_append_dropWhile
    (fun e : LightListEntry => decide (e.light.type = H.LT_DIRECTIONAL)) lights
  have hrun : ∀ x ∈ lights.takeWhile (fun e => decide (e.light.type = H.LT_DIRECTIONAL)),
      x.light.type = H.LT_DIRECTIONAL := by
    intro x hx
    simpa using List.mem_takeWhile_imp hx
  by_cases hex : ∃ x ∈ lights.takeWhile (fun e => decide (e.light.type = H.LT_DIRECTIONAL)),
      eligible H flags x
  · obtain ⟨x, hx, hel⟩ := hex
    have hxl : x ∈ lights := (List.takeWhile_sublist _).subset hx
    have hdir : ∀ j, j < S → slotAccepts node.mDefinition j H.LT_DIRECTIONAL := by
      intro j hj
      have := hacc x hxl hel j hj
      rwa [hrun x hx] at this
    have hfound := findNextEmpty_filled_blank node (lightTypeBit H.LT_DIRECTIONAL) 0 [] S
      (by simpa using hslots) (by simp) (by simp) (fun hS => hdir 0 hS)
    have hloop := directionalLoop_slots H flags lights
      (lights.takeWhile (fun e => decide (e.light.type = H.LT_DIRECTIONAL)))
      (lights.dropWhile (fun e => decide (e.light.type = H.LT_DIRECTIONAL)))
      0 node [] S (by simpa using hslots) (by simp) hrun
      (by
        intro y hy
        have h := List.head?_dropWhile_not
          (fun e : LightListEntry => decide (e.light.type = H.LT_DIRECTIONAL)) lights
        rw [hy] at h
        simpa using h)
      (fun j _ hj => hdir j (by simpa using hj))
      (by rw [List.drop_zero]; exact hsplit.symm)
    rw [hsplit] at hloop
    rw [hfound]
    refine ⟨(directionalWinners H flags lights S).length, ?_⟩
    simp only [List.length_nil, Nat.zero_add, List.nil_append] at hloop ⊢
    rw [hloop]
    unfold directionalWinners
    rw [take_directionalRunLength]
  · push_neg at hex
    have hloop := directionalLoop_none H flags lights 0 node
      (findNextEmptyShadowCastingLightEntry node (lightTypeBit H.LT_DIRECTIONAL) 0).1
      (findNextEmptyShadowCastingLightEntry node (lightTypeBit H.LT_DIRECTIONAL) 0).2 hex
    have hnil : eligibleIdxFrom H flags
        (lights.takeWhile (fun e => decide (e.light.type = H.LT_DIRECTIONAL))) 0 = [] := by
      apply List.eq_nil_iff_forall_not_mem.2
      intro j hj
      obtain ⟨_, e, he, hel⟩ := (mem_eligibleIdxFrom H flags _ 0 j).1 hj
      exact hex e (List.getElem?_mem he) hel
    have hdw : directionalWinners H flags lights S = [] := by
      unfold directionalWinners
      rw [take_directionalRunLength, hnil, List.take_nil]
    refine ⟨(findNextEmptyShadowCastingLightEntry node (lightTypeBit H.LT_DIRECTIONAL) 0).2, ?_⟩
    rw [hloop, hdw, findNextEmpty_all_blank node _ S hslots]
    simp only [List.map_nil, List.length_nil, List.nil_append, Nat.sub_zero, markAffected,
      List.foldl_nil, Nat.add_zero, ← hslots]



theorem mem_sortedRest (H : Headers) (flags : Nat) (lights : LightListInfo) (j : Nat) :
    j ∈ sortedRest H flags lights ↔ directionalRunLength H lights ≤ j ∧ j < lights.length := by
  unfold sortedRest
  rw [(List.perm_insertionSort _ _).mem_iff, List.mem_range'_1]
  have := directionalRunLength_le H lights
  constructor <;> rintro ⟨h1, h2⟩ <;> exact ⟨h1, by omega⟩

theorem length_sortedRest (H : Headers) (flags : Nat) (lights : LightListInfo) :
    (sortedRest H flags lights).length = lights.length - directionalRunLength H lights := by
  unfold sortedRest
  rw [List.length_insertionSort, List.length_range']

theorem length_vectorResize {α : Type} (v : List α) (count : Nat) (value : α) :
    (vectorResize v count value).length = count := by
  unfold vectorResize
  rw [List.length_append, List.length_take, List.length_replicate]
  omega

theorem partial_sort_copy_full (comp : Nat → Nat → Bool) (input output : List Nat)
    (h : output.length ≤ input.length) :
    partial_sort_copy comp input output =
      (List.insertionSort (notAfter comp) input).take output.length := by
  unfold partial_sort_copy
  rw [Nat.min_eq_right h, List.drop_length, List.append_nil]

theorem markAffected_append (aff : List Bool) (a b : List Nat) :
    markAffected (markAffected aff a) b = markAffected aff (a ++ b) := by
  unfold markAffected
  rw [List.foldl_append]

theorem closestLoop_stop (H : Headers) (lights : LightListInfo) (flags : Nat)
    (tl : List Nat) (node : CompositorShadowNode) (beg nxt : Nat)
    (hin : ∀ j ∈ tl, j < lights.length)
    (hhead : ∀ j, tl.head? = some j → ¬ eligibleAt H flags lights j) :
    closestLoop H lights flags tl node beg nxt = some node := by
  cases tl with
  | nil => rfl
  | cons j tl =>
    have hj := hin j (List.mem_cons_self _ _)
    have hne := hhead j rfl
    have hget : lights[j]? = some (lights.getD j default) := by
      simp [List.getD, List.getElem?_eq_getElem hj]
    rw [closestLoop, hget]
    simp only
    rw [if_pos]
    unfold eligibleAt eligible at hne
    by_contra hc
    push_neg at hc
    exact hne ⟨hc.1, hc.2.1⟩

theorem buildClosestLightList_uniform (H : Headers) (node : CompositorShadowNode)
    (args : BuildArgs)
    (hmemo : ¬ (node.mLastCamera = some args.newCamera ∧
      node.mLastFrame = args.currentFrameCount))
    (hacc : ∀ x ∈ args.globalLightList, eligible H (combinedFlags args) x →
      ∀ j, j < node.mDefinition.mNumLights → slotAccepts node.mDefinition j x.light.type)
    (hfill : node.mDefinition.mNumLights -
        (directionalWinners H (combinedFlags args) args.globalLightList
          node.mDefinition.mNumLights).length ≤
      args.globalLightList.length - directionalRunLength H args.globalLightList) :
    buildClosestLightList H node args = some
      { node with
        mLastFrame := args.currentFrameCount
        mLastCamera := some args.newCamera
        mShadowMapCastingLights :=
          (winners H args node.mDefinition.mNumLights).map (slotOf args.globalLightList) ++
            List.replicate
              (node.mDefinition.mNumLights - (winners H args node.mDefinition.mNumLights).length)
              LightClosest.blank
        mAffectedLights :=
          markAffected (List.replicate args.globalLightList.length false)
            (winners H args node.mDefinition.mNumLights)
        mNumActiveShadowMapCastingLights := (winners H args node.mDefinition.mNumLights).length
        mTmpSortedIndexes :=
          (sortedRest H (combinedFlags args) args.globalLightList).take
            (node.mDefinition.mNumLights -
              (directionalWinners H (combinedFlags args) args.globalLightList
                node.mDefinition.mNumLights).length)
        mCastersBox := args.castersBox } := by
  -- names for the pieces
  generalize hS : node.mDefinition.mNumLights = S at *
  generalize hlights : args.globalLightList = lights at *
  generalize hdw : directionalWinners H (combinedFlags args) lights S = dw at *
  have hdwS : dw.length ≤ S := by
    rw [← hdw]; unfold directionalWinners; rw [List.length_take]; omega
  -- the directional phase
  obtain ⟨nxt, hdir⟩ := directionalLoop_uniform H (combinedFlags args) lights
    { node with
      mLastFrame := args.currentFrameCount
      mLastCamera := some args.newCamera
      mShadowMapCastingLights := List.replicate S LightClosest.blank
      mNumActiveShadowMapCastingLights := 0
      mAffectedLights := List.replicate lights.length false } S rfl hacc
  rw [hdw] at hdir
  dsimp only at hdir
  -- the scratch buffer after the partial sort
  have hsorted : partial_sort_copy (ShadowMappingLightCmp H lights (combinedFlags args))
      (List.range' (directionalRunLength H lights)
        (lights.length - directionalRunLength H lights))
      (vectorResize node.mTmpSortedIndexes (S - dw.length) SIZE_MAX) =
      (sortedRest H (combinedFlags args) lights).take (S - dw.length) := by
    rw [partial_sort_copy_full _ _ _ (by
      rw [length_vectorResize, List.length_range']; exact hfill), length_vectorResize]
    rfl
  -- the second loop
  have hsplit := List.takeWhile_append_dropWhile
    (fun i => decide (eligibleAt H (combinedFlags args) lights i))
    ((sortedRest H (combinedFlags args) lights).take (S - dw.length))
  have hcw : closestWinners H (combinedFlags args) lights (S - dw.length) =
      ((sortedRest H (combinedFlags args) lights).take (S - dw.length)).takeWhile
        (fun i => decide (eligibleAt H (combinedFlags args) lights i)) := rfl
  generalize hcwg : closestWinners H (combinedFlags args) lights (S - dw.length) = cw at *
  have hcwlen : cw.length ≤ S - dw.length := by
    rw [hcw]
    calc _ ≤ ((sortedRest H (combinedFlags args) lights).take (S - dw.length)).length :=
          (List.takeWhile_sublist _).length_le
      _ ≤ S - dw.length := by rw [List.length_take]; omega
  have hcwmem : ∀ i ∈ cw, i < lights.length ∧ eligible H (combinedFlags args)
      (lights.getD i default) := by
    intro i hi
    rw [hcw] at hi
    have h1 := (mem_sortedRest H (combinedFlags args) lights i).1
      (List.mem_of_mem_take ((List.takeWhile_sublist _).subset hi))
    have h2 := List.mem_takeWhile_imp hi
    exact ⟨h1.2, by simpa [eligibleAt] using h2⟩
  obtain ⟨beg1, nxt1, _, hloop⟩ := closestLoop_slots H lights (combinedFlags args) cw
    (((sortedRest H (combinedFlags args) lights).take (S - dw.length)).dropWhile
      (fun i => decide (eligibleAt H (combinedFlags args) lights i)))
    { node with
      mLastFrame := args.currentFrameCount
      mLastCamera := some args.newCamera
      mShadowMapCastingLights :=
        dw.map (slotOf lights) ++ List.replicate (S - dw.length) LightClosest.blank
      mAffectedLights := markAffected (List.replicate lights.length false) dw
      mNumActiveShadowMapCastingLights := 0 + dw.length
      mTmpSortedIndexes := (sortedRest H (combinedFlags args) lights).take (S - dw.length) }
    (dw.map (slotOf lights)) (S - dw.length) dw.length nxt rfl
    (slotOf_filled lights dw) (by simp) hcwlen
    (by
      intro i hi
      obtain ⟨h1, h2⟩ := hcwmem i hi
      refine ⟨h1, h2, fun j _ hj => ?_⟩
      have hmem : lights.getD i default ∈ lights := by
        have : lights.getD i default = lights[i] := by
          simp [List.getD, List.getElem?_eq_getElem h1]
        rw [this]; exact List.getElem_mem h1
      exact hS ▸ hacc _ hmem h2 j (by simp at hj; omega))
  rw [← hcw] at hsplit
  rw [hsplit] at hloop
  dsimp only at hloop
  have hstop := closestLoop_stop H lights (combinedFlags args)
    (((sortedRest H (combinedFlags args) lights).take (S - dw.length)).dropWhile
      (fun i => decide (eligibleAt H (combinedFlags args) lights i)))
    { node with
      mLastFrame := args.currentFrameCount
      mLastCamera := some args.newCamera
      mShadowMapCastingLights :=
        dw.map (slotOf lights) ++ cw.map (slotOf lights) ++
          List.replicate (S - dw.length - cw.length) LightClosest.blank
      mAffectedLights := markAffected (markAffected (List.replicate lights.length false) dw) cw
      mNumActiveShadowMapCastingLights := 0 + dw.length + cw.length
      mTmpSortedIndexes := (sortedRest H (combinedFlags args) lights).take (S - dw.length) }
    beg1 nxt1
    (by
      intro j hj
      exact ((mem_sortedRest H (combinedFlags args) lights j).1
        (List.mem_of_mem_take ((List.dropWhile_sublist _).subset hj))).2)
    (by
      intro j hj
      have h := List.head?_dropWhile_not
        (fun i => decide (eligibleAt H (combinedFlags args) lights i))
        ((sortedRest H (combinedFlags args) lights).take (S - dw.length))
      rw [hj] at h
      simpa using h)
  rw [hstop] at hloop
  -- assemble
  unfold buildClosestLightList
  rw [if_neg hmemo]
  simp only [hS, hlights]
  have hcf : args.viewportVisibilityMask &&& args.sceneVisibilityMask = combinedFlags args := rfl
  rw [hcf]
  have hfind : ∀ a : List Bool, findNextEmptyShadowCastingLightEntry
      { node with
        mLastFrame := args.currentFrameCount
        mLastCamera := some args.newCamera
        mShadowMapCastingLights := List.replicate S LightClosest.blank
        mNumActiveShadowMapCastingLights := 0 } (lightTypeBit H.LT_DIRECTIONAL) 0 =
      findNextEmptyShadowCastingLightEntry
      { node with
        mLastFrame := args.currentFrameCount
        mLastCamera := some args.newCamera
        mShadowMapCastingLights := List.replicate S LightClosest.blank
        mNumActiveShadowMapCastingLights := 0
        mAffectedLights := a } (lightTypeBit H.LT_DIRECTIONAL) 0 := fun _ => rfl
  rw [hfind (List.replicate lights.length false), hdir]
  simp only [List.length_append, List.length_map, List.length_replicate,
    Nat.add_sub_cancel' hdwS]
  rw [hsorted, hloop]
  simp only [winners, hlights, hdw, hcwg, List.map_append, List.length_append,
    markAffected_append, Nat.zero_add, Nat.sub_add_eq]

theorem length_eligibleIdxFrom (H : Headers) (flags : Nat) (ls : List LightListEntry) :
    ∀ i, (eligibleIdxFrom H flags ls i).length = eligibleCount H flags ls := by
  unfold eligibleCount
  induction ls with
  | nil => intro i; rfl
  | cons x ls ih =>
    intro i
    rw [eligibleIdxFrom]
    by_cases hx : eligible H flags x
    · rw [if_pos hx, List.length_cons, ih, List.filter_cons_of_pos (by simpa using hx),
        List.length_cons]
    · rw [if_neg hx, ih, List.filter_cons_of_neg (by simpa using hx)]

theorem eligibleIdxFrom_drop (H : Headers) (flags : Nat) (lights : LightListInfo) :
    ∀ (m i : Nat), i + m = lights.length →
      eligibleIdxFrom H flags (lights.drop i) i =
        (List.range' i m).filter (fun j => decide (eligibleAt H flags lights j)) := by
  intro m
  induction m with
  | zero =>
    intro i hi
    rw [List.drop_eq_nil_of_le (by omega)]
    rfl
  | succ m ih =>
    intro i hi
    have hlt : i < lights.length := by omega
    have hget : lights.getD i default = lights[i] := by
      simp [List.getD, List.getElem?_eq_getElem hlt]
    rw [List.drop_eq_getElem_cons hlt, eligibleIdxFrom, ih (i + 1) (by omega),
      List.range'_succ]
    by_cases hx : eligible H flags lights[i]
    · rw [if_pos hx, List.filter_cons_of_pos (by
        rw [decide_eq_true_eq]; unfold eligibleAt; rw [hget]; exact hx)]
    · rw [if_neg hx, List.filter_cons_of_neg (by
        rw [decide_eq_true_eq]; unfold eligibleAt; rw [hget]; exact hx)]

theorem eligibleCount_split (H : Headers) (flags : Nat) (lights : LightListInfo) (k : Nat) :
    eligibleCount H flags lights =
      eligibleCount H flags (lights.take k) + eligibleCount H flags (lights.drop k) := by
  unfold eligibleCount
  rw [← List.length_append, ← List.filter_append, List.take_append_drop]

theorem sortedRest_sorted (H : Headers) (flags : Nat) (lights : LightListInfo) :
    (sortedRest H flags lights).Pairwise (notAfter (ShadowMappingLightCmp H lights flags)) :=
  @List.sorted_insertionSort _ (notAfter (ShadowMappingLightCmp H lights flags)) _
    ⟨notAfter_total H lights flags⟩ ⟨notAfter_trans H lights flags⟩ _

theorem sortedRest_nodup (H : Headers) (flags : Nat) (lights : LightListInfo) :
    (sortedRest H flags lights).Nodup := by
  unfold sortedRest
  rw [(List.perm_insertionSort _ _).nodup_iff]
  exact List.nodup_range' _ _

theorem sortedRest_filter (H : Headers) (flags : Nat) (lights : LightListInfo) :
    (sortedRest H flags lights).filter (fun i => decide (eligibleAt H flags lights i)) =
      (sortedRest H flags lights).takeWhile (fun i => decide (eligibleAt H flags lights i)) := by
  apply filter_eq_takeWhile_of_first
  refine (sortedRest_sorted H flags lights).imp ?_
  intro a b hab hb
  simp only [decide_eq_true_eq] at hb ⊢
  exact notAfter_eligible_first H lights flags a b hab hb

theorem closestWinners_eq (H : Headers) (flags : Nat) (lights : LightListInfo) (k : Nat) :
    closestWinners H flags lights k =
      ((sortedRest H flags lights).filter
        (fun i => decide (eligibleAt H flags lights i))).take k := by
  unfold closestWinners
  rw [takeWhile_take, sortedRest_filter]

theorem length_sortedRest_filter (H : Headers) (flags : Nat) (lights : LightListInfo) :
    ((sortedRest H flags lights).filter
        (fun i => decide (eligibleAt H flags lights i))).length =
      eligibleCount H flags (lights.drop (directionalRunLength H lights)) := by
  have hperm : ((sortedRest H flags lights).filter
      (fun i => decide (eligibleAt H flags lights i))).Perm
      ((List.range' (directionalRunLength H lights)
        (lights.length - directionalRunLength H lights)).filter
          (fun i => decide (eligibleAt H flags lights i))) :=
    (List.perm_insertionSort _ _).filter _
  rw [hperm.length_eq, ← eligibleIdxFrom_drop H flags lights _ _
    (by have := directionalRunLength_le H lights; omega), length_eligibleIdxFrom]

theorem mem_directionalRun (H : Headers) (flags : Nat) (lights : LightListInfo) (j : Nat) :
    j ∈ eligibleIdxFrom H flags (lights.take (directionalRunLength H lights)) 0 ↔
      j < directionalRunLength H lights ∧ eligibleAt H flags lights j := by
  rw [mem_eligibleIdxFrom]
  have hle := directionalRunLength_le H lights
  simp only [Nat.zero_le, true_and, Nat.sub_zero]
  constructor
  · rintro ⟨e, he, hel⟩
    rw [List.getElem?_take] at he
    split_ifs at he with hj
    refine ⟨hj, ?_⟩
    unfold eligibleAt
    rw [List.getD_eq_getElem?_getD, he]
    exact hel
  · rintro ⟨hj, hel⟩
    have hjn : j < lights.length := by omega
    refine ⟨lights[j], ?_, ?_⟩
    · rw [List.getElem?_take_of_lt hj, List.getElem?_eq_getElem hjn]
    · unfold eligibleAt at hel
      rwa [List.getD_eq_getElem?_getD, List.getElem?_eq_getElem hjn] at hel

theorem eligibleIdxFrom_sorted (H : Headers) (flags : Nat) (ls : List LightListEntry) :
    ∀ i, (eligibleIdxFrom H flags ls i).Pairwise (· < ·) := by
  induction ls with
  | nil => intro i; exact List.Pairwise.nil
  | cons x ls ih =>
    intro i
    rw [eligibleIdxFrom]
    split_ifs
    · rw [List.pairwise_cons]
      refine ⟨fun j hj => ?_, ih _⟩
      have := ((mem_eligibleIdxFrom H flags ls (i + 1) j).1 hj).1
      omega
    · exact ih _



theorem length_directionalWinners (H : Headers) (flags : Nat) (lights : LightListInfo)
    (S : Nat) :
    (directionalWinners H flags lights S).length =
      min S (eligibleCount H flags (lights.take (directionalRunLength H lights))) := by
  unfold directionalWinners
  rw [List.length_take, length_eligibleIdxFrom]

theorem eligibleCount_drop_le (H : Headers) (flags : Nat) (lights : LightListInfo) :
    eligibleCount H flags (lights.drop (directionalRunLength H lights)) ≤
      lights.length - directionalRunLength H lights := by
  rw [← length_sortedRest_filter, ← length_sortedRest H flags lights]
  exact (List.filter_sublist _).length_le

theorem mem_closestWinners (H : Headers) (flags : Nat) (lights : LightListInfo) (k i : Nat)
    (hi : i ∈ closestWinners H flags lights k) :
    directionalRunLength H lights ≤ i ∧ i < lights.length ∧ eligibleAt H flags lights i := by
  rw [closestWinners_eq] at hi
  have h1 := List.mem_of_mem_take hi
  rw [List.mem_filter] at h1
  have h2 := (mem_sortedRest H flags lights i).1 h1.1
  exact ⟨h2.1, h2.2, by simpa using h1.2⟩

theorem winners_nodup (H : Headers) (args : BuildArgs) (S : Nat) :
    (winners H args S).Nodup := by
  unfold winners
  rw [List.nodup_append]
  refine ⟨?_, ?_, ?_⟩
  · unfold directionalWinners
    exact ((eligibleIdxFrom_sorted H _ _ 0).imp (fun h => Nat.ne_of_lt h)).sublist
      (List.take_sublist _ _)
  · rw [closestWinners_eq]
    exact ((sortedRest_nodup H _ _).sublist (List.filter_sublist _)).sublist
      (List.take_sublist _ _)
  · intro j hj1 hj2
    have h1 := (mem_directionalRun H _ _ j).1 (List.mem_of_mem_take hj1)
    have h2 := mem_closestWinners H _ _ _ j hj2
    omega

/-- Uniform masks, more lights than slots: when every slot accepts the type of every
eligible (visible,
shadow-caster-flagged) light and there are more eligible lights than slots, a call that
is not memoized fills all `mNumLights` slots. In slot order they hold first `ds`, the
first eligible lights of the directional run the list starts with, in list order, then
`cs`, eligible lights from the rest of the list without repetition, in ascending order of
distance minus radius, such that no eligible light of the rest outside `cs` is closer
than one in `cs`; the active count is `mNumLights`. -/
theorem buildClosestLightList_over_capacity (H : Headers) (node : CompositorShadowNode)
    (args : BuildArgs)
    (hmemo : ¬ (node.mLastCamera = some args.newCamera ∧
      node.mLastFrame = args.currentFrameCount))
    (hacc : ∀ x ∈ args.globalLightList, eligible H (combinedFlags args) x →
      ∀ j, j < node.mDefinition.mNumLights → slotAccepts node.mDefinition j x.light.type)
    (hover : node.mDefinition.mNumLights <
      eligibleCount H (combinedFlags args) args.globalLightList) :
    ∃ (node1 : CompositorShadowNode) (ds cs : List Nat),
      buildClosestLightList H node args = some node1 ∧
      node1.mShadowMapCastingLights = (ds ++ cs).map (slotOf args.globalLightList) ∧
      (ds ++ cs).length = node.mDefinition.mNumLights ∧
      node1.mNumActiveShadowMapCastingLights = node.mDefinition.mNumLights ∧
      ds = (eligibleIdxFrom H (combinedFlags args)
        (args.globalLightList.take (directionalRunLength H args.globalLightList)) 0).take
          node.mDefinition.mNumLights ∧
      (∀ i ∈ cs, directionalRunLength H args.globalLightList ≤ i ∧
        i < args.globalLightList.length ∧
        eligibleAt H (combinedFlags args) args.globalLightList i) ∧
      cs.Nodup ∧
      cs.Pairwise (fun a b => (args.globalLightList.getD a default).fDist ≤
        (args.globalLightList.getD b default).fDist) ∧
      (∀ i ∈ cs, ∀ j, directionalRunLength H args.globalLightList ≤ j →
        j < args.globalLightList.length →
        eligibleAt H (combinedFlags args) args.globalLightList j → j ∉ cs →
        (args.globalLightList.getD i default).fDist ≤
          (args.globalLightList.getD j default).fDist) := by
  have hsplit := eligibleCount_split H (combinedFlags args) args.globalLightList
    (directionalRunLength H args.globalLightList)
  have hE := eligibleCount_drop_le H (combinedFlags args) args.globalLightList
  have hdwlen := length_directionalWinners H (combinedFlags args) args.globalLightList
    node.mDefinition.mNumLights
  have hbuild := buildClosestLightList_uniform H node args hmemo hacc (by
    rw [hdwlen]; omega)
  have hcweq := closestWinners_eq H (combinedFlags args) args.globalLightList
    (node.mDefinition.mNumLights -
      (directionalWinners H (combinedFlags args) args.globalLightList
        node.mDefinition.mNumLights).length)
  have hcwlen : (closestWinners H (combinedFlags args) args.globalLightList
      (node.mDefinition.mNumLights -
        (directionalWinners H (combinedFlags args) args.globalLightList
          node.mDefinition.mNumLights).length)).length =
      node.mDefinition.mNumLights -
        (directionalWinners H (combinedFlags args) args.globalLightList
          node.mDefinition.mNumLights).length := by
    rw [hcweq, List.length_take, length_sortedRest_filter, hdwlen]
    omega
  have hwlen : (winners H args node.mDefinition.mNumLights).length =
      node.mDefinition.mNumLights := by
    unfold winners
    rw [List.length_append, hcwlen, hdwlen]
    omega
  refine ⟨_, directionalWinners H (combinedFlags args) args.globalLightList
      node.mDefinition.mNumLights,
    closestWinners H (combinedFlags args) args.globalLightList
      (node.mDefinition.mNumLights -
        (directionalWinners H (combinedFlags args) args.globalLightList
          node.mDefinition.mNumLights).length), hbuild, ?_, hwlen, hwlen, rfl, ?_, ?_, ?_, ?_⟩
  · show (winners H args node.mDefinition.mNumLights).map (slotOf args.globalLightList) ++
      List.replicate (node.mDefinition.mNumLights -
        (winners H args node.mDefinition.mNumLights).length) LightClosest.blank = _
    rw [hwlen, Nat.sub_self, List.replicate_zero, List.append_nil]
    rfl
  · exact fun i hi => mem_closestWinners H _ _ _ i hi
  · rw [hcweq]
    exact ((sortedRest_nodup H _ _).sublist (List.filter_sublist _)).sublist
      (List.take_sublist _ _)
  · have hsub : (closestWinners H (combinedFlags args) args.globalLightList
        (node.mDefinition.mNumLights -
          (directionalWinners H (combinedFlags args) args.globalLightList
            node.mDefinition.mNumLights).length)).Sublist
        (sortedRest H (combinedFlags args) args.globalLightList) := by
      rw [hcweq]
      exact (List.take_sublist _ _).trans (List.filter_sublist _)
    refine ((sortedRest_sorted H _ _).sublist hsub).imp_of_mem ?_
    intro a b ha hb hab
    exact notAfter_eligible_dist H _ _ a b hab
      (mem_closestWinners H _ _ _ a ha).2.2 (mem_closestWinners H _ _ _ b hb).2.2
  · intro i hi j hj1 hj2 hjel hjn
    have hiel := (mem_closestWinners H _ _ _ i hi).2.2
    rw [hcweq] at hi hjn
    have hjf : j ∈ (sortedRest H (combinedFlags args) args.globalLightList).filter
        (fun i => decide (eligibleAt H (combinedFlags args) args.globalLightList i)) := by
      rw [List.mem_filter]
      exact ⟨(mem_sortedRest H _ _ j).2 ⟨hj1, hj2⟩, by simpa using hjel⟩
    have hpw := (sortedRest_sorted H (combinedFlags args) args.globalLightList).sublist
      (@List.filter_sublist _ (fun i =>
        decide (eligibleAt H (combinedFlags args) args.globalLightList i)) _)
    rw [← List.take_append_drop (node.mDefinition.mNumLights -
      (directionalWinners H (combinedFlags args) args.globalLightList
        node.mDefinition.mNumLights).length)
      ((sortedRest H (combinedFlags args) args.globalLightList).filter
        (fun i => decide (eligibleAt H (combinedFlags args) args.globalLightList i)))]
      at hjf hpw
    rw [List.pairwise_append] at hpw
    rcases List.mem_append.1 hjf with h | h
    · exact absurd h hjn
    · exact notAfter_eligible_dist H _ _ i j (hpw.2.2 i hi j h) hiel hjel



theorem getD_mem_of_lt (lights : LightListInfo) (i : Nat) (hi : i < lights.length) :
    lights.getD i default ∈ lights := by
  have : lights.getD i default = lights[i] := by
    simp [List.getD, List.getElem?_eq_getElem hi]
  rw [this]; exact List.getElem_mem hi

/-- Uniform masks, no more lights than slots: when every slot accepts the type of every
eligible (visible,
shadow-caster-flagged) light, there are at most as many eligible lights as slots, and the
list holds at least as many lights after its leading directional run as slots are left
by the eligible lights of that run (so the scratch buffer is overwritten whole), a call
that is not memoized returns, and every eligible light `i` stands in exactly one slot
`k`: the slot holds `LightClosest( lights[i], i, 0 )`, its mask accepts the light's type,
and no other occupied slot has global index `i`. -/
theorem buildClosestLightList_all_slotted (H : Headers) (node : CompositorShadowNode)
    (args : BuildArgs)
    (hmemo : ¬ (node.mLastCamera = some args.newCamera ∧
      node.mLastFrame = args.currentFrameCount))
    (hacc : ∀ x ∈ args.globalLightList, eligible H (combinedFlags args) x →
      ∀ j, j < node.mDefinition.mNumLights → slotAccepts node.mDefinition j x.light.type)
    (hfits : eligibleCount H (combinedFlags args) args.globalLightList ≤
      node.mDefinition.mNumLights)
    (hfill : node.mDefinition.mNumLights -
        eligibleCount H (combinedFlags args)
          (args.globalLightList.take (directionalRunLength H args.globalLightList)) ≤
      args.globalLightList.length - directionalRunLength H args.globalLightList) :
    ∃ node1 : CompositorShadowNode,
      buildClosestLightList H node args = some node1 ∧
      ∀ i, i < args.globalLightList.length →
        eligibleAt H (combinedFlags args) args.globalLightList i →
        ∃ k, k < node.mDefinition.mNumLights ∧
          node1.mShadowMapCastingLights[k]? = some (slotOf args.globalLightList i) ∧
          slotAccepts node.mDefinition k (args.globalLightList.getD i default).light.type ∧
          ∀ k1 s, node1.mShadowMapCastingLights[k1]? = some s → s.light ≠ none →
            s.globalIndex = i → k1 = k := by
  have hsplit := eligibleCount_split H (combinedFlags args) args.globalLightList
    (directionalRunLength H args.globalLightList)
  have hdwlen := length_directionalWinners H (combinedFlags args) args.globalLightList
    node.mDefinition.mNumLights
  have hdwlen2 : (directionalWinners H (combinedFlags args) args.globalLightList
      node.mDefinition.mNumLights).length = eligibleCount H (combinedFlags args)
        (args.globalLightList.take (directionalRunLength H args.globalLightList)) := by
    rw [hdwlen]; omega
  have hbuild := buildClosestLightList_uniform H node args hmemo hacc (by
    rw [hdwlen2]; exact hfill)
  have hdw : directionalWinners H (combinedFlags args) args.globalLightList
      node.mDefinition.mNumLights =
      eligibleIdxFrom H (combinedFlags args)
        (args.globalLightList.take (directionalRunLength H args.globalLightList)) 0 := by
    unfold directionalWinners
    exact List.take_of_length_le (by rw [length_eligibleIdxFrom]; omega)
  have hcw : closestWinners H (combinedFlags args) args.globalLightList
      (node.mDefinition.mNumLights -
        (directionalWinners H (combinedFlags args) args.globalLightList
          node.mDefinition.mNumLights).length) =
      (sortedRest H (combinedFlags args) args.globalLightList).filter
        (fun i => decide (eligibleAt H (combinedFlags args) args.globalLightList i)) := by
    rw [closestWinners_eq]
    exact List.take_of_length_le (by rw [length_sortedRest_filter, hdwlen2]; omega)
  have hwlen : (winners H args node.mDefinition.mNumLights).length ≤
      node.mDefinition.mNumLights := by
    unfold winners
    rw [List.length_append, hcw, length_sortedRest_filter, hdwlen2]
    omega
  refine ⟨_, hbuild, ?_⟩
  intro i hi hel
  have hmem : i ∈ winners H args node.mDefinition.mNumLights := by
    unfold winners
    rw [List.mem_append, hcw, hdw]
    by_cases hst : i < directionalRunLength H args.globalLightList
    · exact Or.inl ((mem_directionalRun H _ _ i).2 ⟨hst, hel⟩)
    · right
      rw [List.mem_filter]
      exact ⟨(mem_sortedRest H _ _ i).2 ⟨by omega, hi⟩, by simpa using hel⟩
  obtain ⟨k, hk, hki⟩ := List.mem_iff_getElem.1 hmem
  have hslot : ∀ k1 (hk1 : k1 < (winners H args node.mDefinition.mNumLights).length),
      ((winners H args node.mDefinition.mNumLights).map (slotOf args.globalLightList) ++
        List.replicate (node.mDefinition.mNumLights -
          (winners H args node.mDefinition.mNumLights).length) LightClosest.blank)[k1]? =
        some (slotOf args.globalLightList
          ((winners H args node.mDefinition.mNumLights)[k1])) := by
    intro k1 hk1
    rw [List.getElem?_append_left (by simpa using hk1), List.getElem?_map,
      List.getElem?_eq_getElem hk1]
    rfl
  refine ⟨k, by omega, ?_, ?_, ?_⟩
  · show ((winners H args node.mDefinition.mNumLights).map (slotOf args.globalLightList) ++
      List.replicate (node.mDefinition.mNumLights -
        (winners H args node.mDefinition.mNumLights).length) LightClosest.blank)[k]? = _
    rw [hslot k hk, hki]
  · exact hacc _ (getD_mem_of_lt _ i hi) hel k (by omega)
  · intro k1 s hs hfilled hidx
    change ((winners H args node.mDefinition.mNumLights).map (slotOf args.globalLightList) ++
      List.replicate (node.mDefinition.mNumLights -
        (winners H args node.mDefinition.mNumLights).length) LightClosest.blank)[k1]? = _ at hs
    by_cases hk1 : k1 < (winners H args node.mDefinition.mNumLights).length
    · rw [hslot k1 hk1] at hs
      injection hs with hs
      subst hs
      have h2 : (winners H args node.mDefinition.mNumLights)[k1] =
          (winners H args node.mDefinition.mNumLights)[k] := by
        rw [hki]; exact hidx
      exact ((winners_nodup H args _).getElem_inj_iff).1 h2
    · rw [List.getElem?_append_right (by simpa using Nat.le_of_not_lt hk1),
        List.getElem?_replicate] at hs
      split_ifs at hs
      injection hs with hs
      subst hs
      exact absurd rfl hfilled

/-! ## The scenario with one directional slot and three point slots -/

theorem directionalLoop_exit (H : Headers) (flags : Nat) (ls : List LightListEntry)
    (listIdx : Nat) (node : CompositorShadowNode) (beg nxt : Nat)
    (h : ¬ nxt < node.mShadowMapCastingLights.length) :
    directionalLoop H flags ls listIdx node beg nxt = (node, beg, nxt) := by
  cases ls with
  | nil => rfl
  | cons x ls => rw [directionalLoop, if_neg (fun hc => h hc.2)]

theorem directionalLoop_one_slot (H : Headers) (flags : Nat) (x : LightListEntry)
    (rest : List LightListEntry) (node : CompositorShadowNode)
    (hslots : node.mShadowMapCastingLights = List.replicate 4 LightClosest.blank)
    (hx : x.light.type = H.LT_DIRECTIONAL) (hel : eligible H flags x)
    (h1 : ¬ slotAccepts node.mDefinition 1 H.LT_DIRECTIONAL)
    (h2 : ¬ slotAccepts node.mDefinition 2 H.LT_DIRECTIONAL)
    (h3 : ¬ slotAccepts node.mDefinition 3 H.LT_DIRECTIONAL) :
    directionalLoop H flags (x :: rest) 0 node 0 0 =
      ({ node with
          mShadowMapCastingLights :=
            [⟨some x.light, 0, 0⟩, LightClosest.blank, LightClosest.blank, LightClosest.blank]
          mAffectedLights := node.mAffectedLights.set 0 true
          mNumActiveShadowMapCastingLights := node.mNumActiveShadowMapCastingLights + 1 },
        1, 4) := by
  unfold slotAccepts at h1 h2 h3
  rw [directionalLoop, if_pos ⟨hx, by rw [hslots]; simp⟩,
    if_pos (show x.visibilityMask &&& flags ≠ 0 ∧
      x.visibilityMask &&& H.LAYER_SHADOW_CASTER ≠ 0 from hel)]
  simp only
  have hfound : findNextEmptyShadowCastingLightEntry
      { node with
        mAffectedLights := node.mAffectedLights.set 0 true
        mShadowMapCastingLights :=
          node.mShadowMapCastingLights.set 0 ⟨some x.light, 0, 0⟩ }
      (lightTypeBit H.LT_DIRECTIONAL) 0 = (1, 4) := by
    unfold findNextEmptyShadowCastingLightEntry
    simp only [hslots, List.replicate, List.set_cons_zero, List.drop_zero, List.length_cons,
      List.length_nil]
    have hb : LightClosest.blank.light = none := rfl
    rw [findNextEmptyScan, if_neg (by simp), findNextEmptyScan, if_pos hb, if_neg h1,
      findNextEmptyScan, if_pos hb, if_neg h2, findNextEmptyScan, if_pos hb, if_neg h3,
      findNextEmptyScan]
    rfl
  rw [hfound, directionalLoop_exit _ _ _ _ _ _ _ (by simp [hslots])]
  simp [hslots, List.replicate]

theorem getD_markAffected (idxs : List Nat) :
    ∀ (aff : List Bool) (i : Nat), i < aff.length →
      ((markAffected aff idxs).getD i false = true ↔ i ∈ idxs ∨ aff.getD i false = true) := by
  induction idxs with
  | nil => intro aff i _; simp [markAffected]
  | cons j idxs ih =>
    intro aff i hi
    have hstep : markAffected aff (j :: idxs) = markAffected (aff.set j true) idxs := rfl
    rw [hstep, ih (aff.set j true) i (by simpa using hi)]
    by_cases hij : j = i
    · subst hij
      simp [List.getD, List.getElem?_set, hi]
    · have : (aff.set j true).getD i false = aff.getD i false := by
        simp [List.getD, List.getElem?_set, hij]
      rw [this, List.mem_cons]
      constructor
      · rintro (h | h)
        · exact Or.inl (Or.inr h)
        · exact Or.inr h
      · rintro ((h | h) | h)
        · exact absurd h.symm hij
        · exact Or.inl h
        · exact Or.inr h

theorem length_markAffected (idxs : List Nat) :
    ∀ aff : List Bool, (markAffected aff idxs).length = aff.length := by
  induction idxs with
  | nil => intro aff; rfl
  | cons j idxs ih =>
    intro aff
    have hstep : markAffected aff (j :: idxs) = markAffected (aff.set j true) idxs := rfl
    rw [hstep, ih, List.length_set]

theorem directionalRunLength_eq (H : Headers) (lights : LightListInfo) :
    ∀ m, m ≤ lights.length →
      (∀ i, i < m → (lights.getD i default).light.type = H.LT_DIRECTIONAL) →
      (m < lights.length → (lights.getD m default).light.type ≠ H.LT_DIRECTIONAL) →
      directionalRunLength H lights = m := by
  unfold directionalRunLength
  induction lights with
  | nil => intro m hm _ _; simp at hm; subst hm; rfl
  | cons x ls ih =>
    intro m hm hdir hnot
    cases m with
    | zero =>
      have := hnot (by simp)
      simp at this
      simp [List.takeWhile, this]
    | succ m =>
      have hx : x.light.type = H.LT_DIRECTIONAL := by simpa using hdir 0 (by omega)
      have := ih m (by simpa using hm)
        (fun i hi => by simpa using hdir (i + 1) (by omega))
        (fun h => by simpa using hnot (by simpa using h))
      simp [List.takeWhile, hx, this]

theorem getD_set_zero_replicate (n i : Nat) (hi : i < n) :
    ((List.replicate n false).set 0 true).getD i false = true ↔ i = 0 := by
  rw [List.getD_eq_getElem?_getD, List.getElem?_set]
  by_cases hi0 : 0 = i
  · subst hi0
    simp [hi]
  · rw [if_neg hi0, List.getElem?_replicate, if_pos hi]
    simp
    exact fun h => hi0 h.symm

/-- C4: the scenario. Four slots, slot 0 accepting directional lights, slots 1 to 3
accepting point lights and no directional ones; thirteen eligible lights, three
directional followed by ten point lights with pairwise distinct distance minus radius.
After a call that is not memoized, slot 0 holds the first directional light, slots 1 to 3
hold point lights `a`, `b`, `c` in strictly ascending distance with every other point
light farther than `c`, four casters are counted active, and exactly the lights
0, `a`, `b`, `c` are marked affected (the other nine are in no slot). -/
theorem buildClosestLightList_scenario (H : Headers) (node : CompositorShadowNode)
    (args : BuildArgs)
    (hmemo : ¬ (node.mLastCamera = some args.newCamera ∧
      node.mLastFrame = args.currentFrameCount))
    (hS : node.mDefinition.mNumLights = 4)
    (hslot0 : slotAccepts node.mDefinition 0 H.LT_DIRECTIONAL)
    (hslots : ∀ j, 1 ≤ j → j < 4 → ¬ slotAccepts node.mDefinition j H.LT_DIRECTIONAL ∧
      slotAccepts node.mDefinition j H.LT_POINT)
    (hlen : args.globalLightList.length = 13)
    (hdir : ∀ i, i < 3 →
      (args.globalLightList.getD i default).light.type = H.LT_DIRECTIONAL)
    (hpoint : ∀ i, 3 ≤ i → i < 13 →
      (args.globalLightList.getD i default).light.type = H.LT_POINT)
    (htypes : H.LT_POINT ≠ H.LT_DIRECTIONAL)
    (hel : ∀ i, i < 13 → eligibleAt H (combinedFlags args) args.globalLightList i)
    (hdist : ∀ i, 3 ≤ i → i < 13 → ∀ j, 3 ≤ j → j < 13 → i ≠ j →
      (args.globalLightList.getD i default).fDist ≠
        (args.globalLightList.getD j default).fDist) :
    ∃ (node1 : CompositorShadowNode) (a b c : Nat),
      buildClosestLightList H node args = some node1 ∧
      node1.mShadowMapCastingLights =
        [slotOf args.globalLightList 0, slotOf args.globalLightList a,
          slotOf args.globalLightList b, slotOf args.globalLightList c] ∧
      (3 ≤ a ∧ a < 13) ∧ (3 ≤ b ∧ b < 13) ∧ (3 ≤ c ∧ c < 13) ∧
      (args.globalLightList.getD a default).fDist <
        (args.globalLightList.getD b default).fDist ∧
      (args.globalLightList.getD b default).fDist <
        (args.globalLightList.getD c default).fDist ∧
      (∀ j, 3 ≤ j → j < 13 → j ≠ a → j ≠ b → j ≠ c →
        (args.globalLightList.getD c default).fDist <
          (args.globalLightList.getD j default).fDist) ∧
      node1.mNumActiveShadowMapCastingLights = 4 ∧
      node1.mAffectedLights.length = 13 ∧
      ∀ i, i < 13 →
        (node1.mAffectedLights.getD i false = true ↔ i = 0 ∨ i = a ∨ i = b ∨ i = c) := by
  generalize hlights : args.globalLightList = lights at *
  have hst : directionalRunLength H lights = 3 :=
    directionalRunLength_eq H lights 3 (by omega) hdir
      (fun _ => by rw [hpoint 3 (le_refl _) (by omega)]; exact htypes)
  -- the sorted rest and its three first entries
  have hsrlen := length_sortedRest H (combinedFlags args) lights
  rw [hst, hlen] at hsrlen
  have hsrmem := mem_sortedRest H (combinedFlags args) lights
  rw [hst, hlen] at hsrmem
  have hsrsorted := sortedRest_sorted H (combinedFlags args) lights
  have hsrnodup := sortedRest_nodup H (combinedFlags args) lights
  obtain ⟨a, b, c, rest, hsr⟩ : ∃ a b c rest,
      sortedRest H (combinedFlags args) lights = a :: b :: c :: rest := by
    match hm : sortedRest H (combinedFlags args) lights with
    | [] => rw [hm] at hsrlen; simp at hsrlen
    | [_] => rw [hm] at hsrlen; simp at hsrlen
    | [_, _] => rw [hm] at hsrlen; simp at hsrlen
    | a :: b :: c :: rest => exact ⟨a, b, c, rest, rfl⟩
  rw [hsr] at hsrmem hsrsorted hsrnodup
  have ha := (hsrmem a).1 (by simp)
  have hb := (hsrmem b).1 (by simp)
  have hc := (hsrmem c).1 (by simp)
  simp only [List.pairwise_cons, List.mem_cons, List.nodup_cons, not_or] at hsrsorted hsrnodup
  have hlt : ∀ x y, 3 ≤ x → x < 13 → 3 ≤ y → y < 13 → x ≠ y →
      notAfter (ShadowMappingLightCmp H lights (combinedFlags args)) x y →
      (lights.getD x default).fDist < (lights.getD y default).fDist := by
    intro x y hx1 hx2 hy1 hy2 hxy hr
    exact lt_of_le_of_ne
      (notAfter_eligible_dist H lights _ x y hr (hel x hx2) (hel y hy2))
      (hdist x hx1 hx2 y hy1 hy2 hxy)
  -- the head of the light list
  obtain ⟨l0, ltail, hl⟩ : ∃ l0 ltail, lights = l0 :: ltail := by
    cases hm : lights with
    | nil => rw [hm] at hlen; simp at hlen
    | cons l0 ltail => exact ⟨l0, ltail, rfl⟩
  have hl0 : lights.getD 0 default = l0 := by rw [hl]; rfl
  have hl0dir : l0.light.type = H.LT_DIRECTIONAL := by rw [← hl0]; exact hdir 0 (by omega)
  have hl0el : eligible H (combinedFlags args) l0 := by rw [← hl0]; exact hel 0 (by omega)
  -- the first loop
  have hfound := findNextEmpty_filled_blank
    { node with
      mLastFrame := args.currentFrameCount
      mLastCamera := some args.newCamera
      mShadowMapCastingLights := List.replicate 4 LightClosest.blank
      mNumActiveShadowMapCastingLights := 0 } (lightTypeBit H.LT_DIRECTIONAL) 0 [] 4
    rfl (by simp) (by simp) (fun _ => hslot0)
  have hdirloop := directionalLoop_one_slot H (combinedFlags args) l0 ltail
    { node with
      mLastFrame := args.currentFrameCount
      mLastCamera := some args.newCamera
      mShadowMapCastingLights := List.replicate 4 LightClosest.blank
      mNumActiveShadowMapCastingLights := 0
      mAffectedLights := List.replicate lights.length false } rfl hl0dir hl0el
    (hslots 1 (by omega) (by omega)).1 (hslots 2 (by omega) (by omega)).1
    (hslots 3 (by omega) (by omega)).1
  rw [← hl] at hdirloop
  dsimp only at hdirloop
  -- the scratch buffer
  have hsorted : partial_sort_copy (ShadowMappingLightCmp H lights (combinedFlags args))
      (List.range' (directionalRunLength H lights)
        (lights.length - directionalRunLength H lights))
      (vectorResize node.mTmpSortedIndexes 3 SIZE_MAX) = [a, b, c] := by
    rw [partial_sort_copy_full _ _ _ (by
      rw [length_vectorResize, List.length_range', hst, hlen]; omega), length_vectorResize]
    show (sortedRest H (combinedFlags args) lights).take 3 = _
    rw [hsr]; rfl
  -- the second loop
  obtain ⟨beg1, nxt1, _, hloop⟩ := closestLoop_slots H lights (combinedFlags args)
    [a, b, c] []
    { node with
      mLastFrame := args.currentFrameCount
      mLastCamera := some args.newCamera
      mShadowMapCastingLights :=
        [⟨some l0.light, 0, 0⟩] ++ List.replicate 3 LightClosest.blank
      mAffectedLights := (List.replicate lights.length false).set 0 true
      mNumActiveShadowMapCastingLights := 0 + 1
      mTmpSortedIndexes := [a, b, c] }
    [⟨some l0.light, 0, 0⟩] 3 1 4 rfl (by simp) (by simp) (by simp)
    (by
      intro i hi
      have hi3 : 3 ≤ i ∧ i < 13 := by
        simp only [List.mem_cons, List.mem_singleton, List.not_mem_nil, or_false] at hi
        rcases hi with rfl | rfl | rfl
        · exact ha
        · exact hb
        · exact hc
      refine ⟨by omega, hel i hi3.2, fun j hj1 hj2 => ?_⟩
      rw [hpoint i hi3.1 hi3.2]
      exact (hslots j (by simpa using hj1) (by simp at hj2; omega)).2)
  rw [List.append_nil, closestLoop] at hloop
  dsimp only at hloop
  -- assemble
  unfold buildClosestLightList
  rw [if_neg hmemo]
  simp only [hS, hlights]
  have hcf : args.viewportVisibilityMask &&& args.sceneVisibilityMask = combinedFlags args := rfl
  rw [hcf, hfound]
  simp only [List.length_nil]
  rw [hdirloop]
  simp only [List.length_cons, List.length_nil]
  rw [hsorted]
  have hlist : [({ light := some l0.light, globalIndex := 0, distance := 0 } : LightClosest),
      LightClosest.blank, LightClosest.blank, LightClosest.blank] =
      [⟨some l0.light, 0, 0⟩] ++ List.replicate 3 LightClosest.blank := rfl
  rw [hlist, hloop]
  refine ⟨_, a, b, c, rfl, ?_, ha, hb, hc, ?_, ?_, ?_, rfl, ?_, ?_⟩
  · rw [show slotOf lights 0 = ⟨some l0.light, 0, 0⟩ from by unfold slotOf; rw [hl0]]
    rfl
  · exact hlt a b ha.1 ha.2 hb.1 hb.2 hsrnodup.1.1 (hsrsorted.1 b (Or.inl rfl))
  · exact hlt b c hb.1 hb.2 hc.1 hc.2 hsrnodup.2.1.1 (hsrsorted.2.1 c (Or.inl rfl))
  · intro j hj1 hj2 hja hjb hjc
    have hjmem := (hsrmem j).2 ⟨hj1, hj2⟩
    simp only [List.mem_cons] at hjmem
    rcases hjmem with h | h | h | h
    · exact absurd h hja
    · exact absurd h hjb
    · exact absurd h hjc
    · have hcj : c ≠ j := fun h2 => hsrnodup.2.2.1 (h2 ▸ h)
      exact hlt c j hc.1 hc.2 hj1 hj2 hcj (hsrsorted.2.2.1 j h)
  · simp [length_markAffected, hlen]
  · intro i hi
    show (markAffected ((List.replicate lights.length false).set 0 true) [a, b, c]).getD i false
      = true ↔ _
    rw [getD_markAffected _ _ _ (by simp [hlen]; exact hi)]
    simp only [List.mem_cons, List.mem_singleton, List.not_mem_nil, or_false]
    rw [getD_set_zero_replicate _ _ (by rw [hlen]; exact hi), or_comm]

/-! ## Memoization, witnesses and counterexamples of the selector -/

/-- C1: a call for the camera and frame the node served last returns at once with the
whole node unchanged (slots, affected bitset, active count, scratch buffer, casters
box and all other members). -/
theorem buildClosestLightList_memoized (H : Headers) (node : CompositorShadowNode)
    (args : BuildArgs) (hcamera : node.mLastCamera = some args.newCamera)
    (hframe : node.mLastFrame = args.currentFrameCount) :
    buildClosestLightList H node args = some node := by
  unfold buildClosestLightList
  rw [if_pos ⟨hcamera, hframe⟩]

/-- Witness of C1: the node that served camera 1 in frame 0 is returned as it is. -/
theorem buildClosestLightList_memoized_witness :
    buildClosestLightList stdHeaders
      servedNode overArgs =
      some servedNode :=
  buildClosestLightList_memoized stdHeaders _ _ rfl rfl

set_option maxRecDepth 100000 in
/-- Witness of C4: the scenario holds for `scenarioNode` and `scenarioArgs`. -/
theorem buildClosestLightList_scenario_witness :
    ∃ (node1 : CompositorShadowNode) (a b c : Nat),
      buildClosestLightList stdHeaders scenarioNode scenarioArgs =
        some node1 ∧
      node1.mShadowMapCastingLights =
        [slotOf scenarioArgs.globalLightList 0,
          slotOf scenarioArgs.globalLightList a,
          slotOf scenarioArgs.globalLightList b,
          slotOf scenarioArgs.globalLightList c] ∧
      (3 ≤ a ∧ a < 13) ∧ (3 ≤ b ∧ b < 13) ∧ (3 ≤ c ∧ c < 13) ∧
      (scenarioArgs.globalLightList.getD a default).fDist <
        (scenarioArgs.globalLightList.getD b default).fDist ∧
      (scenarioArgs.globalLightList.getD b default).fDist <
        (scenarioArgs.globalLightList.getD c default).fDist ∧
      (∀ j, 3 ≤ j → j < 13 → j ≠ a → j ≠ b → j ≠ c →
        (scenarioArgs.globalLightList.getD c default).fDist <
          (scenarioArgs.globalLightList.getD j default).fDist) ∧
      node1.mNumActiveShadowMapCastingLights = 4 ∧
      node1.mAffectedLights.length = 13 ∧
      ∀ i, i < 13 →
        (node1.mAffectedLights.getD i false = true ↔ i = 0 ∨ i = a ∨ i = b ∨ i = c) :=
  buildClosestLightList_scenario stdHeaders scenarioNode scenarioArgs
    (by decide) (by decide) (by decide) (by decide) (by decide) (by decide) (by decide)
    (by decide) (by decide) (by decide)

/-- An instance with uniform masks: three slots for every type, three eligible lights. -/
theorem buildClosestLightList_all_slotted_witness :
    ∃ node1 : CompositorShadowNode,
      buildClosestLightList stdHeaders fitsNode
        fitsArgs = some node1 ∧
      ∀ i, i < fitsArgs.globalLightList.length →
        eligibleAt stdHeaders (combinedFlags fitsArgs)
          fitsArgs.globalLightList i →
        ∃ k, k < fitsNode.mDefinition.mNumLights ∧
          node1.mShadowMapCastingLights[k]? =
            some (slotOf fitsArgs.globalLightList i) ∧
          slotAccepts fitsNode.mDefinition k
            (fitsArgs.globalLightList.getD i default).light.type ∧
          ∀ k1 s, node1.mShadowMapCastingLights[k1]? = some s → s.light ≠ none →
            s.globalIndex = i → k1 = k :=
  buildClosestLightList_all_slotted stdHeaders fitsNode
    fitsArgs (by decide) (by decide) (by decide) (by decide)

/-- An instance with uniform masks: two slots for every type, four eligible lights. -/
theorem buildClosestLightList_over_capacity_witness :
    ∃ (node1 : CompositorShadowNode) (ds cs : List Nat),
      buildClosestLightList stdHeaders overNode
        overArgs = some node1 ∧
      node1.mShadowMapCastingLights =
        (ds ++ cs).map (slotOf overArgs.globalLightList) ∧
      (ds ++ cs).length = overNode.mDefinition.mNumLights ∧
      node1.mNumActiveShadowMapCastingLights = overNode.mDefinition.mNumLights ∧
      ds = (eligibleIdxFrom stdHeaders (combinedFlags overArgs)
        (overArgs.globalLightList.take
          (directionalRunLength stdHeaders
            overArgs.globalLightList)) 0).take
          overNode.mDefinition.mNumLights ∧
      (∀ i ∈ cs, directionalRunLength stdHeaders
          overArgs.globalLightList ≤ i ∧
        i < overArgs.globalLightList.length ∧
        eligibleAt stdHeaders (combinedFlags overArgs)
          overArgs.globalLightList i) ∧
      cs.Nodup ∧
      cs.Pairwise (fun a b =>
        (overArgs.globalLightList.getD a default).fDist ≤
          (overArgs.globalLightList.getD b default).fDist) ∧
      (∀ i ∈ cs, ∀ j, directionalRunLength stdHeaders
          overArgs.globalLightList ≤ j →
        j < overArgs.globalLightList.length →
        eligibleAt stdHeaders (combinedFlags overArgs)
          overArgs.globalLightList j → j ∉ cs →
        (overArgs.globalLightList.getD i default).fDist ≤
          (overArgs.globalLightList.getD j default).fDist) :=
  buildClosestLightList_over_capacity stdHeaders overNode
    overArgs (by decide) (by decide) (by decide)

theorem getCachedGridLoop_again (camera : GridCamera) (shadowNode : Option Nat)
    (frameCount : Nat) (l : List CachedGrid) :
    ∀ (upToDate : Bool) (offset : Nat) (entries : List CachedGrid),
      getCachedGridLoop camera shadowNode frameCount l = some (upToDate, offset, entries) →
      getCachedGridLoop camera shadowNode frameCount entries = some (true, offset, entries) := by
  induction l with
  | nil => intro b i e h; simp [getCachedGridLoop] at h
  | cons g rest ih =>
    intro b i e h
    rw [getCachedGridLoop] at h
    by_cases hm : cachedGridMatches g camera shadowNode
    · rw [if_pos hm] at h
      injection h with h
      obtain ⟨_, rfl, rfl⟩ := Prod.mk.inj h |>.imp id Prod.mk.inj
      have hm2 : cachedGridMatches { g with lastFrame := frameCount } camera shadowNode := hm
      rw [getCachedGridLoop, if_pos hm2]
      simp
    · rw [if_neg hm] at h
      cases hrest : getCachedGridLoop camera shadowNode frameCount rest with
      | none => rw [hrest] at h; simp at h
      | some found =>
        obtain ⟨b1, i1, e1⟩ := found
        rw [hrest] at h
        simp only [Option.some.injEq, Prod.mk.injEq] at h
        obtain ⟨_, rfl, rfl⟩ := h
        rw [getCachedGridLoop, if_neg hm, ih b1 i1 e1 hrest]

theorem getCachedGridLoop_append_new (camera : GridCamera) (shadowNode : Option Nat)
    (frameCount : Nat) (l : List CachedGrid) (g : CachedGrid)
    (hg : cachedGridMatches g camera shadowNode) (hf : g.lastFrame = frameCount)
    (h : getCachedGridLoop camera shadowNode frameCount l = none) :
    getCachedGridLoop camera shadowNode frameCount (l ++ [g]) =
      some (true, l.length, l ++ [g]) := by
  induction l with
  | nil =>
    rw [List.nil_append, getCachedGridLoop, if_pos hg]
    cases g
    simp at hf
    simp [hf]
  | cons x rest ih =>
    rw [getCachedGridLoop] at h
    by_cases hm : cachedGridMatches x camera shadowNode
    · rw [if_pos hm] at h; simp at h
    · rw [if_neg hm] at h
      cases hrest : getCachedGridLoop camera shadowNode frameCount rest with
      | none =>
        rw [List.cons_append, getCachedGridLoop, if_neg hm, ih hrest]
        rfl
      | some found => rw [hrest] at h; simp at h

/-- C5: for every cache and camera, calling the mutable `getCachedGridFor` a second
time with the same camera, reflection flag, aspect ratio, shadow node and frame count
returns `true`, hands out the entry (index) the first call handed out, and leaves the
cache as the first call left it, so the number of entries is unchanged. -/
theorem getCachedGridFor_twice (mCachedGrid : List CachedGrid) (camera : GridCamera)
    (shadowNode : Option Nat) (frameCount : Nat) :
    getCachedGridFor (getCachedGridFor mCachedGrid camera shadowNode frameCount).2.2
        camera shadowNode frameCount =
      (true, (getCachedGridFor mCachedGrid camera shadowNode frameCount).2.1,
        (getCachedGridFor mCachedGrid camera shadowNode frameCount).2.2) := by
  unfold getCachedGridFor
  cases h : getCachedGridLoop camera shadowNode frameCount mCachedGrid with
  | some found =>
    obtain ⟨b, i, e⟩ := found
    simp only
    rw [getCachedGridLoop_again camera shadowNode frameCount mCachedGrid b i e h]
  | none =>
    simp only
    rw [getCachedGridLoop_append_new camera shadowNode frameCount mCachedGrid _ ?_ rfl h]
    refine ⟨rfl, rfl, ?_, rfl⟩
    simp [aspectTolerance]

theorem getCachedGridLoop_none (camera : GridCamera) (shadowNode : Option Nat)
    (frameCount : Nat) (l : List CachedGrid)
    (h : ∀ g ∈ l, ¬ cachedGridMatches g camera shadowNode) :
    getCachedGridLoop camera shadowNode frameCount l = none := by
  induction l with
  | nil => rfl
  | cons x rest ih =>
    rw [getCachedGridLoop, if_neg (h x (List.mem_cons_self _ _)),
      ih (fun g hg => h g (List.mem_cons_of_mem _ hg))]

/-- C6: when the current shadow node differs from the shadow node of every entry of
this camera, the call returns `false`, hands out the index of a new last entry keyed by
the camera, its reflection flag, its aspect ratio and the new shadow node, with both
buffer handles null and `lastFrame` the current frame, and every entry that existed
before is still there, unchanged and at its place. -/
theorem getCachedGridFor_new_shadow_node (mCachedGrid : List CachedGrid)
    (camera : GridCamera) (shadowNode : Option Nat) (frameCount : Nat)
    (hnode : ∀ g ∈ mCachedGrid, g.camera = camera.ptr → g.shadowNode ≠ shadowNode) :
    getCachedGridFor mCachedGrid camera shadowNode frameCount =
      (false, mCachedGrid.length,
        mCachedGrid ++ [{ camera := camera.ptr, reflection := camera.isReflected,
                          aspectRatio := camera.aspectRatio, shadowNode := shadowNode,
                          lastFrame := frameCount, gridBuffer := none,
                          globalLightListBuffer := none }]) := by
  unfold getCachedGridFor
  rw [getCachedGridLoop_none camera shadowNode frameCount mCachedGrid
    (fun g hg hm => hnode g hg hm.1 hm.2.2.2)]

/-- Witness of C6: the one-entry cache queried under another shadow node. -/
theorem getCachedGridFor_new_shadow_node_witness :
    getCachedGridFor oneGridCache wideCamera (some 5) 9 =
      (false, oneGridCache.length,
        oneGridCache ++ [{ camera := wideCamera.ptr, reflection := wideCamera.isReflected,
                           aspectRatio := wideCamera.aspectRatio, shadowNode := some 5,
                           lastFrame := 9, gridBuffer := none,
                           globalLightListBuffer := none }]) :=
  getCachedGridFor_new_shadow_node oneGridCache wideCamera (some 5) 9 (by decide)

/-- C10, the code at the failing input: the cache holds one entry for camera 7 at aspect
ratio 1; the same camera at aspect ratio 2, under the same shadow node, is handed that
entry (index 0, no entry added, only `lastFrame` refreshed), although no entry has the
camera's key: the aspect ratios are 1 apart. -/
theorem getCachedGridFor_reuses_other_aspect :
    getCachedGridFor oneGridCache wideCamera (some 3) 9 =
      (false, 0, [{ camera := 7, reflection := false, aspectRatio := 1, shadowNode := some 3,
                    lastFrame := 9, gridBuffer := some 11,
                    globalLightListBuffer := some 12 }]) ∧
    ∀ g ∈ oneGridCache, ¬ sameGridKey g wideCamera (some 3) := by
  constructor
  · have hm : cachedGridMatches
        { camera := 7, reflection := false, aspectRatio := 1, shadowNode := some 3,
          lastFrame := 4, gridBuffer := some 11, globalLightListBuffer := some 12 }
        wideCamera (some 3) := by
      refine ⟨rfl, rfl, ?_, rfl⟩
      simp only [wideCamera, aspectTolerance]
      norm_num
    unfold getCachedGridFor oneGridCache
    rw [getCachedGridLoop, if_pos hm]
    simp
  · intro g hg
    simp only [oneGridCache, List.mem_singleton] at hg
    subst hg
    unfold sameGridKey
    simp only [wideCamera, aspectTolerance]
    norm_num

theorem getCachedGridLoop_keys (camera : GridCamera) (shadowNode : Option Nat)
    (frameCount : Nat) (l : List CachedGrid) :
    ∀ (upToDate : Bool) (offset : Nat) (entries : List CachedGrid),
      getCachedGridLoop camera shadowNode frameCount l = some (upToDate, offset, entries) →
      entries.map CachedGrid.key = l.map CachedGrid.key := by
  induction l with
  | nil => intro b i e h; simp [getCachedGridLoop] at h
  | cons g rest ih =>
    intro b i e h
    rw [getCachedGridLoop] at h
    by_cases hm : cachedGridMatches g camera shadowNode
    · rw [if_pos hm] at h
      simp only [Option.some.injEq, Prod.mk.injEq] at h
      obtain ⟨_, _, rfl⟩ := h
      rfl
    · rw [if_neg hm] at h
      cases hrest : getCachedGridLoop camera shadowNode frameCount rest with
      | none => rw [hrest] at h; simp at h
      | some found =>
        obtain ⟨b1, i1, e1⟩ := found
        rw [hrest] at h
        simp only [Option.some.injEq, Prod.mk.injEq] at h
        obtain ⟨_, _, rfl⟩ := h
        rw [List.map_cons, List.map_cons, ih b1 i1 e1 hrest]

theorem getCachedGridLoop_eq_none (camera : GridCamera) (shadowNode : Option Nat)
    (frameCount : Nat) (l : List CachedGrid)
    (h : getCachedGridLoop camera shadowNode frameCount l = none) :
    ∀ g ∈ l, ¬ cachedGridMatches g camera shadowNode := by
  induction l with
  | nil => intro g hg; simp at hg
  | cons x rest ih =>
    rw [getCachedGridLoop] at h
    by_cases hm : cachedGridMatches x camera shadowNode
    · rw [if_pos hm] at h; simp at h
    · rw [if_neg hm] at h
      cases hrest : getCachedGridLoop camera shadowNode frameCount rest with
      | none =>
        intro g hg
        rcases List.mem_cons.1 hg with rfl | hg
        · exact hm
        · exact ih hrest g hg
      | some found => rw [hrest] at h; simp at h

theorem pairwise_distinctGridKeys_iff (l : List CachedGrid) :
    l.Pairwise distinctGridKeys ↔
      (l.map CachedGrid.key).Pairwise (fun a b =>
        a.1 ≠ b.1 ∨ a.2.1 ≠ b.2.1 ∨ a.2.2.2 ≠ b.2.2.2 ∨
          aspectTolerance ≤ |a.2.2.1 - b.2.2.1|) := by
  rw [List.pairwise_map]
  rfl

theorem pairwise_distinctGridKeys_getCachedGridFor (mCachedGrid : List CachedGrid)
    (camera : GridCamera) (shadowNode : Option Nat) (frameCount : Nat)
    (h : mCachedGrid.Pairwise distinctGridKeys) :
    (getCachedGridFor mCachedGrid camera shadowNode frameCount).2.2.Pairwise
      distinctGridKeys := by
  unfold getCachedGridFor
  cases hloop : getCachedGridLoop camera shadowNode frameCount mCachedGrid with
  | some found =>
    obtain ⟨b, i, e⟩ := found
    simp only
    rw [pairwise_distinctGridKeys_iff,
      getCachedGridLoop_keys camera shadowNode frameCount mCachedGrid b i e hloop,
      ← pairwise_distinctGridKeys_iff]
    exact h
  | none =>
    simp only
    rw [List.pairwise_append]
    refine ⟨h, List.pairwise_singleton _ _, ?_⟩
    intro a ha b hb
    rw [List.mem_singleton] at hb
    subst hb
    have hno := getCachedGridLoop_eq_none camera shadowNode frameCount mCachedGrid hloop a ha
    unfold cachedGridMatches at hno
    unfold distinctGridKeys
    simp only
    by_cases h1 : a.camera = camera.ptr
    · by_cases h2 : a.reflection = camera.isReflected
      · by_cases h3 : a.shadowNode = shadowNode
        · right; right; right
          have h4 : ¬ a.aspectRatio - camera.aspectRatio < aspectTolerance :=
            fun h4 => hno ⟨h1, h2, h4, h3⟩
          exact le_trans (not_lt.1 h4) (le_abs_self _)
        · exact Or.inr (Or.inr (Or.inl h3))
      · exact Or.inr (Or.inl h2)
    · exact Or.inl h1

theorem pairwise_distinctGridKeys_runGridCalls (calls : List GridCall) :
    ∀ mCachedGrid : List CachedGrid, mCachedGrid.Pairwise distinctGridKeys →
      (runGridCalls mCachedGrid calls).Pairwise distinctGridKeys := by
  induction calls with
  | nil => intro l h; exact h
  | cons call calls ih =>
    intro l h
    rw [runGridCalls]
    exact ih _ (pairwise_distinctGridKeys_getCachedGridFor l _ _ _ h)

theorem distinctGridKeys_symm (a b : CachedGrid) (h : distinctGridKeys a b) :
    distinctGridKeys b a := by
  unfold distinctGridKeys at h ⊢
  rw [abs_sub_comm]
  rcases h with h | h | h | h
  · exact Or.inl (Ne.symm h)
  · exact Or.inr (Or.inl (Ne.symm h))
  · exact Or.inr (Or.inr (Or.inl (Ne.symm h)))
  · exact Or.inr (Or.inr (Or.inr h))

/-- C11: in the cache that any sequence of calls of the mutable `getCachedGridFor` builds
from the empty cache (cameras, reflection flags, aspect ratios, shadow nodes and frame
counters arbitrary), any two entries at different positions differ in camera, in
reflection flag or in shadow node, or their aspect ratios are at least 1e-6 apart. -/
theorem runGridCalls_one_entry_per_key (calls : List GridCall) (i j : Nat)
    (a b : CachedGrid) (hij : i ≠ j) (ha : (runGridCalls [] calls)[i]? = some a)
    (hb : (runGridCalls [] calls)[j]? = some b) : distinctGridKeys a b := by
  have hp := pairwise_distinctGridKeys_runGridCalls calls [] List.Pairwise.nil
  rw [List.pairwise_iff_getElem] at hp
  obtain ⟨hi, rfl⟩ := List.getElem?_eq_some.1 ha
  obtain ⟨hj, rfl⟩ := List.getElem?_eq_some.1 hb
  rcases Nat.lt_or_gt_of_ne hij with hlt | hgt
  · exact hp i j hi hj hlt
  · exact distinctGridKeys_symm _ _ (hp j i hj hi hgt)

/-- Witness of C11: camera 7 asks at aspect ratio 2, at aspect ratio 1 and again at
aspect ratio 2; the cache then holds one entry for each of the two aspect ratios. -/
theorem runGridCalls_one_entry_per_key_witness :
    distinctGridKeys
      { camera := 7, reflection := false, aspectRatio := 2, shadowNode := some 3,
        lastFrame := 2, gridBuffer := none, globalLightListBuffer := none }
      { camera := 7, reflection := false, aspectRatio := 1, shadowNode := some 3,
        lastFrame := 1, gridBuffer := none, globalLightListBuffer := none } := by
  have hrun : runGridCalls [] someGridCalls =
      [{ camera := 7, reflection := false, aspectRatio := 2, shadowNode := some 3,
         lastFrame := 2, gridBuffer := none, globalLightListBuffer := none },
       { camera := 7, reflection := false, aspectRatio := 1, shadowNode := some 3,
         lastFrame := 1, gridBuffer := none, globalLightListBuffer := none }] := by
    norm_num [runGridCalls, someGridCalls, getCachedGridFor, getCachedGridLoop,
      cachedGridMatches, aspectTolerance]
  exact runGridCalls_one_entry_per_key someGridCalls 0 1 _ _ (by decide)
    (by rw [hrun]; rfl) (by rw [hrun]; rfl)

/-! ## The program cache -/

theorem mapFind_mapAssign_self (m : List (Nat × GL3PlusGLSLMonolithicProgram)) (key : Nat)
    (p : GL3PlusGLSLMonolithicProgram) : mapFind (mapAssign m key p) key = some p := by
  induction m with
  | nil => simp [mapAssign, mapFind]
  | cons x rest ih =>
    obtain ⟨k, q⟩ := x
    by_cases hk : k = key
    · simp [mapAssign, mapFind, hk]
    · simp [mapAssign, mapFind, hk, ih]

theorem mapFind_mapAssign_other (m : List (Nat × GL3PlusGLSLMonolithicProgram)) (key other : Nat)
    (p : GL3PlusGLSLMonolithicProgram) (h : other ≠ key) :
    mapFind (mapAssign m key p) other = mapFind m other := by
  induction m with
  | nil => simp [mapAssign, mapFind, h.symm]
  | cons x rest ih =>
    obtain ⟨k, q⟩ := x
    by_cases hk : k = key
    · subst hk
      simp [mapAssign, mapFind, h.symm]
    · by_cases hko : k = other
      · subst hko
        simp [mapAssign, mapFind, hk]
      · simp [mapAssign, mapFind, hk, hko, ih]

theorem setActiveVertexShader_spec (env : ProgramEnv) (mgr : GL3PlusGLSLMonolithicProgramManager)
    (s : Option Nat) (h : ActiveIsCached env mgr) :
    ActiveIsCached env (setActiveVertexShader mgr s) ∧
    (setActiveVertexShader mgr s).mMonolithicPrograms = mgr.mMonolithicPrograms ∧
    (setActiveVertexShader mgr s).mActiveVertexShader = s ∧
    (setActiveVertexShader mgr s).mActiveFragmentShader = mgr.mActiveFragmentShader ∧
    (setActiveVertexShader mgr s).mActiveGeometryShader = mgr.mActiveGeometryShader ∧
    (setActiveVertexShader mgr s).mActiveDomainShader = mgr.mActiveDomainShader ∧
    (setActiveVertexShader mgr s).mActiveHullShader = mgr.mActiveHullShader ∧
    (setActiveVertexShader mgr s).mActiveComputeShader = mgr.mActiveComputeShader := by
  unfold setActiveVertexShader
  split_ifs with hc
  · exact ⟨fun p hp => Option.noConfusion hp, rfl, rfl, rfl, rfl, rfl, rfl, rfl⟩
  · exact ⟨h, rfl, (not_not.1 hc).symm, rfl, rfl, rfl, rfl, rfl⟩

theorem setActiveFragmentShader_spec (env : ProgramEnv) (mgr : GL3PlusGLSLMonolithicProgramManager)
    (s : Option Nat) (h : ActiveIsCached env mgr) :
    ActiveIsCached env (setActiveFragmentShader mgr s) ∧
    (setActiveFragmentShader mgr s).mMonolithicPrograms = mgr.mMonolithicPrograms ∧
    (setActiveFragmentShader mgr s).mActiveVertexShader = mgr.mActiveVertexShader ∧
    (setActiveFragmentShader mgr s).mActiveFragmentShader = s ∧
    (setActiveFragmentShader mgr s).mActiveGeometryShader = mgr.mActiveGeometryShader ∧
    (setActiveFragmentShader mgr s).mActiveDomainShader = mgr.mActiveDomainShader ∧
    (setActiveFragmentShader mgr s).mActiveHullShader = mgr.mActiveHullShader ∧
    (setActiveFragmentShader mgr s).mActiveComputeShader = mgr.mActiveComputeShader := by
  unfold setActiveFragmentShader
  split_ifs with hc
  · exact ⟨fun p hp => Option.noConfusion hp, rfl, rfl, rfl, rfl, rfl, rfl, rfl⟩
  · exact ⟨h, rfl, rfl, (not_not.1 hc).symm, rfl, rfl, rfl, rfl⟩

theorem bindStages_spec (env : ProgramEnv) (mgr : GL3PlusGLSLMonolithicProgramManager) (v f : Nat)
    (h : ActiveIsCached env mgr) :
    ActiveIsCached env (bindStages mgr v f) ∧
    (bindStages mgr v f).mMonolithicPrograms = mgr.mMonolithicPrograms ∧
    (bindStages mgr v f).mActiveVertexShader = some v ∧
    (bindStages mgr v f).mActiveFragmentShader = some f ∧
    (bindStages mgr v f).mActiveGeometryShader = mgr.mActiveGeometryShader ∧
    (bindStages mgr v f).mActiveDomainShader = mgr.mActiveDomainShader ∧
    (bindStages mgr v f).mActiveHullShader = mgr.mActiveHullShader ∧
    (bindStages mgr v f).mActiveComputeShader = mgr.mActiveComputeShader := by
  unfold bindStages
  obtain ⟨a0, a1, a2, a3, a4, a5, a6, a7⟩ := setActiveVertexShader_spec env mgr (some v) h
  obtain ⟨b0, b1, b2, b3, b4, b5, b6, b7⟩ :=
    setActiveFragmentShader_spec env (setActiveVertexShader mgr (some v)) (some f) a0
  exact ⟨b0, b1.trans a1, b2.trans a2, b3, b4.trans a4, b5.trans a5, b6.trans a6,
    b7.trans a7⟩

theorem activeKey_congr (env : ProgramEnv) (a b : GL3PlusGLSLMonolithicProgramManager)
    (h1 : a.mActiveVertexShader = b.mActiveVertexShader)
    (h2 : a.mActiveFragmentShader = b.mActiveFragmentShader)
    (h3 : a.mActiveGeometryShader = b.mActiveGeometryShader)
    (h4 : a.mActiveDomainShader = b.mActiveDomainShader)
    (h5 : a.mActiveHullShader = b.mActiveHullShader)
    (h6 : a.mActiveComputeShader = b.mActiveComputeShader) :
    activeKey env a = activeKey env b := by
  unfold activeKey
  rw [h1, h2, h3, h4, h5, h6]

theorem getActiveMonolithicProgram_active (env : ProgramEnv) (mgr : GL3PlusGLSLMonolithicProgramManager)
    (fresh : Nat) (p : GL3PlusGLSLMonolithicProgram) (hact : mgr.mActiveMonolithicProgram = some p) :
    getActiveMonolithicProgram env mgr fresh = (some p, mgr) := by
  unfold getActiveMonolithicProgram
  rw [hact]

theorem getActiveMonolithicProgram_found (env : ProgramEnv) (mgr : GL3PlusGLSLMonolithicProgramManager)
    (fresh : Nat) (found : GL3PlusGLSLMonolithicProgram) (hact : mgr.mActiveMonolithicProgram = none)
    (hkey : activeKey env mgr > 0)
    (hfind : mapFind mgr.mMonolithicPrograms (activeKey env mgr) = some found) :
    getActiveMonolithicProgram env mgr fresh =
      (some found, { mgr with mActiveMonolithicProgram := some found }) := by
  unfold getActiveMonolithicProgram
  rw [hact]
  simp only
  rw [if_pos hkey, hfind]

theorem getActiveMonolithicProgram_created (env : ProgramEnv) (mgr : GL3PlusGLSLMonolithicProgramManager)
    (fresh : Nat) (hact : mgr.mActiveMonolithicProgram = none)
    (hkey : activeKey env mgr > 0)
    (hfind : mapFind mgr.mMonolithicPrograms (activeKey env mgr) = none) :
    getActiveMonolithicProgram env mgr fresh =
      (some { ptr := fresh
              vertexShader := mgr.mActiveVertexShader
              hullShader := mgr.mActiveHullShader
              domainShader := mgr.mActiveDomainShader
              geometryShader := mgr.mActiveGeometryShader
              fragmentShader := mgr.mActiveFragmentShader
              computeShader := mgr.mActiveComputeShader },
        { mgr with
          mActiveMonolithicProgram := some
            { ptr := fresh
              vertexShader := mgr.mActiveVertexShader
              hullShader := mgr.mActiveHullShader
              domainShader := mgr.mActiveDomainShader
              geometryShader := mgr.mActiveGeometryShader
              fragmentShader := mgr.mActiveFragmentShader
              computeShader := mgr.mActiveComputeShader }
          mMonolithicPrograms :=
            mapAssign mgr.mMonolithicPrograms (activeKey env mgr)
              { ptr := fresh
                vertexShader := mgr.mActiveVertexShader
                hullShader := mgr.mActiveHullShader
                domainShader := mgr.mActiveDomainShader
                geometryShader := mgr.mActiveGeometryShader
                fragmentShader := mgr.mActiveFragmentShader
                computeShader := mgr.mActiveComputeShader } }) := by
  unfold getActiveMonolithicProgram
  rw [hact]
  simp only
  rw [if_pos hkey, hfind]

theorem getActiveMonolithicProgram_spec (env : ProgramEnv) (mgr : GL3PlusGLSLMonolithicProgramManager)
    (fresh : Nat) (h : ActiveIsCached env mgr) (hkey : activeKey env mgr > 0) :
    ∃ p, (getActiveMonolithicProgram env mgr fresh).1 = some p ∧
      mapFind (getActiveMonolithicProgram env mgr fresh).2.mMonolithicPrograms
        (activeKey env mgr) = some p ∧
      ActiveIsCached env (getActiveMonolithicProgram env mgr fresh).2 ∧
      (∀ k q, mapFind mgr.mMonolithicPrograms k = some q →
        mapFind (getActiveMonolithicProgram env mgr fresh).2.mMonolithicPrograms k = some q) ∧
      ((∃ q, mapFind mgr.mMonolithicPrograms (activeKey env mgr) = some q) →
        (getActiveMonolithicProgram env mgr fresh).2.mMonolithicPrograms =
          mgr.mMonolithicPrograms) ∧
      (getActiveMonolithicProgram env mgr fresh).2.mActiveVertexShader =
        mgr.mActiveVertexShader ∧
      (getActiveMonolithicProgram env mgr fresh).2.mActiveFragmentShader =
        mgr.mActiveFragmentShader ∧
      (getActiveMonolithicProgram env mgr fresh).2.mActiveGeometryShader =
        mgr.mActiveGeometryShader ∧
      (getActiveMonolithicProgram env mgr fresh).2.mActiveDomainShader =
        mgr.mActiveDomainShader ∧
      (getActiveMonolithicProgram env mgr fresh).2.mActiveHullShader =
        mgr.mActiveHullShader ∧
      (getActiveMonolithicProgram env mgr fresh).2.mActiveComputeShader =
        mgr.mActiveComputeShader := by
  cases hact : mgr.mActiveMonolithicProgram with
  | some p =>
    rw [getActiveMonolithicProgram_active env mgr fresh p hact]
    exact ⟨p, rfl, h p hact, h, fun _ _ hq => hq, fun _ => rfl, rfl, rfl, rfl, rfl, rfl, rfl⟩
  | none =>
    cases hfind : mapFind mgr.mMonolithicPrograms (activeKey env mgr) with
    | some found =>
      rw [getActiveMonolithicProgram_found env mgr fresh found hact hkey hfind]
      refine ⟨found, rfl, hfind, ?_, fun _ _ hq => hq, fun _ => rfl, rfl, rfl, rfl, rfl, rfl,
        rfl⟩
      intro p hp
      have hp2 : some found = some p := hp
      injection hp2 with hp2
      subst hp2
      exact hfind
    | none =>
      rw [getActiveMonolithicProgram_created env mgr fresh hact hkey hfind]
      refine ⟨_, rfl, mapFind_mapAssign_self _ _ _, ?_, ?_, ?_, rfl, rfl, rfl, rfl, rfl, rfl⟩
      · intro p hp
        have hp2 : some _ = some p := hp
        injection hp2 with hp2
        subst hp2
        exact mapFind_mapAssign_self _ _ _
      · intro k q hq
        have hk : k ≠ activeKey env mgr := by
          rintro rfl
          rw [hfind] at hq
          exact Option.noConfusion hq
        show mapFind (mapAssign mgr.mMonolithicPrograms (activeKey env mgr) _) k = some q
        rw [mapFind_mapAssign_other _ _ _ _ hk]
        exact hq
      · rintro ⟨q, hq⟩
        exact Option.noConfusion hq

theorem activeIsCached_initial (env : ProgramEnv) :
    ActiveIsCached env GL3PlusGLSLMonolithicProgramManager.initial :=
  fun _ hp => Option.noConfusion hp

theorem activeIsCached_getActiveMonolithicProgram (env : ProgramEnv)
    (mgr : GL3PlusGLSLMonolithicProgramManager) (fresh : Nat) (h : ActiveIsCached env mgr) :
    ActiveIsCached env (getActiveMonolithicProgram env mgr fresh).2 := by
  by_cases hkey : activeKey env mgr > 0
  · obtain ⟨_, _, _, hinv, _⟩ := getActiveMonolithicProgram_spec env mgr fresh h hkey
    exact hinv
  · cases hact : mgr.mActiveMonolithicProgram with
    | some p => rw [getActiveMonolithicProgram_active env mgr fresh p hact]; exact h
    | none =>
      have : getActiveMonolithicProgram env mgr fresh = (none, mgr) := by
        unfold getActiveMonolithicProgram
        rw [hact]
        simp only
        rw [if_neg hkey]
      rw [this]
      exact h

theorem activeIsCached_setActiveGeometryShader (env : ProgramEnv)
    (mgr : GL3PlusGLSLMonolithicProgramManager) (s : Option Nat) (h : ActiveIsCached env mgr) :
    ActiveIsCached env (setActiveGeometryShader mgr s) := by
  unfold setActiveGeometryShader
  split_ifs
  · exact fun _ hp => Option.noConfusion hp
  · exact h

theorem activeIsCached_setActiveHullShader (env : ProgramEnv)
    (mgr : GL3PlusGLSLMonolithicProgramManager) (s : Option Nat) (h : ActiveIsCached env mgr) :
    ActiveIsCached env (setActiveHullShader mgr s) := by
  unfold setActiveHullShader
  split_ifs
  · exact fun _ hp => Option.noConfusion hp
  · exact h

theorem activeIsCached_setActiveDomainShader (env : ProgramEnv)
    (mgr : GL3PlusGLSLMonolithicProgramManager) (s : Option Nat) (h : ActiveIsCached env mgr) :
    ActiveIsCached env (setActiveDomainShader mgr s) := by
  unfold setActiveDomainShader
  split_ifs
  · exact fun _ hp => Option.noConfusion hp
  · exact h

theorem activeIsCached_setActiveComputeShader (env : ProgramEnv)
    (mgr : GL3PlusGLSLMonolithicProgramManager) (s : Option Nat) (h : ActiveIsCached env mgr) :
    ActiveIsCached env (setActiveComputeShader mgr s) := by
  unfold setActiveComputeShader
  split_ifs
  · exact fun _ hp => Option.noConfusion hp
  · exact h

/-- C7: for every manager state in which the active program, if any, is the one the map
stores under the key of the active stages (every state the manager can reach is such),
and shader stages whose combined keys are non-zero: binding (V1,F1) and asking for the
active program, then (V1,F2), then (V1,F1) again returns on the third call the program
object of the first call, and the third call leaves the map as the second call left
it. -/
theorem getActiveMonolithicProgram_rebind (env : ProgramEnv) (mgr : GL3PlusGLSLMonolithicProgramManager)
    (V1 F1 F2 fresh1 fresh2 fresh3 : Nat) (hmgr : ActiveIsCached env mgr)
    (hkey1 : activeKey env (bindStages mgr V1 F1) > 0)
    (hkey2 : activeKey env (bindStages mgr V1 F2) > 0) :
    (getActiveMonolithicProgram env (bindStages
        (getActiveMonolithicProgram env (bindStages
          (getActiveMonolithicProgram env (bindStages mgr V1 F1) fresh1).2 V1 F2) fresh2).2
        V1 F1) fresh3).1 =
      (getActiveMonolithicProgram env (bindStages mgr V1 F1) fresh1).1 ∧
    (getActiveMonolithicProgram env (bindStages mgr V1 F1) fresh1).1 ≠ none ∧
    (getActiveMonolithicProgram env (bindStages
        (getActiveMonolithicProgram env (bindStages
          (getActiveMonolithicProgram env (bindStages mgr V1 F1) fresh1).2 V1 F2) fresh2).2
        V1 F1) fresh3).2.mMonolithicPrograms =
      (getActiveMonolithicProgram env (bindStages
          (getActiveMonolithicProgram env (bindStages mgr V1 F1) fresh1).2 V1 F2)
        fresh2).2.mMonolithicPrograms := by
  -- first bind and call
  obtain ⟨hb1, _, hb1v, hb1f, hb1g, hb1d, hb1h, hb1c⟩ := bindStages_spec env mgr V1 F1 hmgr
  obtain ⟨p1, hp1, hfind1, hinv1, _, _, hs1v, hs1f, hs1g, hs1d, hs1h, hs1c⟩ :=
    getActiveMonolithicProgram_spec env (bindStages mgr V1 F1) fresh1 hb1 hkey1
  generalize getActiveMonolithicProgram env (bindStages mgr V1 F1) fresh1 = r1 at *
  -- second bind and call
  obtain ⟨hb2, hb2m, hb2v, hb2f, hb2g, hb2d, hb2h, hb2c⟩ :=
    bindStages_spec env r1.2 V1 F2 hinv1
  obtain ⟨_, _, hcv, hcf, hcg, hcd, hch, hcc⟩ := bindStages_spec env mgr V1 F2 hmgr
  have hkey2b : activeKey env (bindStages r1.2 V1 F2) > 0 := by
    rw [activeKey_congr env (bindStages r1.2 V1 F2) (bindStages mgr V1 F2)
      (by rw [hb2v, hcv]) (by rw [hb2f, hcf]) (by rw [hb2g, hs1g, hb1g, hcg])
      (by rw [hb2d, hs1d, hb1d, hcd]) (by rw [hb2h, hs1h, hb1h, hch])
      (by rw [hb2c, hs1c, hb1c, hcc])]
    exact hkey2
  obtain ⟨p2, _, _, hinv2, hmono2, _, hs2v, hs2f, hs2g, hs2d, hs2h, hs2c⟩ :=
    getActiveMonolithicProgram_spec env (bindStages r1.2 V1 F2) fresh2 hb2 hkey2b
  generalize getActiveMonolithicProgram env (bindStages r1.2 V1 F2) fresh2 = r2 at *
  -- third bind and call
  obtain ⟨hb3, hb3m, hb3v, hb3f, hb3g, hb3d, hb3h, hb3c⟩ :=
    bindStages_spec env r2.2 V1 F1 hinv2
  have hkeyeq : activeKey env (bindStages r2.2 V1 F1) = activeKey env (bindStages mgr V1 F1) :=
    activeKey_congr env _ _ (by rw [hb3v, hb1v]) (by rw [hb3f, hb1f])
      (by rw [hb3g, hs2g, hb2g, hs1g]) (by rw [hb3d, hs2d, hb2d, hs1d])
      (by rw [hb3h, hs2h, hb2h, hs1h]) (by rw [hb3c, hs2c, hb2c, hs1c])
  have hfind3 : mapFind (bindStages r2.2 V1 F1).mMonolithicPrograms
      (activeKey env (bindStages r2.2 V1 F1)) = some p1 := by
    rw [hkeyeq, hb3m]
    exact hmono2 _ _ (by rw [hb2m]; exact hfind1)
  obtain ⟨p3, hp3, hfind3b, _, _, hsame3, _⟩ :=
    getActiveMonolithicProgram_spec env (bindStages r2.2 V1 F1) fresh3 hb3
      (by rw [hkeyeq]; exact hkey1)
  have hmap3 := hsame3 ⟨p1, hfind3⟩
  refine ⟨?_, by rw [hp1]; simp, ?_⟩
  · rw [hp3, hp1]
    rw [hmap3, hfind3] at hfind3b
    exact hfind3b.symm
  · rw [hmap3, hb3m]

/-- Witness of C7: the freshly constructed manager with stages 1, 2 and 3. -/
theorem getActiveMonolithicProgram_rebind_witness :
    (getActiveMonolithicProgram toyEnv (bindStages
        (getActiveMonolithicProgram toyEnv (bindStages
          (getActiveMonolithicProgram toyEnv (bindStages GL3PlusGLSLMonolithicProgramManager.initial 1 2) 100).2
          1 3) 101).2
        1 2) 102).1 =
      (getActiveMonolithicProgram toyEnv (bindStages GL3PlusGLSLMonolithicProgramManager.initial 1 2) 100).1 ∧
    (getActiveMonolithicProgram toyEnv (bindStages GL3PlusGLSLMonolithicProgramManager.initial 1 2) 100).1 ≠ none ∧
    (getActiveMonolithicProgram toyEnv (bindStages
        (getActiveMonolithicProgram toyEnv (bindStages
          (getActiveMonolithicProgram toyEnv (bindStages GL3PlusGLSLMonolithicProgramManager.initial 1 2) 100).2
          1 3) 101).2
        1 2) 102).2.mMonolithicPrograms =
      (getActiveMonolithicProgram toyEnv (bindStages
          (getActiveMonolithicProgram toyEnv (bindStages GL3PlusGLSLMonolithicProgramManager.initial 1 2) 100).2
          1 3) 101).2.mMonolithicPrograms :=
  getActiveMonolithicProgram_rebind toyEnv GL3PlusGLSLMonolithicProgramManager.initial 1 2 3 100 101 102
    (fun _ hp => Option.noConfusion hp) (by decide) (by decide)

theorem activeKey_eq_foldedStageKey (env : ProgramEnv)
    (mgr : GL3PlusGLSLMonolithicProgramManager) : activeKey env mgr = foldedStageKey env mgr := by
  unfold activeKey foldedStageKey hashStage
  cases mgr.mActiveVertexShader <;> cases mgr.mActiveFragmentShader <;>
    cases mgr.mActiveGeometryShader <;> cases mgr.mActiveDomainShader <;>
    cases mgr.mActiveHullShader <;> cases mgr.mActiveComputeShader <;> rfl

theorem mapAssign_absent (m : List (Nat × GL3PlusGLSLMonolithicProgram)) (key : Nat)
    (p : GL3PlusGLSLMonolithicProgram) (h : mapFind m key = none) :
    mapAssign m key p = m ++ [(key, p)] := by
  induction m with
  | nil => rfl
  | cons x rest ih =>
    obtain ⟨k, q⟩ := x
    rw [mapFind] at h
    by_cases hk : k = key
    · rw [if_pos hk] at h; exact Option.noConfusion h
    · rw [if_neg hk] at h
      rw [mapAssign, if_neg hk, ih h, List.cons_append]

/-- C12: with no active program, `getActiveMonolithicProgram` looks up the key that
folds `FastHash` from 0 over the shader IDs of the non-null active stages in the order
vertex, fragment, geometry, domain, hull, compute. It returns null exactly when that key
is 0, then leaving the manager as it is, and the key is 0 when no stage is bound.
Otherwise it returns the program the map holds under the key afterwards: the program
already stored there, with the map unchanged, or, if the key was absent, a program
created from the active stages and added to the map under the key. -/
theorem getActiveMonolithicProgram_lookup (env : ProgramEnv)
    (mgr : GL3PlusGLSLMonolithicProgramManager) (fresh : Nat)
    (hact : mgr.mActiveMonolithicProgram = none) :
    ((getActiveMonolithicProgram env mgr fresh).1 = none ↔ foldedStageKey env mgr = 0) ∧
    (foldedStageKey env mgr = 0 → (getActiveMonolithicProgram env mgr fresh).2 = mgr) ∧
    (mgr.mActiveVertexShader = none → mgr.mActiveFragmentShader = none →
      mgr.mActiveGeometryShader = none → mgr.mActiveDomainShader = none →
      mgr.mActiveHullShader = none → mgr.mActiveComputeShader = none →
      foldedStageKey env mgr = 0) ∧
    (foldedStageKey env mgr ≠ 0 →
      (getActiveMonolithicProgram env mgr fresh).1 =
        mapFind (getActiveMonolithicProgram env mgr fresh).2.mMonolithicPrograms
          (foldedStageKey env mgr)) ∧
    (foldedStageKey env mgr ≠ 0 →
      ∀ p, mapFind mgr.mMonolithicPrograms (foldedStageKey env mgr) = some p →
        (getActiveMonolithicProgram env mgr fresh).1 = some p ∧
        (getActiveMonolithicProgram env mgr fresh).2.mMonolithicPrograms =
          mgr.mMonolithicPrograms) ∧
    (foldedStageKey env mgr ≠ 0 →
      mapFind mgr.mMonolithicPrograms (foldedStageKey env mgr) = none →
        (getActiveMonolithicProgram env mgr fresh).1 =
          some (programOfActiveStages mgr fresh) ∧
        (getActiveMonolithicProgram env mgr fresh).2.mMonolithicPrograms =
          mgr.mMonolithicPrograms ++
            [(foldedStageKey env mgr, programOfActiveStages mgr fresh)]) := by
  rw [← activeKey_eq_foldedStageKey]
  by_cases hkey : activeKey env mgr = 0
  · have hnull : getActiveMonolithicProgram env mgr fresh = (none, mgr) := by
      unfold getActiveMonolithicProgram
      rw [hact]
      simp only
      rw [if_neg (by omega)]
    rw [hnull]
    refine ⟨⟨fun _ => hkey, fun _ => rfl⟩, fun _ => rfl, ?_, fun h => absurd hkey h,
      fun h => absurd hkey h, fun h => absurd hkey h⟩
    intro _ _ _ _ _ _
    exact hkey
  · have hpos : activeKey env mgr > 0 := Nat.pos_of_ne_zero hkey
    refine ⟨?_, fun h => absurd h hkey, ?_, ?_, ?_, ?_⟩
    · cases hfind : mapFind mgr.mMonolithicPrograms (activeKey env mgr) with
      | some found =>
        rw [getActiveMonolithicProgram_found env mgr fresh found hact hpos hfind]
        exact ⟨fun h => Option.noConfusion h, fun h => absurd h hkey⟩
      | none =>
        rw [getActiveMonolithicProgram_created env mgr fresh hact hpos hfind]
        exact ⟨fun h => Option.noConfusion h, fun h => absurd h hkey⟩
    · intro hv hf hg hd hh hc
      unfold activeKey hashStage
      rw [hv, hf, hg, hd, hh, hc]
    · intro _
      cases hfind : mapFind mgr.mMonolithicPrograms (activeKey env mgr) with
      | some found =>
        rw [getActiveMonolithicProgram_found env mgr fresh found hact hpos hfind]
        exact hfind.symm
      | none =>
        rw [getActiveMonolithicProgram_created env mgr fresh hact hpos hfind]
        exact (mapFind_mapAssign_self _ _ _).symm
    · intro _ p hp
      rw [getActiveMonolithicProgram_found env mgr fresh p hact hpos hp]
      exact ⟨rfl, rfl⟩
    · intro _ hfind
      rw [getActiveMonolithicProgram_created env mgr fresh hact hpos hfind]
      exact ⟨rfl, mapAssign_absent _ _ _ hfind⟩

/-- Witness of C12: vertex shader 1 and compute shader 4 are bound and the key is
`4 + 1 + 2 * (1 + 1 + 2 * 0) = 9`; the map holds a program under this key, which the call
returns and makes active, leaving the map as it is. -/
theorem getActiveMonolithicProgram_lookup_witness :
    foldedStageKey toyEnv boundManager = 9 ∧
    getActiveMonolithicProgram toyEnv boundManager 71 =
      (some ⟨70, some 5, none, none, none, some 6, none⟩,
        { boundManager with
          mActiveMonolithicProgram := some ⟨70, some 5, none, none, none, some 6, none⟩ }) ∧
    ((getActiveMonolithicProgram toyEnv boundManager 71).1 = none ↔
      foldedStageKey toyEnv boundManager = 0) :=
  ⟨by decide, by decide,
    (getActiveMonolithicProgram_lookup toyEnv boundManager 71 rfl).1⟩

/-- C13: for every manager state and every shader pointer (null included), each of the six
setters leaves the map of programs and the other five active stages as they are, and
stores the pointer as its own stage; only its own stage and the active program can
change. -/
theorem setActiveShader_frame (mgr : GL3PlusGLSLMonolithicProgramManager) (s : Option Nat) :
    ((setActiveVertexShader mgr s).mMonolithicPrograms = mgr.mMonolithicPrograms ∧
      (setActiveVertexShader mgr s).mActiveVertexShader = s ∧
      (setActiveVertexShader mgr s).mActiveFragmentShader = mgr.mActiveFragmentShader ∧
      (setActiveVertexShader mgr s).mActiveGeometryShader = mgr.mActiveGeometryShader ∧
      (setActiveVertexShader mgr s).mActiveDomainShader = mgr.mActiveDomainShader ∧
      (setActiveVertexShader mgr s).mActiveHullShader = mgr.mActiveHullShader ∧
      (setActiveVertexShader mgr s).mActiveComputeShader = mgr.mActiveComputeShader) ∧
    ((setActiveFragmentShader mgr s).mMonolithicPrograms = mgr.mMonolithicPrograms ∧
      (setActiveFragmentShader mgr s).mActiveVertexShader = mgr.mActiveVertexShader ∧
      (setActiveFragmentShader mgr s).mActiveFragmentShader = s ∧
      (setActiveFragmentShader mgr s).mActiveGeometryShader = mgr.mActiveGeometryShader ∧
      (setActiveFragmentShader mgr s).mActiveDomainShader = mgr.mActiveDomainShader ∧
      (setActiveFragmentShader mgr s).mActiveHullShader = mgr.mActiveHullShader ∧
      (setActiveFragmentShader mgr s).mActiveComputeShader = mgr.mActiveComputeShader) ∧
    ((setActiveGeometryShader mgr s).mMonolithicPrograms = mgr.mMonolithicPrograms ∧
      (setActiveGeometryShader mgr s).mActiveVertexShader = mgr.mActiveVertexShader ∧
      (setActiveGeometryShader mgr s).mActiveFragmentShader = mgr.mActiveFragmentShader ∧
      (setActiveGeometryShader mgr s).mActiveGeometryShader = s ∧
      (setActiveGeometryShader mgr s).mActiveDomainShader = mgr.mActiveDomainShader ∧
      (setActiveGeometryShader mgr s).mActiveHullShader = mgr.mActiveHullShader ∧
      (setActiveGeometryShader mgr s).mActiveComputeShader = mgr.mActiveComputeShader) ∧
    ((setActiveHullShader mgr s).mMonolithicPrograms = mgr.mMonolithicPrograms ∧
      (setActiveHullShader mgr s).mActiveVertexShader = mgr.mActiveVertexShader ∧
      (setActiveHullShader mgr s).mActiveFragmentShader = mgr.mActiveFragmentShader ∧
      (setActiveHullShader mgr s).mActiveGeometryShader = mgr.mActiveGeometryShader ∧
      (setActiveHullShader mgr s).mActiveDomainShader = mgr.mActiveDomainShader ∧
      (setActiveHullShader mgr s).mActiveHullShader = s ∧
      (setActiveHullShader mgr s).mActiveComputeShader = mgr.mActiveComputeShader) ∧
    ((setActiveDomainShader mgr s).mMonolithicPrograms = mgr.mMonolithicPrograms ∧
      (setActiveDomainShader mgr s).mActiveVertexShader = mgr.mActiveVertexShader ∧
      (setActiveDomainShader mgr s).mActiveFragmentShader = mgr.mActiveFragmentShader ∧
      (setActiveDomainShader mgr s).mActiveGeometryShader = mgr.mActiveGeometryShader ∧
      (setActiveDomainShader mgr s).mActiveDomainShader = s ∧
      (setActiveDomainShader mgr s).mActiveHullShader = mgr.mActiveHullShader ∧
      (setActiveDomainShader mgr s).mActiveComputeShader = mgr.mActiveComputeShader) ∧
    ((setActiveComputeShader mgr s).mMonolithicPrograms = mgr.mMonolithicPrograms ∧
      (setActiveComputeShader mgr s).mActiveVertexShader = mgr.mActiveVertexShader ∧
      (setActiveComputeShader mgr s).mActiveFragmentShader = mgr.mActiveFragmentShader ∧
      (setActiveComputeShader mgr s).mActiveGeometryShader = mgr.mActiveGeometryShader ∧
      (setActiveComputeShader mgr s).mActiveDomainShader = mgr.mActiveDomainShader ∧
      (setActiveComputeShader mgr s).mActiveHullShader = mgr.mActiveHullShader ∧
      (setActiveComputeShader mgr s).mActiveComputeShader = s) := by
  refine ⟨?_, ?_, ?_, ?_, ?_, ?_⟩
  · unfold setActiveVertexShader
    split_ifs with h
    · exact ⟨rfl, rfl, rfl, rfl, rfl, rfl, rfl⟩
    · exact ⟨rfl, (not_not.1 h).symm, rfl, rfl, rfl, rfl, rfl⟩
  · unfold setActiveFragmentShader
    split_ifs with h
    · exact ⟨rfl, rfl, rfl, rfl, rfl, rfl, rfl⟩
    · exact ⟨rfl, rfl, (not_not.1 h).symm, rfl, rfl, rfl, rfl⟩
  · unfold setActiveGeometryShader
    split_ifs with h
    · exact ⟨rfl, rfl, rfl, rfl, rfl, rfl, rfl⟩
    · exact ⟨rfl, rfl, rfl, (not_not.1 h).symm, rfl, rfl, rfl⟩
  · unfold setActiveHullShader
    split_ifs with h
    · exact ⟨rfl, rfl, rfl, rfl, rfl, rfl, rfl⟩
    · exact ⟨rfl, rfl, rfl, rfl, rfl, (not_not.1 h).symm, rfl⟩
  · unfold setActiveDomainShader
    split_ifs with h
    · exact ⟨rfl, rfl, rfl, rfl, rfl, rfl, rfl⟩
    · exact ⟨rfl, rfl, rfl, rfl, (not_not.1 h).symm, rfl, rfl⟩
  · unfold setActiveComputeShader
    split_ifs with h
    · exact ⟨rfl, rfl, rfl, rfl, rfl, rfl, rfl⟩
    · exact ⟨rfl, rfl, rfl, rfl, rfl, rfl, (not_not.1 h).symm⟩

/-! ## Viewport sizes of the passes to one shadow map -/

theorem store_at (mappedFloats : Nat) (pre post : List ℚ) (old value : ℚ)
    (h : pre.length < mappedFloats) :
    store mappedFloats ⟨pre ++ old :: post, pre.length⟩ value =
      some ⟨(pre ++ [value]) ++ post, (pre ++ [value]).length⟩ := by
  unfold store
  rw [if_pos ⟨h, by simp⟩]
  simp

theorem skip_at (pre post : List ℚ) (old : ℚ) :
    skip ⟨pre ++ old :: post, pre.length⟩ =
      ⟨(pre ++ [old]) ++ post, (pre ++ [old]).length⟩ := by
  unfold skip
  simp

theorem runWrites_spec (mappedFloats : Nat) (ws : List (Option ℚ)) :
    ∀ (pre old post : List ℚ), old.length = ws.length →
      pre.length + ws.length ≤ mappedFloats →
      runWrites mappedFloats ws ⟨pre ++ old ++ post, pre.length⟩ =
        some ⟨pre ++ List.zipWith (fun (w : Option ℚ) (o : ℚ) => w.getD o) ws old ++ post,
          pre.length + ws.length⟩ := by
  induction ws with
  | nil =>
    intro pre old post hlen _
    have : old = [] := List.length_eq_zero.1 hlen
    subst this
    simp [runWrites]
  | cons w ws ih =>
    intro pre old post hlen hmap
    cases old with
    | nil => simp at hlen
    | cons o old =>
      have hlen2 : old.length = ws.length := by simpa using hlen
      have hmap2 : (pre ++ [o]).length + ws.length ≤ mappedFloats := by
        simp only [List.length_append, List.length_cons, List.length_nil] at hmap ⊢; omega
      cases w with
      | none =>
        have hskip := skip_at pre (old ++ post) o
        have hrec := ih (pre ++ [o]) old post hlen2 hmap2
        simp only [List.append_assoc, List.cons_append, List.nil_append,
          List.singleton_append] at hskip hrec ⊢
        rw [runWrites, hskip, hrec]
        simp only [List.zipWith_cons_cons, Option.getD_none, List.cons_append,
          List.length_append, List.length_cons, List.length_nil]
        congr 2
        omega
      | some v =>
        have hstore := store_at mappedFloats pre (old ++ post) o v (by
          simp only [List.length_cons] at hmap; omega)
        have hmap3 : (pre ++ [v]).length + ws.length ≤ mappedFloats := by
          simp only [List.length_append, List.length_cons, List.length_nil] at hmap ⊢; omega
        have hrec := ih (pre ++ [v]) old post hlen2 hmap3
        simp only [List.append_assoc, List.cons_append, List.nil_append,
          List.singleton_append] at hstore hrec ⊢
        rw [runWrites, hstore]
        simp only
        rw [hrec]
        simp only [List.zipWith_cons_cons, Option.getD_some, List.cons_append,
          List.length_append, List.length_cons, List.length_nil]
        congr 2
        omega

theorem mergeWrites_lightRecord (env : ViewEnv) (light : FwdLight) (old : List ℚ)
    (h : old.length = 24) :
    List.zipWith (fun (w : Option ℚ) (o : ℚ) => w.getD o) (lightWrites env light) old =
      lightRecord env light old := by
  match old, h with
  | [o0, o1, o2, o3, o4, o5, o6, o7, o8, o9, o10, o11, o12, o13, o14, o15, o16, o17, o18, o19, o20, o21, o22, o23], _ => rfl

theorem length_lightRecord (env : ViewEnv) (light : FwdLight) (old : List ℚ) :
    (lightRecord env light old).length = 24 := rfl

theorem length_lightRecords (env : ViewEnv) (lights : List FwdLight) :
    ∀ old : List ℚ, (lightRecords env lights old).length = 24 * lights.length := by
  induction lights with
  | nil => intro old; rfl
  | cons l rest ih =>
    intro old
    rw [lightRecords, List.length_append, length_lightRecord, ih, List.length_cons]
    omega

theorem writeLights_spec (env : ViewEnv) (mappedFloats : Nat) (lights : List FwdLight) :
    ∀ (pre old post : List ℚ), old.length = 24 * lights.length →
      pre.length + 24 * lights.length ≤ mappedFloats →
      writeLights env mappedFloats lights ⟨pre ++ old ++ post, pre.length⟩ =
        some ⟨pre ++ lightRecords env lights old ++ post,
          pre.length + 24 * lights.length⟩ := by
  induction lights with
  | nil =>
    intro pre old post hlen _
    have : old = [] := List.length_eq_zero.1 (by simpa using hlen)
    subst this
    simp [writeLights, lightRecords]
  | cons l rest ih =>
    intro pre old post hlen hmap
    rw [List.length_cons] at hlen hmap
    have hsplit : old = old.take 24 ++ old.drop 24 := (List.take_append_drop 24 old).symm
    have htake : (old.take 24).length = 24 := by rw [List.length_take]; omega
    have hdrop : (old.drop 24).length = 24 * rest.length := by rw [List.length_drop]; omega
    have hw : (lightWrites env l).length = 24 := rfl
    have hone := runWrites_spec mappedFloats (lightWrites env l) pre (old.take 24)
      (old.drop 24 ++ post) (by rw [htake, hw]) (by rw [hw]; omega)
    rw [mergeWrites_lightRecord env l _ htake, hw] at hone
    have hrec := ih (pre ++ lightRecord env l (old.take 24)) (old.drop 24) post hdrop (by
      rw [List.length_append, length_lightRecord]; omega)
    rw [writeLights, writeLight]
    conv_lhs => rw [hsplit]
    simp only [List.append_assoc] at hone hrec ⊢
    rw [hone]
    simp only
    have hlen2 : pre.length + 24 = (pre ++ lightRecord env l (old.take 24)).length := by
      rw [List.length_append, length_lightRecord]
    rw [hlen2, hrec, lightRecords]
    simp only [List.append_assoc, List.length_append, length_lightRecord, List.length_cons]
    congr 2
    omega

theorem lightRecords_chunk (env : ViewEnv) (lights : List FwdLight) :
    ∀ (old : List ℚ) (i : Nat) (hi : i < lights.length),
      ((lightRecords env lights old).drop (24 * i)).take 24 =
        lightRecord env lights[i] ((old.drop (24 * i)).take 24) := by
  induction lights with
  | nil => intro old i hi; simp at hi
  | cons l rest ih =>
    intro old i hi
    cases i with
    | zero =>
      rw [lightRecords]
      simp only [Nat.mul_zero, List.drop_zero, List.getElem_cons_zero]
      rw [List.take_append_of_le_length (by rw [length_lightRecord])]
      exact List.take_of_length_le (by rw [length_lightRecord])
    | succ i =>
      have hi2 : i < rest.length := by simpa using hi
      have h24 : 24 * (i + 1) = (lightRecord env l (old.take 24)).length + 24 * i := by
        rw [length_lightRecord]; omega
      rw [lightRecords, h24, List.drop_append, ih (old.drop 24) i hi2, List.drop_drop,
        length_lightRecord]
      simp only [List.getElem_cons_succ]

/-- C9: for an empty light list the buffer is returned as it is: no map, no write, no
unmap. For `n > 0` lights and a buffer of at least `24 n` floats the call maps
`(0, 96 n)` bytes once and unmaps once with `UO_KEEP_PERSISTENT`; the write cursor ends
at `24 n` floats and no write leaves the mapping; the floats from `24 n` on are
untouched; and the 24 floats from offset `24 i` are the record of light `i` in the layout
of `lightRecord`, so every written field is read back at its offset. -/
theorem fillGlobalLightListBuffer_layout (env : ViewEnv) (lights : List FwdLight)
    (buffer : TexBufferPacked) :
    fillGlobalLightListBuffer env [] buffer = some buffer ∧
    (lights ≠ [] → 24 * lights.length ≤ buffer.floats.length →
      ∃ buffer1 : TexBufferPacked,
        fillGlobalLightListBuffer env lights buffer = some buffer1 ∧
        buffer1.mapCalls = buffer.mapCalls ++ [(0, 96 * lights.length)] ∧
        buffer1.unmapCalls = buffer.unmapCalls ++ [UnmapOptions.UO_KEEP_PERSISTENT] ∧
        writeLights env (24 * lights.length) lights ⟨buffer.floats, 0⟩ =
          some ⟨buffer1.floats, 24 * lights.length⟩ ∧
        buffer1.floats.length = buffer.floats.length ∧
        buffer1.floats.drop (24 * lights.length) = buffer.floats.drop (24 * lights.length) ∧
        ∀ (i : Nat) (hi : i < lights.length),
          (buffer1.floats.drop (24 * i)).take 24 =
            lightRecord env lights[i] ((buffer.floats.drop (24 * i)).take 24)) := by
  refine ⟨rfl, ?_⟩
  intro hne hsize
  have hn : lights.length ≠ 0 := fun h => hne (List.length_eq_zero.1 h)
  have hbytes : NumBytesPerLight * lights.length / 4 = 24 * lights.length := by
    unfold NumBytesPerLight; omega
  have hbytes2 : NumBytesPerLight * lights.length = 96 * lights.length := by
    unfold NumBytesPerLight; omega
  have htake : (buffer.floats.take (24 * lights.length)).length = 24 * lights.length := by
    rw [List.length_take]; omega
  have hloop := writeLights_spec env (24 * lights.length) lights []
    (buffer.floats.take (24 * lights.length)) (buffer.floats.drop (24 * lights.length))
    htake (by simp)
  simp only [List.nil_append, List.length_nil, Nat.zero_add, List.take_append_drop]
    at hloop
  have hreclen := length_lightRecords env lights (buffer.floats.take (24 * lights.length))
  refine ⟨{ floats := lightRecords env lights (buffer.floats.take (24 * lights.length)) ++
              buffer.floats.drop (24 * lights.length)
            mapCalls := buffer.mapCalls ++ [(0, 96 * lights.length)]
            unmapCalls := buffer.unmapCalls ++ [UnmapOptions.UO_KEEP_PERSISTENT] },
    ?_, rfl, rfl, hloop, ?_, ?_, ?_⟩
  · unfold fillGlobalLightListBuffer
    rw [if_neg hn, if_pos (by rw [hbytes2]; omega), hbytes, hloop, hbytes2]
  · simp only [List.length_append, hreclen, List.length_drop]
    omega
  · simp only
    rw [List.drop_append_of_le_length (by rw [hreclen]), List.drop_of_length_le
      (by rw [hreclen]), List.nil_append]
  · intro i hi
    simp only
    have h1 : 24 * i + 24 ≤ (lightRecords env lights
        (buffer.floats.take (24 * lights.length))).length := by
      rw [hreclen]; omega
    rw [List.drop_append_of_le_length (by omega),
      List.take_append_of_le_length (by rw [List.length_drop]; omega),
      lightRecords_chunk env lights _ i hi]
    congr 1
    rw [List.drop_take, List.take_take]
    congr 1
    omega

/-- Witness of C9: two lights written to a buffer of 64 floats. -/
theorem fillGlobalLightListBuffer_layout_witness :
    ∃ buffer1 : TexBufferPacked,
      fillGlobalLightListBuffer toyViewEnv toyLights toyBuffer = some buffer1 ∧
      buffer1.mapCalls = toyBuffer.mapCalls ++ [(0, 96 * toyLights.length)] ∧
      buffer1.unmapCalls = toyBuffer.unmapCalls ++ [UnmapOptions.UO_KEEP_PERSISTENT] ∧
      writeLights toyViewEnv (24 * toyLights.length) toyLights ⟨toyBuffer.floats, 0⟩ =
        some ⟨buffer1.floats, 24 * toyLights.length⟩ ∧
      buffer1.floats.length = toyBuffer.floats.length ∧
      buffer1.floats.drop (24 * toyLights.length) =
        toyBuffer.floats.drop (24 * toyLights.length) ∧
      ∀ (i : Nat) (hi : i < toyLights.length),
        (buffer1.floats.drop (24 * i)).take 24 =
          lightRecord toyViewEnv toyLights[i] ((toyBuffer.floats.drop (24 * i)).take 24) :=
  (fillGlobalLightListBuffer_layout toyViewEnv toyLights toyBuffer).2
    (List.cons_ne_nil _ _) (by decide)

/-! ## The shadow maps of the node -/

/-- C14, counterexample: the node has three shadow maps; index 3 has no definition, hence
no assigned caster, and `isShadowMapIdxActive( 3 )` returns true. -/
theorem isShadowMapIdxActive_out_of_range_counterexample :
    pssmNode.mDefinition.mShadowMapTexDefinitions[3]? = none ∧
    hasAssignedCaster pssmNode 3 = false ∧
    isShadowMapIdxActive pssmNode 3 = some true := by
  decide

/-- C14, amended: for every node whose definitions name existing light slots, and every
index that has a definition, `isShadowMapIdxActive` returns true if and only if the light
slot the definition names holds a light; for every index at or beyond the number of
definitions it returns true. -/
theorem isShadowMapIdxActive_spec (node : CompositorShadowNode) (shadowMapIdx : Nat)
    (hlights : ∀ d ∈ node.mDefinition.mShadowMapTexDefinitions,
      d.light < node.mShadowMapCastingLights.length) :
    (shadowMapIdx < node.mDefinition.mShadowMapTexDefinitions.length →
      isShadowMapIdxActive node shadowMapIdx = some (hasAssignedCaster node shadowMapIdx)) ∧
    (node.mDefinition.mShadowMapTexDefinitions.length ≤ shadowMapIdx →
      isShadowMapIdxActive node shadowMapIdx = some true) := by
  constructor
  · intro hlt
    unfold isShadowMapIdxActive hasAssignedCaster
    rw [if_pos hlt, List.getElem?_eq_getElem hlt]
    simp only
    have hl := hlights _ (List.getElem_mem hlt)
    rw [List.getElem?_eq_getElem hl]
    simp only
    cases (node.mShadowMapCastingLights[(node.mDefinition.mShadowMapTexDefinitions[shadowMapIdx]).light]).light <;> rfl
  · intro hge
    unfold isShadowMapIdxActive
    rw [if_neg (by omega)]

/-- Witness of C14: map 1 of the PSSM node is active, its slot 0 holds light 100. -/
theorem isShadowMapIdxActive_spec_witness :
    isShadowMapIdxActive pssmNode 1 = some true ∧ hasAssignedCaster pssmNode 1 = true :=
  ⟨((isShadowMapIdxActive_spec pssmNode 1 (by decide)).1 (by decide)).trans (by decide),
    by decide⟩

/-- C15, the code at the failing input: one light with three PSSM splits, so three shadow
maps and one light slot. Map 1 is a PSSM map and its slot is active, and map 0 gets its
split points, yet `getPssmSplits( 1 )` returns null, because 1 is not below the number of
light slots. -/
theorem getPssmSplits_second_split_null :
    (pssmNode.mDefinition.mShadowMapTexDefinitions[1]?).map
      (fun d => d.shadowMapTechnique) = some .SHADOWMAP_PSSM ∧
    isShadowMapIdxActive pssmNode 1 = some true ∧
    getPssmSplits pssmNode 0 = .ok (some [1, 10, 40, 100]) ∧
    getPssmSplits pssmNode 1 = .ok none :=
  ⟨by decide, by decide, rfl, rfl⟩

/-! ## The contiguous list of shadow textures -/

theorem contiguousOf_extends (texs : List Nat) :
    ∀ contiguous : List Nat, contiguous <+: contiguousOf contiguous texs := by
  induction texs with
  | nil => intro c; exact List.prefix_refl c
  | cons t rest ih =>
    intro c
    rw [contiguousOf]
    split_ifs with h
    · exact (List.prefix_append c [t]).trans (ih _)
    · exact ih c

theorem contiguousOf_nodup (texs : List Nat) :
    ∀ contiguous : List Nat, contiguous.Nodup → (contiguousOf contiguous texs).Nodup := by
  induction texs with
  | nil => intro c h; exact h
  | cons t rest ih =>
    intro c hc
    rw [contiguousOf]
    split_ifs with h
    · refine ih _ ?_
      rw [List.indexOf_eq_length] at h
      exact List.Nodup.append hc (List.nodup_singleton t)
        (by simpa [List.disjoint_singleton] using h)
    · exact ih c hc

theorem mem_contiguousOf (texs : List Nat) :
    ∀ (contiguous : List Nat) (t : Nat),
      t ∈ contiguousOf contiguous texs → t ∈ contiguous ∨ t ∈ texs := by
  induction texs with
  | nil => intro c t h; exact Or.inl h
  | cons x rest ih =>
    intro c t h
    rw [contiguousOf] at h
    split_ifs at h with hx
    · rcases ih _ t h with h1 | h1
      · rcases List.mem_append.1 h1 with h2 | h2
        · exact Or.inl h2
        · rw [List.mem_singleton] at h2
          exact Or.inr (h2 ▸ List.mem_cons_self _ _)
      · exact Or.inr (List.mem_cons_of_mem _ h1)
    · rcases ih _ t h with h1 | h1
      · exact Or.inl h1
      · exact Or.inr (List.mem_cons_of_mem _ h1)

theorem getElem_opt_of_extends {α : Type} {l1 l2 : List α} (h : l1 <+: l2) (i : Nat) (a : α)
    (hi : l1[i]? = some a) : l2[i]? = some a := by
  obtain ⟨t, rfl⟩ := h
  obtain ⟨hlt, _⟩ := List.getElem?_eq_some.1 hi
  rw [List.getElem?_append_left hlt]
  exact hi

theorem contiguousIdxOf_spec (texs : List Nat) :
    ∀ contiguous : List Nat,
      List.Forall₂ (fun idx t => (contiguousOf contiguous texs)[idx]? = some t)
        (contiguousIdxOf contiguous texs) texs := by
  induction texs with
  | nil => intro c; exact List.Forall₂.nil
  | cons t rest ih =>
    intro c
    rw [contiguousOf, contiguousIdxOf]
    refine List.Forall₂.cons ?_ (ih _)
    refine getElem_opt_of_extends (contiguousOf_extends rest _) _ _ ?_
    split_ifs with h
    · rw [h, List.getElem?_append_right (le_refl _)]
      simp
    · have hlt : List.indexOf t c < c.length :=
        lt_of_le_of_ne (List.indexOf_le_length) h
      rw [List.getElem?_eq_getElem hlt, List.getElem_indexOf]

theorem rebuiltOf_spec (R : Nat → Nat → Prop) (olds : List Nat) :
    ∀ (news contiguous rebuilt : List Nat), List.Forall₂ R olds news →
      List.Forall₂ R contiguous rebuilt →
      List.Forall₂ R (contiguousOf contiguous olds)
        (rebuiltOf rebuilt (contiguousIdxOf contiguous olds) news) := by
  induction olds with
  | nil =>
    intro news c r hon hcr
    cases hon
    exact hcr
  | cons t rest ih =>
    intro news c r hon hcr
    cases hon with
    | cons hhead htail =>
      rename_i t2 news2
      rw [contiguousOf, contiguousIdxOf, rebuiltOf]
      have hlen := hcr.length_eq
      split_ifs with h1 h2 h2
      · exact ih _ _ _ htail (List.rel_append hcr (List.Forall₂.cons hhead List.Forall₂.nil))
      · exact absurd (by omega) h2
      · have hlt : List.indexOf t c < c.length :=
          lt_of_le_of_ne (List.indexOf_le_length) h1
        omega
      · exact ih _ _ _ htail hcr

theorem nodup_of_forall2 (R : Nat → Nat → Prop)
    (hinj : ∀ a b x, R a x → R b x → a = b) (l1 l2 : List Nat) (h : List.Forall₂ R l1 l2)
    (hnd : l1.Nodup) : l2.Nodup := by
  induction h with
  | nil => exact List.nodup_nil
  | cons hab htail ih =>
    rename_i a b l1 l2
    rw [List.nodup_cons] at hnd ⊢
    refine ⟨?_, ih hnd.2⟩
    intro hb
    obtain ⟨i, hi, rfl⟩ := List.getElem_of_mem hb
    have hi1 : i < l1.length := by rw [htail.length_eq]; exact hi
    have hR := List.Forall₂.get htail hi1 hi
    have := hinj _ _ _ hab hR
    exact hnd.1 (this ▸ List.getElem_mem hi1)

theorem definitionTexture_eq_some (mLocalTextures : List CompositorChannel)
    (d : ShadowTextureDefinition) (t : Nat) (h : definitionTexture mLocalTextures d = some t) :
    ∃ channel, mLocalTextures[d.textureIndex]? = some channel ∧
      channel.textures[d.mrtIndex]? = some t := by
  unfold definitionTexture at h
  cases hch : mLocalTextures[d.textureIndex]? with
  | none => rw [hch] at h; exact Option.noConfusion h
  | some channel => rw [hch] at h; exact ⟨channel, rfl, h⟩

theorem constructShadowMap_ok (H : Headers) (env : NodeEnv) (itor : ShadowTextureDefinition)
    (node : CompositorShadowNode) (refTex : Nat)
    (hsrc : itor.textureSource = .TEXTURE_LOCAL)
    (htex : definitionTexture node.mLocalTextures itor = some refTex)
    (hsetup : if itor.sharesSetupWith ≠ SIZE_MAX then
        itor.sharesSetupWith < node.mShadowMapCameras.length
      else itor.shadowMapTechnique ≠ .SHADOWMAP_PLANEOPTIMAL) :
    ∃ (node1 : CompositorShadowNode) (camera : ShadowMapCamera),
      constructShadowMap H env itor node = .ok node1 ∧
      node1.mDefinition = node.mDefinition ∧
      node1.mLocalTextures = node.mLocalTextures ∧
      node1.mShadowMapCameras = node.mShadowMapCameras ++ [camera] ∧
      camera.idxToLocalTextures = itor.textureIndex ∧
      camera.idxToContiguousTex = node.mContiguousShadowMapTex.indexOf refTex ∧
      node1.mContiguousShadowMapTex =
        (if node.mContiguousShadowMapTex.indexOf refTex = node.mContiguousShadowMapTex.length
          then node.mContiguousShadowMapTex ++ [refTex] else node.mContiguousShadowMapTex) := by
  obtain ⟨channel, hch, ht⟩ := definitionTexture_eq_some _ _ _ htex
  unfold constructShadowMap
  simp only [hsrc, ne_eq, not_true_eq_false, if_false, hch, ht]
  by_cases hshare : itor.sharesSetupWith ≠ SIZE_MAX
  · rw [if_pos hshare] at hsetup
    rw [if_pos hshare, List.getElem?_eq_getElem hsetup]
    exact ⟨_, _, rfl, rfl, rfl, rfl, rfl, rfl, rfl⟩
  · rw [if_neg hshare] at hsetup
    rw [if_neg hshare]
    cases htech : itor.shadowMapTechnique with
    | SHADOWMAP_UNIFORM => exact ⟨_, _, rfl, rfl, rfl, rfl, rfl, rfl, rfl⟩
    | SHADOWMAP_FOCUSED => exact ⟨_, _, rfl, rfl, rfl, rfl, rfl, rfl, rfl⟩
    | SHADOWMAP_PSSM => exact ⟨_, _, rfl, rfl, rfl, rfl, rfl, rfl, rfl⟩
    | SHADOWMAP_PLANEOPTIMAL => exact absurd htech hsetup


theorem constructorLoop_ok (H : Headers) (env : NodeEnv) (rest : List ShadowTextureDefinition) :
    ∀ node : CompositorShadowNode,
      (∀ p ∈ rest.enumFrom node.mShadowMapCameras.length,
        p.2.textureSource = .TEXTURE_LOCAL ∧
        (definitionTexture node.mLocalTextures p.2).isSome = true ∧
        (if p.2.sharesSetupWith ≠ SIZE_MAX then p.2.sharesSetupWith < p.1
          else p.2.shadowMapTechnique ≠ .SHADOWMAP_PLANEOPTIMAL)) →
      ∃ (node1 : CompositorShadowNode) (cameras : List ShadowMapCamera),
        constructorLoop H env rest node = .ok node1 ∧
        node1.mDefinition = node.mDefinition ∧
        node1.mLocalTextures = node.mLocalTextures ∧
        node1.mShadowMapCameras = node.mShadowMapCameras ++ cameras ∧
        cameras.map (fun c => c.idxToLocalTextures) = rest.map (fun d => d.textureIndex) ∧
        cameras.map (fun c => c.idxToContiguousTex) =
          contiguousIdxOf node.mContiguousShadowMapTex
            (rest.map (fun d => (definitionTexture node.mLocalTextures d).getD 0)) ∧
        node1.mContiguousShadowMapTex =
          contiguousOf node.mContiguousShadowMapTex
            (rest.map (fun d => (definitionTexture node.mLocalTextures d).getD 0)) := by
  induction rest with
  | nil => intro node _; exact ⟨node, [], rfl, rfl, rfl, (List.append_nil _).symm, rfl, rfl, rfl⟩
  | cons itor rest ih =>
    intro node hacc
    have hhead := hacc (node.mShadowMapCameras.length, itor) (by simp [List.enumFrom])
    obtain ⟨refTex, hrefTex⟩ := Option.isSome_iff_exists.1 hhead.2.1
    obtain ⟨node1, camera, hstep, hdef, hloc, hcams, hidx1, hidx2, hcontig⟩ :=
      constructShadowMap_ok H env itor node refTex hhead.1 hrefTex hhead.2.2
    have hlen : node1.mShadowMapCameras.length = node.mShadowMapCameras.length + 1 := by
      rw [hcams, List.length_append, List.length_singleton]
    obtain ⟨node2, cameras, hloop, hdef2, hloc2, hcams2, hidx3, hidx4, hcontig2⟩ :=
      ih node1 (by
        intro p hp
        rw [hlen] at hp
        rw [hloc]
        exact hacc p (by rw [List.enumFrom]; exact List.mem_cons_of_mem _ hp))
    refine ⟨node2, camera :: cameras, ?_, hdef2.trans hdef, hloc2.trans hloc, ?_, ?_, ?_, ?_⟩
    · rw [constructorLoop, hstep]
      exact hloop
    · rw [hcams2, hcams, List.append_assoc, List.singleton_append]
    · rw [List.map_cons, List.map_cons, hidx1, hidx3]
    · rw [List.map_cons, List.map_cons, contiguousIdxOf, hrefTex, Option.getD_some, hidx2, hidx4,
        hcontig, hloc]
    · rw [List.map_cons, contiguousOf, hrefTex, Option.getD_some, hcontig2, hcontig, hloc]

theorem rebuildContiguous_ok (mLocalTextures : List CompositorChannel)
    (defs : List ShadowTextureDefinition) :
    ∀ (cameras : List ShadowMapCamera) (contiguous : List Nat),
      cameras.map (fun c => c.idxToLocalTextures) = defs.map (fun d => d.textureIndex) →
      (∀ d ∈ defs, (definitionTexture mLocalTextures d).isSome = true) →
      rebuildContiguous mLocalTextures defs cameras contiguous =
        .ok (rebuiltOf contiguous (cameras.map (fun c => c.idxToContiguousTex))
          (defs.map (fun d => (definitionTexture mLocalTextures d).getD 0))) := by
  induction defs with
  | nil =>
    intro cameras c hidx _
    rw [List.map_nil, List.map_eq_nil_iff] at hidx
    subst hidx
    rfl
  | cons d rest ih =>
    intro cameras c hidx hsome
    cases cameras with
    | nil => exact absurd hidx (by simp)
    | cons camera cameras =>
      rw [List.map_cons, List.map_cons, List.cons.injEq] at hidx
      obtain ⟨t, ht⟩ := Option.isSome_iff_exists.1 (hsome d (List.mem_cons_self _ _))
      obtain ⟨channel, hch, htex⟩ := definitionTexture_eq_some _ _ _ ht
      have hrest := fun contiguous => ih cameras contiguous hidx.2
        (fun d hd => hsome d (List.mem_cons_of_mem _ hd))
      rw [rebuildContiguous, List.map_cons, List.map_cons, rebuiltOf, ht, Option.getD_some]
      split_ifs with hge
      · rw [hidx.1, hch]
        simp only
        rw [htex]
        exact hrest _
      · exact hrest _

theorem shadowMapTexture_eq (node : CompositorShadowNode)
    (hidx : node.mShadowMapCameras.map (fun c => c.idxToLocalTextures) =
      node.mDefinition.mShadowMapTexDefinitions.map (fun d => d.textureIndex))
    (i : Nat) (hi : i < node.mDefinition.mShadowMapTexDefinitions.length) :
    shadowMapTexture node i =
      definitionTexture node.mLocalTextures (node.mDefinition.mShadowMapTexDefinitions[i]) := by
  have hlen : node.mShadowMapCameras.length =
      node.mDefinition.mShadowMapTexDefinitions.length := by
    have := congrArg List.length hidx
    simpa using this
  have hic : i < node.mShadowMapCameras.length := by omega
  have hi1 : (node.mShadowMapCameras[i]).idxToLocalTextures =
      (node.mDefinition.mShadowMapTexDefinitions[i]).textureIndex := by
    have h1 : (node.mShadowMapCameras.map (fun c => c.idxToLocalTextures))[i]? =
        (node.mDefinition.mShadowMapTexDefinitions.map (fun d => d.textureIndex))[i]? := by
      rw [hidx]
    rw [List.getElem?_map, List.getElem?_map, List.getElem?_eq_getElem hic,
      List.getElem?_eq_getElem hi] at h1
    simpa using h1
  unfold shadowMapTexture definitionTexture
  rw [List.getElem?_eq_getElem hic, List.getElem?_eq_getElem hi]
  simp only
  rw [hi1]

theorem contiguousTexturesExact_of (node : CompositorShadowNode)
    (hidx : node.mShadowMapCameras.map (fun c => c.idxToLocalTextures) =
      node.mDefinition.mShadowMapTexDefinitions.map (fun d => d.textureIndex))
    (hsome : ∀ d ∈ node.mDefinition.mShadowMapTexDefinitions,
      (definitionTexture node.mLocalTextures d).isSome = true)
    (hnd : node.mContiguousShadowMapTex.Nodup)
    (hmem : ∀ t ∈ node.mContiguousShadowMapTex,
      ∃ d ∈ node.mDefinition.mShadowMapTexDefinitions,
        definitionTexture node.mLocalTextures d = some t)
    (hget : List.Forall₂ (fun idx t => node.mContiguousShadowMapTex[idx]? = some t)
      (node.mShadowMapCameras.map (fun c => c.idxToContiguousTex))
      (node.mDefinition.mShadowMapTexDefinitions.map
        (fun d => (definitionTexture node.mLocalTextures d).getD 0))) :
    ContiguousTexturesExact node := by
  refine ⟨hnd, ?_, ?_⟩
  · intro t ht
    obtain ⟨d, hd, hdt⟩ := hmem t ht
    obtain ⟨i, hi, rfl⟩ := List.getElem_of_mem hd
    exact ⟨i, by rw [shadowMapTexture_eq node hidx i hi, hdt]⟩
  · intro i hi
    have hlen : node.mShadowMapCameras.length =
        node.mDefinition.mShadowMapTexDefinitions.length := by
      have := congrArg List.length hidx
      simpa using this
    have hic : i < node.mShadowMapCameras.length := by omega
    obtain ⟨t, ht⟩ := Option.isSome_iff_exists.1 (hsome _ (List.getElem_mem hi))
    refine ⟨t, by rw [shadowMapTexture_eq node hidx i hi, ht], ?_⟩
    have h := List.Forall₂.get hget (by rw [List.length_map]; exact hic)
      (by rw [List.length_map]; exact hi)
    simp only [List.get_eq_getElem, List.getElem_map] at h
    rw [ht, Option.getD_some] at h
    unfold contiguousTexture getIndexToContiguousShadowMapTex
    rw [List.getElem?_eq_getElem hic]
    exact h

theorem forall2_map_same {α : Type} (R : Nat → Nat → Prop) (f g : α → Nat) (l : List α)
    (h : ∀ a ∈ l, R (f a) (g a)) : List.Forall₂ R (l.map f) (l.map g) := by
  induction l with
  | nil => exact List.Forall₂.nil
  | cons a rest ih =>
    exact List.Forall₂.cons (h a (List.mem_cons_self _ _))
      (ih (fun b hb => h b (List.mem_cons_of_mem _ hb)))

/-- After the constructor, the contiguous list is exact. -/
theorem newCompositorShadowNode_ok (H : Headers) (env : NodeEnv)
    (definition : CompositorShadowNodeDef) (mLocalTextures : List CompositorChannel)
    (hdef : acceptedDefinitions definition mLocalTextures) :
    ∃ node, newCompositorShadowNode H env definition mLocalTextures = .ok node ∧
      node.mDefinition = definition ∧ node.mLocalTextures = mLocalTextures ∧
      node.mShadowMapCameras.map (fun c => c.idxToLocalTextures) =
        definition.mShadowMapTexDefinitions.map (fun d => d.textureIndex) ∧
      node.mShadowMapCameras.map (fun c => c.idxToContiguousTex) =
        contiguousIdxOf [] (definition.mShadowMapTexDefinitions.map
          (fun d => (definitionTexture mLocalTextures d).getD 0)) ∧
      node.mContiguousShadowMapTex =
        contiguousOf [] (definition.mShadowMapTexDefinitions.map
          (fun d => (definitionTexture mLocalTextures d).getD 0)) := by
  have hloop := constructorLoop_ok H env definition.mShadowMapTexDefinitions
    { mDefinition := definition
      mLastCamera := none
      mLastFrame := SIZE_MAX
      mShadowMapCastingLights := []
      mAffectedLights := []
      mNumActiveShadowMapCastingLights := 0
      mTmpSortedIndexes := []
      mCastersBox := ⟨(0, 0, 0), (0, 0, 0)⟩
      mShadowMapCameras := []
      mLocalTextures := mLocalTextures } hdef
  obtain ⟨node1, cameras, hrun, h1, h2, h3, h4, h5, h6⟩ := hloop
  have hnode : newCompositorShadowNode H env definition mLocalTextures =
      .ok { node1 with
            mShadowMapCastingLights :=
              vectorResize [] definition.mNumLights LightClosest.blank } := by
    unfold newCompositorShadowNode
    rw [hrun]
  refine ⟨_, hnode, h1, h2, ?_, ?_, h6⟩
  · show node1.mShadowMapCameras.map _ = _
    rw [h3]
    exact h4
  · show node1.mShadowMapCameras.map _ = _
    rw [h3]
    exact h5

theorem acceptedDefinitions_isSome (definition : CompositorShadowNodeDef)
    (mLocalTextures : List CompositorChannel)
    (hdef : acceptedDefinitions definition mLocalTextures) :
    ∀ d ∈ definition.mShadowMapTexDefinitions,
      (definitionTexture mLocalTextures d).isSome = true := by
  intro d hd
  obtain ⟨i, hi, rfl⟩ := List.getElem_of_mem hd
  exact (hdef (i, definition.mShadowMapTexDefinitions[i])
    (List.mem_enum_iff_getElem?.2 (List.getElem?_eq_getElem hi))).2.1

theorem constructed_exact (node : CompositorShadowNode)
    (mLocalTextures : List CompositorChannel)
    (hloc : node.mLocalTextures = mLocalTextures)
    (hsome : ∀ d ∈ node.mDefinition.mShadowMapTexDefinitions,
      (definitionTexture mLocalTextures d).isSome = true)
    (hidx : node.mShadowMapCameras.map (fun c => c.idxToLocalTextures) =
      node.mDefinition.mShadowMapTexDefinitions.map (fun d => d.textureIndex))
    (hcidx : node.mShadowMapCameras.map (fun c => c.idxToContiguousTex) =
      contiguousIdxOf [] (node.mDefinition.mShadowMapTexDefinitions.map
        (fun d => (definitionTexture mLocalTextures d).getD 0)))
    (hcontig : node.mContiguousShadowMapTex =
      contiguousOf [] (node.mDefinition.mShadowMapTexDefinitions.map
        (fun d => (definitionTexture mLocalTextures d).getD 0))) :
    ContiguousTexturesExact node := by
  subst hloc
  refine contiguousTexturesExact_of node hidx hsome ?_ ?_ ?_
  · rw [hcontig]
    exact contiguousOf_nodup _ _ List.nodup_nil
  · intro t ht
    rw [hcontig] at ht
    rcases mem_contiguousOf _ _ _ ht with h | h
    · exact absurd h (List.not_mem_nil _)
    · obtain ⟨d, hd, rfl⟩ := List.mem_map.1 h
      obtain ⟨t, ht2⟩ := Option.isSome_iff_exists.1 (hsome d hd)
      exact ⟨d, hd, by rw [ht2]; rfl⟩
  · rw [hcidx, hcontig]
    exact contiguousIdxOf_spec _ _

theorem forall2_getElem_opt {R : Nat → Nat → Prop} {l1 l2 : List Nat}
    (h : List.Forall₂ R l1 l2) :
    ∀ (i a : Nat), l1[i]? = some a → ∃ b, l2[i]? = some b ∧ R a b := by
  induction h with
  | nil => intro i a hi; simp at hi
  | cons hab _ ih =>
    intro i a hi
    cases i with
    | zero =>
      simp only [List.getElem?_cons_zero, Option.some.injEq] at hi
      subst hi
      exact ⟨_, List.getElem?_cons_zero, hab⟩
    | succ i =>
      rw [List.getElem?_cons_succ] at hi ⊢
      exact ih i a hi

theorem rebuilt_getElem_opt (R : Nat → Nat → Prop)
    (hfun : ∀ a x y, R a x → R a y → x = y) (idxs olds news contiguous rebuilt : List Nat)
    (hspec : List.Forall₂ (fun idx t => contiguous[idx]? = some t) idxs olds)
    (hrel : List.Forall₂ R contiguous rebuilt) (hon : List.Forall₂ R olds news) :
    List.Forall₂ (fun idx t => rebuilt[idx]? = some t) idxs news := by
  induction hspec generalizing news with
  | nil => cases hon; exact List.Forall₂.nil
  | cons hhead _ ih =>
    cases hon with
    | cons hR htail =>
      refine List.Forall₂.cons ?_ (ih _ htail)
      obtain ⟨x, hx, hRx⟩ := forall2_getElem_opt hrel _ _ hhead
      rw [hx, hfun _ _ _ hRx hR]

theorem resized_exact (node : CompositorShadowNode)
    (mLocalTextures resizedTextures : List CompositorChannel)
    (hsome : ∀ d ∈ node.mDefinition.mShadowMapTexDefinitions,
      (definitionTexture mLocalTextures d).isSome = true)
    (hidx : node.mShadowMapCameras.map (fun c => c.idxToLocalTextures) =
      node.mDefinition.mShadowMapTexDefinitions.map (fun d => d.textureIndex))
    (hcidx : node.mShadowMapCameras.map (fun c => c.idxToContiguousTex) =
      contiguousIdxOf [] (node.mDefinition.mShadowMapTexDefinitions.map
        (fun d => (definitionTexture mLocalTextures d).getD 0)))
    (halias : sameAliasing node.mDefinition mLocalTextures resizedTextures) :
    ∃ node1, finalTargetResized node resizedTextures = .ok node1 ∧
      node1.mDefinition = node.mDefinition ∧
      node1.mShadowMapCameras = node.mShadowMapCameras ∧
      node1.mLocalTextures = resizedTextures ∧
      ContiguousTexturesExact node1 := by
  have hrun := rebuildContiguous_ok resizedTextures node.mDefinition.mShadowMapTexDefinitions
    node.mShadowMapCameras [] hidx halias.1
  have hfin : finalTargetResized node resizedTextures =
      .ok { node with
            mLocalTextures := resizedTextures
            mContiguousShadowMapTex :=
              rebuiltOf [] (node.mShadowMapCameras.map (fun c => c.idxToContiguousTex))
                (node.mDefinition.mShadowMapTexDefinitions.map
                  (fun d => (definitionTexture resizedTextures d).getD 0)) } := by
    unfold finalTargetResized
    rw [hrun]
  refine ⟨_, hfin, rfl, rfl, rfl, ?_⟩
  -- the relation between a texture before the resize and the texture that replaces it
  have hrel := rebuiltOf_spec
    (fun a b => ∃ d ∈ node.mDefinition.mShadowMapTexDefinitions,
      definitionTexture mLocalTextures d = some a ∧
      definitionTexture resizedTextures d = some b)
    (node.mDefinition.mShadowMapTexDefinitions.map
      (fun d => (definitionTexture mLocalTextures d).getD 0))
    (node.mDefinition.mShadowMapTexDefinitions.map
      (fun d => (definitionTexture resizedTextures d).getD 0)) [] []
    (forall2_map_same _ _ _ _ (by
      intro d hd
      obtain ⟨a, ha⟩ := Option.isSome_iff_exists.1 (hsome d hd)
      obtain ⟨b, hb⟩ := Option.isSome_iff_exists.1 (halias.1 d hd)
      exact ⟨d, hd, by rw [ha]; rfl, by rw [hb]; rfl⟩))
    List.Forall₂.nil
  rw [← hcidx] at hrel
  have hspec := contiguousIdxOf_spec
    (node.mDefinition.mShadowMapTexDefinitions.map
      (fun d => (definitionTexture mLocalTextures d).getD 0)) []
  rw [← hcidx] at hspec
  refine contiguousTexturesExact_of _ hidx halias.1 ?_ ?_ ?_
  · refine nodup_of_forall2 _ ?_ _ _ hrel (contiguousOf_nodup _ _ List.nodup_nil)
    rintro a b x ⟨d1, hd1, ha, hx1⟩ ⟨d2, hd2, hb, hx2⟩
    have := (halias.2 d1 hd1 d2 hd2).1 (hx1.trans hx2.symm)
    rw [ha, hb] at this
    exact Option.some.inj this
  · intro t ht
    obtain ⟨i, hi, rfl⟩ := List.getElem_of_mem ht
    have hi1 : i < (contiguousOf [] (node.mDefinition.mShadowMapTexDefinitions.map
        (fun d => (definitionTexture mLocalTextures d).getD 0))).length := by
      rw [hrel.length_eq]; exact hi
    obtain ⟨d, hd, _, hb⟩ := List.Forall₂.get hrel hi1 hi
    exact ⟨d, hd, hb⟩
  · refine rebuilt_getElem_opt _ ?_ _ _ _ _ _ hspec hrel
      (forall2_map_same _ _ _ _ (by
        intro d hd
        obtain ⟨a, ha⟩ := Option.isSome_iff_exists.1 (hsome d hd)
        obtain ⟨b, hb⟩ := Option.isSome_iff_exists.1 (halias.1 d hd)
        exact ⟨d, hd, by rw [ha]; rfl, by rw [hb]; rfl⟩))
    rintro a x y ⟨d1, hd1, ha, hx⟩ ⟨d2, hd2, hb, hy⟩
    have := (halias.2 d1 hd1 d2 hd2).2 (ha.trans hb.symm)
    rw [hx, hy] at this
    exact Option.some.inj this

theorem finalTargetResizedAll_exact (mLocalTextures : List CompositorChannel)
    (resizes : List (List CompositorChannel)) :
    ∀ node : CompositorShadowNode,
      (∀ d ∈ node.mDefinition.mShadowMapTexDefinitions,
        (definitionTexture mLocalTextures d).isSome = true) →
      node.mShadowMapCameras.map (fun c => c.idxToLocalTextures) =
        node.mDefinition.mShadowMapTexDefinitions.map (fun d => d.textureIndex) →
      node.mShadowMapCameras.map (fun c => c.idxToContiguousTex) =
        contiguousIdxOf [] (node.mDefinition.mShadowMapTexDefinitions.map
          (fun d => (definitionTexture mLocalTextures d).getD 0)) →
      ContiguousTexturesExact node →
      (∀ resizedTextures ∈ resizes,
        sameAliasing node.mDefinition mLocalTextures resizedTextures) →
      ∃ node1, finalTargetResizedAll node resizes = .ok node1 ∧
        node1.mShadowMapCameras = node.mShadowMapCameras ∧
        node1.mLocalTextures = (resizes.getLast?).getD node.mLocalTextures ∧
        ContiguousTexturesExact node1 := by
  induction resizes with
  | nil => intro node _ _ _ hexact _; exact ⟨node, rfl, rfl, rfl, hexact⟩
  | cons resizedTextures rest ih =>
    intro node hsome hidx hcidx _ halias
    obtain ⟨node1, hrun, hdef1, hcams1, hloc1, hexact1⟩ :=
      resized_exact node mLocalTextures resizedTextures hsome hidx hcidx
        (halias resizedTextures (List.mem_cons_self _ _))
    obtain ⟨node2, hrun2, hcams2, hloc2, hexact2⟩ :=
      ih node1 (by rw [hdef1]; exact hsome) (by rw [hdef1, hcams1]; exact hidx)
        (by rw [hdef1, hcams1]; exact hcidx) hexact1
        (by
          intro r hr
          rw [hdef1]
          exact halias r (List.mem_cons_of_mem _ hr))
    refine ⟨node2, ?_, hcams2.trans hcams1, ?_, hexact2⟩
    · rw [finalTargetResizedAll, hrun]
      exact hrun2
    · rw [hloc2, hloc1]
      cases rest <;> rfl

/-- C16: for every list of shadow-map definitions the constructor accepts (definitions
may name the same texture and MRT index, and different local textures may be one
texture): after construction, and after every sequence of `finalTargetResized` calls
whose textures keep the aliasing pattern of the definitions, `mContiguousShadowMapTex` has
no texture twice, holds only textures of shadow maps, and for every shadow map `i` its
entry at `idxToContiguousTex(i)` is `mLocalTextures[idxToLocalTextures(i)]
.textures[mrtIndex(i)]`; the cameras, hence the indices assigned at construction, are
unchanged by the resizes. -/
theorem mContiguousShadowMapTex_exact (H : Headers) (env : NodeEnv)
    (definition : CompositorShadowNodeDef) (mLocalTextures : List CompositorChannel)
    (resizes : List (List CompositorChannel))
    (hdef : acceptedDefinitions definition mLocalTextures)
    (hres : ∀ resizedTextures ∈ resizes,
      sameAliasing definition mLocalTextures resizedTextures) :
    ∃ node, newCompositorShadowNode H env definition mLocalTextures = .ok node ∧
      ContiguousTexturesExact node ∧
      ∃ node1, finalTargetResizedAll node resizes = .ok node1 ∧
        node1.mShadowMapCameras = node.mShadowMapCameras ∧
        node1.mLocalTextures = (resizes.getLast?).getD mLocalTextures ∧
        ContiguousTexturesExact node1 := by
  obtain ⟨node, hnew, hd, hloc, hidx, hcidx, hcontig⟩ :=
    newCompositorShadowNode_ok H env definition mLocalTextures hdef
  have hsome := acceptedDefinitions_isSome definition mLocalTextures hdef
  rw [← hd] at hsome hidx hcidx hcontig hres
  have hexact := constructed_exact node mLocalTextures hloc hsome hidx hcidx hcontig
  obtain ⟨node1, hrun, hcams, hloc1, hexact1⟩ :=
    finalTargetResizedAll_exact mLocalTextures resizes node hsome hidx hcidx hexact hres
  rw [hloc] at hloc1
  exact ⟨node, hnew, hexact, node1, hrun, hcams, hloc1, hexact1⟩

/-- Witness of C16: four shadow maps on three textures (maps 0 and 2 share one), built
and resized once to new textures. -/
theorem mContiguousShadowMapTex_exact_witness :
    ∃ node, newCompositorShadowNode stdHeaders toyNodeEnv atlasDefinition atlasTextures =
        .ok node ∧
      ContiguousTexturesExact node ∧
      ∃ node1, finalTargetResizedAll node [atlasTexturesResized] = .ok node1 ∧
        node1.mShadowMapCameras = node.mShadowMapCameras ∧
        node1.mLocalTextures = atlasTexturesResized ∧
        ContiguousTexturesExact node1 :=
  mContiguousShadowMapTex_exact stdHeaders toyNodeEnv atlasDefinition atlasTextures
    [atlasTexturesResized] (by decide) (by decide)

/-- C17, the code at the failing inputs (debug build). A node that declares no shadow
maps, asked for the lights from 0 on: `shadowMapStart` is 0, the number of definitions is
0, and the assertion `shadowMapStart < mShadowMapTexDefinitions.size()` fails. A node with
one light slot and one shadow map, asked for the lights from 1 on (the second light
iteration): `shadowMapStart` is 1 and the same assertion fails. From 0 on, the same node
binds its shadow map to the first unit and the null texture to the second. -/
theorem setShadowMapsToPass_assertion_fails :
    setShadowMapsToPass noShadowMapsNode (threeLightsPass 1 2) 0 = .error .assertionFailed ∧
    setShadowMapsToPass oneMapNode (threeLightsPass 1 2) 1 = .error .assertionFailed ∧
    (setShadowMapsToPass oneMapNode (threeLightsPass 1 2) 0).map (fun r => r.2) =
      .ok [⟨20, some 50⟩, ⟨99, none⟩] :=
  ⟨rfl, rfl, rfl⟩

/-- C18, the code at the failing input: one light slot holding light 100, a renderable
lit by the lights 100, 101 and 102, one light per pass. The pass from 0 on gets light
100; the pass from 1 on gets light 102, while the window `[1, 2)` of the sequence 100,
101, 102 is light 101, which no pass gets. -/
theorem setShadowMapsToPass_skips_light :
    (setShadowMapsToPass pssmNode (threeLightsPass 1 0) 0).map
      (fun r => r.1.mCurrentLightList) = .ok [⟨some ⟨100, 0⟩, 0, 5⟩] ∧
    (setShadowMapsToPass pssmNode (threeLightsPass 1 0) 1).map
      (fun r => r.1.mCurrentLightList) = .ok [⟨some ⟨102, 1⟩, 2, 7⟩] ∧
    lightWindow pssmNode (threeLightsPass 1 0) 1 = [⟨some ⟨101, 1⟩, 1, 6⟩] ∧
    (setShadowMapsToPass pssmNode (threeLightsPass 1 0) 2).map
      (fun r => r.1.mCurrentLightList) = .ok [] :=
  ⟨rfl, rfl, by decide, rfl⟩

/-! ## Destroying a probe -/

/-- C19: for every vector of probes and every probe pointer, with any helper that removes
the element at the iterator and keeps the others in some order: if the probe is not in
`mProbes` the call raises `ERR_INVALIDPARAMS`, deletes nothing and leaves `mProbes` as it
is; if it is in `mProbes` the call returns, deletes that probe, and `mProbes` holds all
its elements but one occurrence of the probe, so it is one element shorter. -/
theorem destroyProbe_spec (efficientVectorRemove : List Nat → Nat → List Nat)
    (hremove : ∀ (container : List Nat) (idx : Nat), idx < container.length →
      List.Perm (efficientVectorRemove container idx) (container.eraseIdx idx))
    (mProbes : List Nat) (probe : Nat) :
    (probe ∉ mProbes →
      destroyProbe efficientVectorRemove mProbes probe =
        { exception := some .ERR_INVALIDPARAMS, mProbes := mProbes, deleted := [] }) ∧
    (probe ∈ mProbes →
      (destroyProbe efficientVectorRemove mProbes probe).exception = none ∧
      (destroyProbe efficientVectorRemove mProbes probe).deleted = [probe] ∧
      List.Perm (destroyProbe efficientVectorRemove mProbes probe).mProbes
        (mProbes.erase probe) ∧
      (destroyProbe efficientVectorRemove mProbes probe).mProbes.length + 1 =
        mProbes.length) := by
  constructor
  · intro hnot
    have h : ¬ mProbes.indexOf probe < mProbes.length := by
      rw [List.indexOf_lt_length]
      exact hnot
    unfold destroyProbe
    simp only [dif_neg h]
  · intro hmem
    have h : mProbes.indexOf probe < mProbes.length := List.indexOf_lt_length.2 hmem
    have hperm := hremove mProbes _ h
    rw [List.eraseIdx_indexOf_eq_erase] at hperm
    unfold destroyProbe
    simp only [dif_pos h]
    refine ⟨trivial, ?_, hperm, ?_⟩
    · rw [List.getElem_indexOf]
    · rw [hperm.length_eq, List.length_erase_of_mem hmem]
      have : 0 < mProbes.length := List.length_pos_of_mem hmem
      omega

theorem set_perm_eraseIdx (x : Nat) (l : List Nat) :
    ∀ i, i < l.length → List.Perm (l.set i x) (x :: l.eraseIdx i) := by
  induction l with
  | nil => intro i hi; exact absurd hi (Nat.not_lt_zero _)
  | cons a rest ih =>
    intro i hi
    cases i with
    | zero => exact List.Perm.refl _
    | succ i =>
      rw [List.set_cons_succ, List.eraseIdx_cons_succ]
      exact ((ih i (Nat.lt_of_succ_lt_succ hi)).cons a).trans (List.Perm.swap x a _)

theorem moveLastRemove_perm (container : List Nat) (idx : Nat) (h : idx < container.length) :
    List.Perm (moveLastRemove container idx) (container.eraseIdx idx) := by
  rcases List.eq_nil_or_concat container with rfl | ⟨init, last, rfl⟩
  · exact absurd h (Nat.not_lt_zero _)
  · unfold moveLastRemove
    rw [List.concat_eq_append] at h ⊢
    rw [List.length_append, List.length_singleton] at h
    have hlast : (init ++ [last]).getLastD 0 = last := by simp
    rw [hlast]
    by_cases hi : idx < init.length
    · rw [List.set_append_left _ _ hi, List.dropLast_concat,
        List.eraseIdx_append_of_lt_length hi]
      exact (set_perm_eraseIdx last init idx hi).trans
        (List.perm_append_singleton last _).symm
    · have hidx : idx = init.length := by omega
      subst hidx
      rw [List.set_append_right _ _ (le_refl _), Nat.sub_self, List.set_cons_zero,
        List.dropLast_concat, List.eraseIdx_append_of_length_le (le_refl _), Nat.sub_self,
        List.eraseIdx_cons_zero, List.append_nil]

/-- Witness of C19: with the removal that moves the last element to the freed place,
destroying probe 11 of `[10, 11, 12, 13]` leaves `[10, 13, 12]`, and destroying probe 14
raises the exception and leaves the four probes. -/
theorem destroyProbe_spec_witness :
    destroyProbe moveLastRemove [10, 11, 12, 13] 11 = ⟨none, [10, 13, 12], [11]⟩ ∧
    destroyProbe moveLastRemove [10, 11, 12, 13] 14 =
      ⟨some .ERR_INVALIDPARAMS, [10, 11, 12, 13], []⟩ ∧
    List.Perm (destroyProbe moveLastRemove [10, 11, 12, 13] 11).mProbes
      ([10, 11, 12, 13].erase 11) :=
  ⟨by decide, by decide,
    ((destroyProbe_spec moveLastRemove moveLastRemove_perm [10, 11, 12, 13] 11).2
      (by decide)).2.2.1⟩

/-! ## The ring of frames of a dynamic buffer -/

theorem advanceFrame_eval (M : Nat) (mBuffer : BufferPacked) (k : Nat)
    (hn : 0 < mBuffer.mNumElements) (hM : 0 < M) (hk : k < M)
    (hfinal : mBuffer.mFinalBufferStart =
      mBuffer.mInternalBufferStart + k * mBuffer.mNumElements)
    (hfit : mBuffer.mInternalBufferStart + M * mBuffer.mNumElements ≤ SIZE_MAX) :
    advanceFrame M mBuffer true =
      some ((k + 1) % M,
        { mBuffer with
          mFinalBufferStart :=
            mBuffer.mInternalBufferStart + ((k + 1) % M) * mBuffer.mNumElements }) ∧
    advanceFrame M mBuffer false = some (k, mBuffer) := by
  have hkn : k * mBuffer.mNumElements ≤ M * mBuffer.mNumElements :=
    Nat.mul_le_mul_right _ (le_of_lt hk)
  have hk1 : (k + 1) % M < M := Nat.mod_lt _ hM
  have hk1n : ((k + 1) % M) * mBuffer.mNumElements ≤ M * mBuffer.mNumElements :=
    Nat.mul_le_mul_right _ (le_of_lt hk1)
  have hMn : M ≤ M * mBuffer.mNumElements := Nat.le_mul_of_pos_right _ hn
  have hsub : (mBuffer.mFinalBufferStart + (SIZE_MAX + 1) - mBuffer.mInternalBufferStart) %
      (SIZE_MAX + 1) = k * mBuffer.mNumElements := by
    rw [hfinal]
    have : mBuffer.mInternalBufferStart + k * mBuffer.mNumElements + (SIZE_MAX + 1) -
        mBuffer.mInternalBufferStart = k * mBuffer.mNumElements + (SIZE_MAX + 1) := by omega
    rw [this, Nat.add_mod_right]
    exact Nat.mod_eq_of_lt (by omega)
  have hframe : (mBuffer.mFinalBufferStart + (SIZE_MAX + 1) - mBuffer.mInternalBufferStart) %
      (SIZE_MAX + 1) / mBuffer.mNumElements = k := by
    rw [hsub]
    exact Nat.mul_div_cancel _ hn
  have hsucc : (k + 1) % (SIZE_MAX + 1) = k + 1 := Nat.mod_eq_of_lt (by omega)
  unfold advanceFrame
  simp only [if_neg (Nat.pos_iff_ne_zero.1 hn), if_neg (Nat.pos_iff_ne_zero.1 hM), hframe,
    hsucc, if_true, Bool.false_eq_true, if_false]
  constructor
  · rw [Nat.mod_eq_of_lt (show mBuffer.mInternalBufferStart +
        (k + 1) % M * mBuffer.mNumElements < SIZE_MAX + 1 by omega)]
  · rw [Nat.mod_eq_of_lt (show mBuffer.mInternalBufferStart +
        k * mBuffer.mNumElements < SIZE_MAX + 1 by omega), ← hfinal]

theorem advanceFrames_eval (M : Nat) (hM : 0 < M) (count : Nat) :
    ∀ (mBuffer : BufferPacked) (k : Nat), 0 < mBuffer.mNumElements → k < M →
      mBuffer.mFinalBufferStart = mBuffer.mInternalBufferStart + k * mBuffer.mNumElements →
      mBuffer.mInternalBufferStart + M * mBuffer.mNumElements ≤ SIZE_MAX →
      advanceFrames M count mBuffer =
        some { mBuffer with
               mFinalBufferStart :=
                 mBuffer.mInternalBufferStart + ((k + count) % M) * mBuffer.mNumElements } := by
  induction count with
  | zero =>
    intro mBuffer k _ hk hfinal _
    rw [advanceFrames, Nat.add_zero, Nat.mod_eq_of_lt hk, ← hfinal]
  | succ count ih =>
    intro mBuffer k hn hk hfinal hfit
    rw [advanceFrames, (advanceFrame_eval M mBuffer k hn hM hk hfinal hfit).1]
    simp only
    have hstep := ih
      { mBuffer with
        mFinalBufferStart :=
          mBuffer.mInternalBufferStart + ((k + 1) % M) * mBuffer.mNumElements }
      ((k + 1) % M) hn (Nat.mod_lt _ hM) rfl hfit
    rw [hstep]
    simp only [Nat.mod_add_mod]
    rw [show k + 1 + count = k + (count + 1) by omega]

/-- C20: for every buffer with `mNumElements > 0`, multiplier `M > 0` and
`mFinalBufferStart = mInternalBufferStart + k * mNumElements` with `k < M`, whose `M`
frames lie within the range of `size_t`: `advanceFrame( true )` returns `(k + 1) mod M`
and stores `mInternalBufferStart + ((k + 1) mod M) * mNumElements`; `advanceFrame( false )`
returns `k` and leaves the buffer as it is; the returned frame is below `M`; and `M`
advances in a row bring the buffer back to where it started. -/
theorem advanceFrame_ring (M : Nat) (mBuffer : BufferPacked) (k : Nat)
    (hn : 0 < mBuffer.mNumElements) (hM : 0 < M) (hk : k < M)
    (hfinal : mBuffer.mFinalBufferStart =
      mBuffer.mInternalBufferStart + k * mBuffer.mNumElements)
    (hfit : mBuffer.mInternalBufferStart + M * mBuffer.mNumElements ≤ SIZE_MAX) :
    advanceFrame M mBuffer true =
      some ((k + 1) % M,
        { mBuffer with
          mFinalBufferStart :=
            mBuffer.mInternalBufferStart + ((k + 1) % M) * mBuffer.mNumElements }) ∧
    advanceFrame M mBuffer false = some (k, mBuffer) ∧
    (k + 1) % M < M ∧
    advanceFrames M M mBuffer = some mBuffer := by
  refine ⟨(advanceFrame_eval M mBuffer k hn hM hk hfinal hfit).1,
    (advanceFrame_eval M mBuffer k hn hM hk hfinal hfit).2, Nat.mod_lt _ hM, ?_⟩
  rw [advanceFrames_eval M hM M mBuffer k hn hk hfinal hfit, Nat.add_mod_right,
    Nat.mod_eq_of_lt hk, ← hfinal]

/-- Witness of C20: a triple-buffered buffer in its last frame wraps around to frame 0. -/
theorem advanceFrame_ring_witness :
    advanceFrame 3 (ringBuffer 2) true = some (0, ringBuffer 0) ∧
    advanceFrame 3 (ringBuffer 2) false = some (2, ringBuffer 2) ∧
    advanceFrames 3 3 (ringBuffer 2) = some (ringBuffer 2) :=
  ⟨(advanceFrame_ring 3 (ringBuffer 2) 2 (by decide) (by decide) (by decide) rfl
      (by decide)).1,
    (advanceFrame_ring 3 (ringBuffer 2) 2 (by decide) (by decide) (by decide) rfl
      (by decide)).2.1,
    (advanceFrame_ring 3 (ringBuffer 2) 2 (by decide) (by decide) (by decide) rfl
      (by decide)).2.2.2⟩

/-! ## Mapping a dynamic buffer -/

theorem advanceFrame_frame (M : Nat) (mBuffer : BufferPacked) (k : Nat) (advance : Bool)
    (hn : 0 < mBuffer.mNumElements) (hM : 0 < M) (hk : k < M)
    (hfinal : mBuffer.mFinalBufferStart =
      mBuffer.mInternalBufferStart + k * mBuffer.mNumElements)
    (hfit : mBuffer.mInternalBufferStart + M * mBuffer.mNumElements ≤ SIZE_MAX) :
    advanceFrame M mBuffer advance =
      some (if advance = true then (k + 1) % M else k,
        { mBuffer with
          mFinalBufferStart :=
            mBuffer.mInternalBufferStart +
              (if advance = true then (k + 1) % M else k) * mBuffer.mNumElements }) := by
  cases advance with
  | true => exact (advanceFrame_eval M mBuffer k hn hM hk hfinal hfit).1
  | false =>
    rw [(advanceFrame_eval M mBuffer k hn hM hk hfinal hfit).2]
    simp only [Bool.false_eq_true, if_false]
    rw [← hfinal]

/-- C21: for every buffer with `mFinalBufferStart = mInternalBufferStart + k0 *
mNumElements`, `k0 < M`, whose `M` frames of `bytesPerElement`-byte elements lie within
the range of `size_t`, and every request with `elementStart + elementCount ≤
mNumElements`; `k` is the frame `advanceFrame` returns. Without persistent mapping, `map`
maps exactly the bytes of the elements `[mInternalBufferStart + elementStart + k *
mNumElements, + elementCount)` and returns a pointer to the first of them. With
persistent mapping, coming from the unmapped state it maps the bytes of the whole region
`[mInternalBufferStart, + mNumElements * M)`, and already mapped it maps nothing; it
returns the mapped base advanced by `(elementStart + k * mNumElements) * bytesPerElement`,
which for the base of the whole region points at the same byte as without persistent
mapping. The elements lie inside frame `k` and inside the region of the buffer. -/
theorem map_addresses_frame (M : Nat) (canPersistentMap : Bool)
    (self : GL3PlusBufferInterface) (elementStart elementCount k0 k : Nat)
    (prevMappingState : MappingState) (bAdvanceFrame : Bool)
    (hn : 0 < self.mBuffer.mNumElements) (hM : 0 < M) (hk : k0 < M)
    (hfinal : self.mBuffer.mFinalBufferStart =
      self.mBuffer.mInternalBufferStart + k0 * self.mBuffer.mNumElements)
    (hframe : k = if bAdvanceFrame = true then (k0 + 1) % M else k0)
    (hbytes : 0 < self.mBuffer.mBytesPerElement)
    (hfit : (self.mBuffer.mInternalBufferStart + M * self.mBuffer.mNumElements) *
      self.mBuffer.mBytesPerElement ≤ SIZE_MAX)
    (hreq : elementStart + elementCount ≤ self.mBuffer.mNumElements) :
    k < M ∧
    (advanceFrame M self.mBuffer bAdvanceFrame).map (fun r => r.1) = some k ∧
    (¬ (self.mBuffer.mMappingState.toNat ≥ MappingState.MS_PERSISTENT_INCOHERENT.toNat ∧
          canPersistentMap = true) →
      (prevMappingState = .MS_UNMAPPED ∨ canPersistentMap = false) →
      (self.map M canPersistentMap elementStart elementCount prevMappingState
          bAdvanceFrame).map (fun r => (r.glCalls, r.retVal)) =
        some ([{ offset := (self.mBuffer.mInternalBufferStart + elementStart +
                   k * self.mBuffer.mNumElements) * self.mBuffer.mBytesPerElement
                 length := elementCount * self.mBuffer.mBytesPerElement
                 persistentBit := false, coherentBit := false }],
          some ((self.mBuffer.mInternalBufferStart + elementStart +
            k * self.mBuffer.mNumElements) * self.mBuffer.mBytesPerElement))) ∧
    (self.mBuffer.mMappingState.toNat ≥ MappingState.MS_PERSISTENT_INCOHERENT.toNat →
      canPersistentMap = true → prevMappingState = .MS_UNMAPPED →
      (self.map M canPersistentMap elementStart elementCount prevMappingState
          bAdvanceFrame).map (fun r => (r.glCalls, r.interface.mMappedPtr, r.retVal)) =
        some ([{ offset := self.mBuffer.mInternalBufferStart * self.mBuffer.mBytesPerElement
                 length := self.mBuffer.mNumElements * M * self.mBuffer.mBytesPerElement
                 persistentBit := true
                 coherentBit :=
                   decide (self.mBuffer.mMappingState = .MS_PERSISTENT_COHERENT) }],
          some (self.mBuffer.mInternalBufferStart * self.mBuffer.mBytesPerElement),
          some (self.mBuffer.mInternalBufferStart * self.mBuffer.mBytesPerElement +
            (elementStart + k * self.mBuffer.mNumElements) *
              self.mBuffer.mBytesPerElement))) ∧
    (self.mBuffer.mMappingState.toNat ≥ MappingState.MS_PERSISTENT_INCOHERENT.toNat →
      canPersistentMap = true → prevMappingState ≠ .MS_UNMAPPED →
      (self.map M canPersistentMap elementStart elementCount prevMappingState
          bAdvanceFrame).map (fun r => (r.glCalls, r.interface.mMappedPtr, r.retVal)) =
        some ([], self.mMappedPtr,
          self.mMappedPtr.map (fun base =>
            base + (elementStart + k * self.mBuffer.mNumElements) *
              self.mBuffer.mBytesPerElement))) ∧
    self.mBuffer.mInternalBufferStart * self.mBuffer.mBytesPerElement +
        (elementStart + k * self.mBuffer.mNumElements) * self.mBuffer.mBytesPerElement =
      (self.mBuffer.mInternalBufferStart + elementStart + k * self.mBuffer.mNumElements) *
        self.mBuffer.mBytesPerElement ∧
    self.mBuffer.mInternalBufferStart + k * self.mBuffer.mNumElements ≤
      self.mBuffer.mInternalBufferStart + elementStart + k * self.mBuffer.mNumElements ∧
    self.mBuffer.mInternalBufferStart + elementStart + k * self.mBuffer.mNumElements +
        elementCount ≤
      self.mBuffer.mInternalBufferStart + (k + 1) * self.mBuffer.mNumElements ∧
    self.mBuffer.mInternalBufferStart + (k + 1) * self.mBuffer.mNumElements ≤
      self.mBuffer.mInternalBufferStart + self.mBuffer.mNumElements * M := by
  obtain ⟨mBuffer, mMappedPtr⟩ := self
  obtain ⟨internal, final, n, bpe, state, mstart, mcount, lstart, lcount⟩ := mBuffer
  simp only at hn hfinal hbytes hfit hreq ⊢
  have hfit1 : internal + M * n ≤ SIZE_MAX :=
    le_trans (Nat.le_mul_of_pos_right _ hbytes) hfit
  have hadv := advanceFrame_frame M ⟨internal, final, n, bpe, state, mstart, mcount, lstart,
    lcount⟩ k0 bAdvanceFrame hn hM hk hfinal hfit1
  simp only at hadv
  rw [← hframe] at hadv
  have hkM : k < M := by
    rw [hframe]
    split_ifs
    · exact Nat.mod_lt _ hM
    · exact hk
  have hk1 : (k + 1) * n ≤ M * n := Nat.mul_le_mul_right _ hkM
  have hk2 : (k + 1) * n = k * n + n := by ring
  have hcomm : n * k = k * n := Nat.mul_comm _ _
  have hcomm2 : n * M = M * n := Nat.mul_comm _ _
  have hmono : ∀ x, x ≤ internal + M * n → x * bpe < SIZE_MAX + 1 := fun x hx =>
    Nat.lt_succ_of_le (le_trans (Nat.mul_le_mul_right _ hx) hfit)
  have hsmall : ∀ x, x ≤ internal + M * n → x < SIZE_MAX + 1 := fun x hx =>
    Nat.lt_succ_of_le (le_trans hx hfit1)
  have e1 : size_t (internal + elementStart + n * k) = internal + elementStart + k * n := by
    rw [hcomm]; exact Nat.mod_eq_of_lt (hsmall _ (by omega))
  have e2 : size_t ((internal + elementStart + k * n) * bpe) =
      (internal + elementStart + k * n) * bpe := Nat.mod_eq_of_lt (hmono _ (by omega))
  have e3 : size_t (elementCount * bpe) = elementCount * bpe :=
    Nat.mod_eq_of_lt (hmono _ (by omega))
  have e4 : size_t (n * M) = n * M := by
    rw [hcomm2]; exact Nat.mod_eq_of_lt (hsmall _ (by omega))
  have e5 : size_t (internal * bpe) = internal * bpe := Nat.mod_eq_of_lt (hmono _ (by omega))
  have e6 : size_t (n * M * bpe) = n * M * bpe := by
    rw [hcomm2]; exact Nat.mod_eq_of_lt (hmono _ (by omega))
  have e7 : size_t (elementStart + n * k) = elementStart + k * n := by
    rw [hcomm]; exact Nat.mod_eq_of_lt (hsmall _ (by omega))
  have e8 : size_t ((elementStart + k * n) * bpe) = (elementStart + k * n) * bpe :=
    Nat.mod_eq_of_lt (hmono _ (by omega))
  refine ⟨hkM, by rw [hadv]; rfl, ?_, ?_, ?_, by ring, by omega, by omega,
    by rw [hcomm2]; omega⟩
  · intro hnp hprev
    have hp : (decide (state.toNat ≥ MappingState.MS_PERSISTENT_INCOHERENT.toNat) &&
        canPersistentMap) = false := by
      cases hc : canPersistentMap with
      | false => simp
      | true =>
        have : ¬ state.toNat ≥ MappingState.MS_PERSISTENT_INCOHERENT.toNat :=
          fun h => hnp ⟨h, hc⟩
        simp [this]
    unfold GL3PlusBufferInterface.map
    rw [hadv]
    simp only [hp, if_pos hprev, Bool.false_eq_true, if_false, e1, e2, e3, Bool.false_and,
      Option.map_some']
  · intro hst hc hprev
    have hp : (decide (state.toNat ≥ MappingState.MS_PERSISTENT_INCOHERENT.toNat) &&
        canPersistentMap) = true := by simp [hst, hc]
    unfold GL3PlusBufferInterface.map
    rw [hadv]
    simp only [hp, if_true, e4, e5, e6, e7, e8, Bool.true_and, if_pos (Or.inl hprev),
      Option.map_some']
  · intro hst hc hprev
    have hp : (decide (state.toNat ≥ MappingState.MS_PERSISTENT_INCOHERENT.toNat) &&
        canPersistentMap) = true := by simp [hst, hc]
    have hno : ¬ (prevMappingState = .MS_UNMAPPED ∨ canPersistentMap = false) := by
      simp [hprev, hc]
    unfold GL3PlusBufferInterface.map
    rw [hadv]
    simp only [hp, if_true, e7, e8, if_neg hno, Option.map_some']

/-- Witness of C21: the ring buffer in frame 1 of 3, 4-byte elements, ten elements from
element 5 on: a regular map covers the bytes `[4420, 4460)` and returns byte 4420. -/
theorem map_addresses_frame_witness :
    ((ringInterface 1 .MS_MAPPED).map 3 true 5 10 .MS_UNMAPPED false).map
        (fun r => (r.glCalls, r.retVal)) =
      some ([{ offset := (1000 + 5 + 1 * 100) * 4, length := 10 * 4, persistentBit := false,
               coherentBit := false }],
        some ((1000 + 5 + 1 * 100) * 4)) :=
  (map_addresses_frame 3 true (ringInterface 1 .MS_MAPPED) 5 10 1 1 .MS_UNMAPPED false
    (by decide) (by decide) (by decide) rfl rfl (by decide) (by decide)
    (by decide)).2.2.1 (by decide) (Or.inl rfl)

/-- C22, the code at the failing input: ten mapped elements of 4 bytes, `unmap` flushing 3
elements from element 2 on. The written bytes are `[8, 20)` of the mapping; the code
flushes 12 bytes from byte 2 on, the offset being counted in elements. -/
theorem unmap_flush_offset_in_elements :
    mappedInterface.unmap true .UO_KEEP_PERSISTENT 2 3 =
      some ⟨{ mappedInterface with mMappedPtr := none }, [⟨2, 12⟩], 1⟩ ∧
    writtenByteRange mappedInterface.mBuffer 2 3 = ⟨8, 12⟩ := by
  decide

/-! ## The comparator as an order -/

/-- C26: for all light indices `l` and `r`, `ShadowMappingLightCmp` is true exactly when
the key (not visible under the combined flags, not flagged shadow caster, distance minus
radius) of `l` is lexicographically smaller than that of `r`, `false` ordering before
`true`. Hence the comparator is irreflexive, asymmetric and transitive, incomparability is
transitive, and a visible shadow-casting light is ordered before every light that is
invisible or not a caster. -/
theorem ShadowMappingLightCmp_strict_weak_order (H : Headers) (lights : LightListInfo)
    (flags : Nat) :
    (∀ l r, ShadowMappingLightCmp H lights flags l r = true ↔
      sortKey H lights flags l < sortKey H lights flags r) ∧
    (∀ l, ShadowMappingLightCmp H lights flags l l = false) ∧
    (∀ l r, ShadowMappingLightCmp H lights flags l r = true →
      ShadowMappingLightCmp H lights flags r l = false) ∧
    (∀ a b c, ShadowMappingLightCmp H lights flags a b = true →
      ShadowMappingLightCmp H lights flags b c = true →
      ShadowMappingLightCmp H lights flags a c = true) ∧
    (∀ a b c, ShadowMappingLightCmp H lights flags a b = false →
      ShadowMappingLightCmp H lights flags b a = false →
      ShadowMappingLightCmp H lights flags b c = false →
      ShadowMappingLightCmp H lights flags c b = false →
      ShadowMappingLightCmp H lights flags a c = false ∧
        ShadowMappingLightCmp H lights flags c a = false) ∧
    (∀ l r, eligibleAt H flags lights l → ¬ eligibleAt H flags lights r →
      ShadowMappingLightCmp H lights flags l r = true) := by
  have hkey := ShadowMappingLightCmp_iff_key H lights flags
  have hfalse : ∀ l r, ShadowMappingLightCmp H lights flags l r = false ↔
      sortKey H lights flags r ≤ sortKey H lights flags l := by
    intro l r
    rw [Bool.eq_false_iff, Ne, hkey, not_lt]
  refine ⟨hkey, ?_, ?_, ?_, ?_, ?_⟩
  · intro l
    rw [hfalse]
  · intro l r h
    rw [hfalse]
    exact le_of_lt ((hkey l r).1 h)
  · intro a b c hab hbc
    exact (hkey a c).2 (lt_trans ((hkey a b).1 hab) ((hkey b c).1 hbc))
  · intro a b c hab hba hbc hcb
    exact ⟨(hfalse a c).2 (le_trans ((hfalse b c).1 hbc) ((hfalse a b).1 hab)),
      (hfalse c a).2 (le_trans ((hfalse b a).1 hba) ((hfalse c b).1 hcb))⟩
  · intro l r hl hr
    rw [ShadowMappingLightCmp_iff]
    unfold eligibleAt eligible at hl hr
    tauto

/-! ## The manager states the calls reach -/

/-- C30, counterexample: with a hash under which the stages (vertex 1, fragment 4) and
(vertex 2, fragment 2) have the same key, the program resolved for the first combination
is returned when the second is active, although its stages are not the active ones. -/
theorem getActiveMonolithicProgram_collision_counterexample :
    (getActiveMonolithicProgram toyEnv
        (runManagerCalls toyEnv GL3PlusGLSLMonolithicProgramManager.initial collidingCalls)
        71).1 = some ⟨70, some 1, none, none, none, some 4, none⟩ ∧
    ¬ programMatchesStages ⟨70, some 1, none, none, none, some 4, none⟩
      (runManagerCalls toyEnv GL3PlusGLSLMonolithicProgramManager.initial collidingCalls) := by
  decide

theorem activeIsCached_run (env : ProgramEnv) (mgr : GL3PlusGLSLMonolithicProgramManager)
    (call : ManagerCall) (h : ActiveIsCached env mgr) :
    ActiveIsCached env (call.run env mgr) := by
  cases call with
  | setActiveVertexShader s => exact (setActiveVertexShader_spec env mgr s h).1
  | setActiveFragmentShader s => exact (setActiveFragmentShader_spec env mgr s h).1
  | setActiveGeometryShader s => exact activeIsCached_setActiveGeometryShader env mgr s h
  | setActiveHullShader s => exact activeIsCached_setActiveHullShader env mgr s h
  | setActiveDomainShader s => exact activeIsCached_setActiveDomainShader env mgr s h
  | setActiveComputeShader s => exact activeIsCached_setActiveComputeShader env mgr s h
  | getActiveMonolithicProgram fresh =>
    exact activeIsCached_getActiveMonolithicProgram env mgr fresh h

theorem activeIsCached_runManagerCalls (env : ProgramEnv) (calls : List ManagerCall) :
    ∀ mgr, ActiveIsCached env mgr → ActiveIsCached env (runManagerCalls env mgr calls) := by
  induction calls with
  | nil => intro mgr h; exact h
  | cons call calls ih =>
    intro mgr h
    exact ih _ (activeIsCached_run env mgr call h)

theorem getActiveMonolithicProgram_cached (env : ProgramEnv)
    (mgr : GL3PlusGLSLMonolithicProgramManager) (fresh : Nat) (h : ActiveIsCached env mgr)
    (p : GL3PlusGLSLMonolithicProgram)
    (hp : (getActiveMonolithicProgram env mgr fresh).1 = some p) :
    mapFind (getActiveMonolithicProgram env mgr fresh).2.mMonolithicPrograms
        (activeKey env mgr) = some p ∧
    (getActiveMonolithicProgram env mgr fresh).2.mActiveMonolithicProgram = some p := by
  cases hact : mgr.mActiveMonolithicProgram with
  | some q =>
    rw [getActiveMonolithicProgram_active env mgr fresh q hact] at hp ⊢
    have hqp : q = p := Option.some.inj hp
    subst hqp
    exact ⟨h q hact, hact⟩
  | none =>
    by_cases hkey : activeKey env mgr > 0
    · cases hfind : mapFind mgr.mMonolithicPrograms (activeKey env mgr) with
      | some found =>
        rw [getActiveMonolithicProgram_found env mgr fresh found hact hkey hfind] at hp ⊢
        have hqp : found = p := Option.some.inj hp
        subst hqp
        exact ⟨hfind, rfl⟩
      | none =>
        rw [getActiveMonolithicProgram_created env mgr fresh hact hkey hfind] at hp ⊢
        have hqp := Option.some.inj hp
        subst hqp
        exact ⟨mapFind_mapAssign_self _ _ _, rfl⟩
    · have hnull : getActiveMonolithicProgram env mgr fresh = (none, mgr) := by
        unfold getActiveMonolithicProgram
        rw [hact]
        simp only
        rw [if_neg hkey]
      rw [hnull] at hp
      exact Option.noConfusion hp

theorem getActiveMonolithicProgram_twice (env : ProgramEnv)
    (mgr : GL3PlusGLSLMonolithicProgramManager) (fresh fresh2 : Nat) :
    getActiveMonolithicProgram env (getActiveMonolithicProgram env mgr fresh).2 fresh2 =
      getActiveMonolithicProgram env mgr fresh := by
  cases hact : mgr.mActiveMonolithicProgram with
  | some q =>
    rw [getActiveMonolithicProgram_active env mgr fresh q hact,
      getActiveMonolithicProgram_active env mgr fresh2 q hact]
  | none =>
    by_cases hkey : activeKey env mgr > 0
    · cases hfind : mapFind mgr.mMonolithicPrograms (activeKey env mgr) with
      | some found =>
        rw [getActiveMonolithicProgram_found env mgr fresh found hact hkey hfind]
        exact getActiveMonolithicProgram_active env _ fresh2 found rfl
      | none =>
        rw [getActiveMonolithicProgram_created env mgr fresh hact hkey hfind]
        exact getActiveMonolithicProgram_active env _ fresh2 _ rfl
    · have hnull : ∀ f, getActiveMonolithicProgram env mgr f = (none, mgr) := by
        intro f
        unfold getActiveMonolithicProgram
        rw [hact]
        simp only
        rw [if_neg hkey]
      rw [hnull fresh, hnull fresh2]

theorem mapKeysMatch_getActiveMonolithicProgram (env : ProgramEnv)
    (mgr : GL3PlusGLSLMonolithicProgramManager) (fresh : Nat) (h : MapKeysMatch env mgr) :
    MapKeysMatch env (getActiveMonolithicProgram env mgr fresh).2 := by
  cases hact : mgr.mActiveMonolithicProgram with
  | some q => rw [getActiveMonolithicProgram_active env mgr fresh q hact]; exact h
  | none =>
    by_cases hkey : activeKey env mgr > 0
    · cases hfind : mapFind mgr.mMonolithicPrograms (activeKey env mgr) with
      | some found =>
        rw [getActiveMonolithicProgram_found env mgr fresh found hact hkey hfind]
        exact h
      | none =>
        rw [getActiveMonolithicProgram_created env mgr fresh hact hkey hfind]
        intro k p hp
        simp only at hp
        by_cases hk : k = activeKey env mgr
        · subst hk
          rw [mapFind_mapAssign_self] at hp
          rw [← Option.some.inj hp]
          rfl
        · rw [mapFind_mapAssign_other _ _ _ _ hk] at hp
          exact h k p hp
    · have hnull : getActiveMonolithicProgram env mgr fresh = (none, mgr) := by
        unfold getActiveMonolithicProgram
        rw [hact]
        simp only
        rw [if_neg hkey]
      rw [hnull]
      exact h

theorem mapKeysMatch_run (env : ProgramEnv) (mgr : GL3PlusGLSLMonolithicProgramManager)
    (call : ManagerCall) (h : MapKeysMatch env mgr) : MapKeysMatch env (call.run env mgr) := by
  have hset : ∀ mgr1 : GL3PlusGLSLMonolithicProgramManager,
      mgr1.mMonolithicPrograms = mgr.mMonolithicPrograms → MapKeysMatch env mgr1 := by
    intro mgr1 hmap k p hp
    rw [hmap] at hp
    exact h k p hp
  cases call with
  | setActiveVertexShader s =>
    refine hset _ ?_
    show (Ogre.setActiveVertexShader mgr s).mMonolithicPrograms = mgr.mMonolithicPrograms
    unfold Ogre.setActiveVertexShader
    split_ifs <;> rfl
  | setActiveFragmentShader s =>
    refine hset _ ?_
    show (Ogre.setActiveFragmentShader mgr s).mMonolithicPrograms = mgr.mMonolithicPrograms
    unfold Ogre.setActiveFragmentShader
    split_ifs <;> rfl
  | setActiveGeometryShader s =>
    refine hset _ ?_
    show (Ogre.setActiveGeometryShader mgr s).mMonolithicPrograms = mgr.mMonolithicPrograms
    unfold Ogre.setActiveGeometryShader
    split_ifs <;> rfl
  | setActiveHullShader s =>
    refine hset _ ?_
    show (Ogre.setActiveHullShader mgr s).mMonolithicPrograms = mgr.mMonolithicPrograms
    unfold Ogre.setActiveHullShader
    split_ifs <;> rfl
  | setActiveDomainShader s =>
    refine hset _ ?_
    show (Ogre.setActiveDomainShader mgr s).mMonolithicPrograms = mgr.mMonolithicPrograms
    unfold Ogre.setActiveDomainShader
    split_ifs <;> rfl
  | setActiveComputeShader s =>
    refine hset _ ?_
    show (Ogre.setActiveComputeShader mgr s).mMonolithicPrograms = mgr.mMonolithicPrograms
    unfold Ogre.setActiveComputeShader
    split_ifs <;> rfl
  | getActiveMonolithicProgram fresh =>
    exact mapKeysMatch_getActiveMonolithicProgram env mgr fresh h

theorem mapKeysMatch_runManagerCalls (env : ProgramEnv) (calls : List ManagerCall) :
    ∀ mgr, MapKeysMatch env mgr → MapKeysMatch env (runManagerCalls env mgr calls) := by
  induction calls with
  | nil => intro mgr h; exact h
  | cons call calls ih =>
    intro mgr h
    exact ih _ (mapKeysMatch_run env mgr call h)

/-- C30, amended: in every manager state that a sequence of setter and
`getActiveMonolithicProgram` calls reaches from the initial state, a non-null active
program is the program the map stores under the key of the active stages. A program that
`getActiveMonolithicProgram` returns is the one the map stores under that key after the
call, it is then the active program, and the stages it was resolved for have the key of
the active stages (they can differ from them only when the hash gives both the same
key). A second call without a change of stage returns the same program and leaves the
manager, hence the map, unchanged. -/
theorem runManagerCalls_active_is_cached (env : ProgramEnv) (calls : List ManagerCall)
    (fresh fresh2 : Nat) :
    ActiveIsCached env
      (runManagerCalls env GL3PlusGLSLMonolithicProgramManager.initial calls) ∧
    (∀ p,
      (getActiveMonolithicProgram env
        (runManagerCalls env GL3PlusGLSLMonolithicProgramManager.initial calls) fresh).1 =
          some p →
      mapFind
        (getActiveMonolithicProgram env
          (runManagerCalls env GL3PlusGLSLMonolithicProgramManager.initial calls)
          fresh).2.mMonolithicPrograms
        (activeKey env
          (runManagerCalls env GL3PlusGLSLMonolithicProgramManager.initial calls)) =
        some p ∧
      (getActiveMonolithicProgram env
        (runManagerCalls env GL3PlusGLSLMonolithicProgramManager.initial calls)
        fresh).2.mActiveMonolithicProgram = some p ∧
      programKey env p =
        activeKey env
          (runManagerCalls env GL3PlusGLSLMonolithicProgramManager.initial calls)) ∧
    getActiveMonolithicProgram env
        (getActiveMonolithicProgram env
          (runManagerCalls env GL3PlusGLSLMonolithicProgramManager.initial calls) fresh).2
        fresh2 =
      getActiveMonolithicProgram env
        (runManagerCalls env GL3PlusGLSLMonolithicProgramManager.initial calls) fresh := by
  have h := activeIsCached_runManagerCalls env calls _ (activeIsCached_initial env)
  have hk := mapKeysMatch_runManagerCalls env calls
    GL3PlusGLSLMonolithicProgramManager.initial (fun _ _ hp => Option.noConfusion hp)
  refine ⟨h, fun p hp => ?_, getActiveMonolithicProgram_twice env _ fresh fresh2⟩
  obtain ⟨h1, h2⟩ := getActiveMonolithicProgram_cached env _ fresh h p hp
  exact ⟨h1, h2, mapKeysMatch_getActiveMonolithicProgram env _ fresh hk _ p h1⟩

/-! ## The probes of the cubemap -/

/-- C24, counterexample: the stored NDFs are 3, 5, 5, 2 and the candidate has NDF 1; the
probes 1 and 2 tie on the highest NDF, and the scan chooses index 2, the one found
last. -/
theorem highestNdfScan_tie_counterexample :
    [(3 : ℚ), 5, 5, 2][1]? = some 5 ∧ [(3 : ℚ), 5, 5, 2][2]? = some 5 ∧
    (highestNdfScan 1 [3, 5, 5, 2] 0 (-1) 4).2 = 2 := by
  refine ⟨rfl, rfl, ?_⟩
  norm_num [highestNdfScan]

/-- C27, the code at the failing input: two probes hold the camera, with the NDFs 1/2 and
1/4. `numCollectedProbes` is never incremented, so both are written to index 0 and the
loop after the scan overwrites every entry with the blank probe: no probe is collected,
`mProbeNDFs[0]` keeps the NDF of the second probe, and the blend factors are computed
over 0 probes. -/
theorem update_collects_nothing :
    ParallaxCorrectedCubemap.update stdCubemapHeaders twoProbes =
      some { mCollectedProbes := [.blank, .blank, .blank, .blank]
             mProbeNDFs := [1 / 4, stdCubemapHeaders.realMax, stdCubemapHeaders.realMax,
               stdCubemapHeaders.realMax]
             mProbeBlendFactors := [0, 0, 0, 0]
             numCollectedProbes := 0 } := by
  norm_num [ParallaxCorrectedCubemap.update, twoProbes, collectLoop, stdCubemapHeaders,
    calculateBlendFactors, List.range']
  exact ⟨rfl, rfl, rfl⟩

theorem highestNdfScan_inv (ndf : ℚ) (rest : List ℚ) :
    ∀ (i : Nat) (highestNdf : ℚ) (highestNdfIdx : Nat),
      (highestNdfScan ndf rest i highestNdf highestNdfIdx = (highestNdf, highestNdfIdx) ∧
        ∀ s ∈ rest, ¬ (ndf < s ∧ s ≥ highestNdf)) ∨
      ∃ j, ∃ hj : j < rest.length,
        highestNdfScan ndf rest i highestNdf highestNdfIdx = (rest[j], i + j) ∧
        ndf < rest[j] ∧ highestNdf ≤ rest[j] ∧
        (∀ k, ∀ hk : k < rest.length, ndf < rest[k] → rest[k] ≤ rest[j]) ∧
        ∀ k, ∀ hk : k < rest.length, j < k → ndf < rest[k] → rest[k] < rest[j] := by
  induction rest with
  | nil => intro i h hi; exact Or.inl ⟨rfl, fun s hs => absurd hs (List.not_mem_nil _)⟩
  | cons s rest ih =>
    intro i h hi
    rw [highestNdfScan]
    by_cases htest : ndf < s ∧ s ≥ h
    · rw [if_pos htest]
      rcases ih (i + 1) s i with ⟨heq, hnone⟩ | ⟨j, hj, heq, h1, h2, h3, h4⟩
      · refine Or.inr ⟨0, Nat.succ_pos _, ?_, htest.1, htest.2, ?_, ?_⟩
        · rw [heq]; rfl
        · intro k hk hlt
          cases k with
          | zero => exact le_refl _
          | succ k =>
            have hk2 : k < rest.length := Nat.lt_of_succ_lt_succ hk
            have hmem : rest[k] ∈ rest := List.getElem_mem hk2
            have := hnone _ hmem
            simp only [List.getElem_cons_succ, List.getElem_cons_zero] at hlt ⊢
            by_contra hcon
            exact this ⟨hlt, le_of_lt (not_le.1 hcon)⟩
        · intro k hk hjk hlt
          cases k with
          | zero => exact absurd hjk (Nat.lt_irrefl _)
          | succ k =>
            have hk2 : k < rest.length := Nat.lt_of_succ_lt_succ hk
            have hmem : rest[k] ∈ rest := List.getElem_mem hk2
            have := hnone _ hmem
            simp only [List.getElem_cons_succ, List.getElem_cons_zero] at hlt ⊢
            by_contra hcon
            exact this ⟨hlt, not_lt.1 hcon⟩
      · refine Or.inr ⟨j + 1, Nat.succ_lt_succ hj, ?_, h1, le_trans htest.2 h2, ?_, ?_⟩
        · rw [heq]
          simp only [List.getElem_cons_succ, Prod.mk.injEq, true_and]
          omega
        · intro k hk hlt
          cases k with
          | zero => exact h2
          | succ k => exact h3 k (Nat.lt_of_succ_lt_succ hk) hlt
        · intro k hk hjk hlt
          cases k with
          | zero => exact absurd hjk (Nat.not_lt_zero _)
          | succ k =>
            exact h4 k (Nat.lt_of_succ_lt_succ hk) (Nat.lt_of_succ_lt_succ hjk) hlt
    · rw [if_neg htest]
      rcases ih (i + 1) h hi with ⟨heq, hnone⟩ | ⟨j, hj, heq, h1, h2, h3, h4⟩
      · refine Or.inl ⟨heq, ?_⟩
        intro x hx
        rcases List.mem_cons.1 hx with rfl | hx
        · exact htest
        · exact hnone x hx
      · have hs : ndf < s → s < rest[j] := by
          intro hlt
          have : ¬ s ≥ h := fun hge => htest ⟨hlt, hge⟩
          exact lt_of_lt_of_le (not_le.1 this) h2
        refine Or.inr ⟨j + 1, Nat.succ_lt_succ hj, ?_, h1, h2, ?_, ?_⟩
        · rw [heq]
          simp only [List.getElem_cons_succ, Prod.mk.injEq, true_and]
          omega
        · intro k hk hlt
          cases k with
          | zero => exact le_of_lt (hs hlt)
          | succ k => exact h3 k (Nat.lt_of_succ_lt_succ hk) hlt
        · intro k hk hjk hlt
          cases k with
          | zero => exact absurd hjk (Nat.not_lt_zero _)
          | succ k =>
            exact h4 k (Nat.lt_of_succ_lt_succ hk) (Nat.lt_of_succ_lt_succ hjk) hlt

/-- C24, amended: for a candidate with NDF `ndf > 0`, the scan over the stored NDFs
leaves `highestNdfIdx` at `OGRE_MAX_CUBE_PROBES` (nothing is replaced) when no stored NDF
is greater than `ndf`; otherwise the chosen index holds a stored NDF that is greater than
`ndf` and maximal among the stored NDFs greater than `ndf`, and every later index with a
stored NDF greater than `ndf` holds a smaller one: of the probes that tie on the maximal
NDF the one found last (highest index) is chosen. -/
theorem highestNdfScan_spec (ndf : ℚ) (mProbeNDFs : List ℚ) (hndf : 0 < ndf) :
    ((∀ s ∈ mProbeNDFs, s ≤ ndf) →
      (highestNdfScan ndf mProbeNDFs 0 (-1) mProbeNDFs.length).2 = mProbeNDFs.length) ∧
    ((∃ s ∈ mProbeNDFs, ndf < s) →
      ∃ idx, ∃ hidx : idx < mProbeNDFs.length,
        highestNdfScan ndf mProbeNDFs 0 (-1) mProbeNDFs.length = (mProbeNDFs[idx], idx) ∧
        ndf < mProbeNDFs[idx] ∧
        (∀ k, ∀ hk : k < mProbeNDFs.length, ndf < mProbeNDFs[k] →
          mProbeNDFs[k] ≤ mProbeNDFs[idx]) ∧
        ∀ k, ∀ hk : k < mProbeNDFs.length, idx < k → ndf < mProbeNDFs[k] →
          mProbeNDFs[k] < mProbeNDFs[idx]) := by
  rcases highestNdfScan_inv ndf mProbeNDFs 0 (-1) mProbeNDFs.length with
    ⟨heq, hnone⟩ | ⟨j, hj, heq, h1, _, h3, h4⟩
  · constructor
    · intro _
      rw [heq]
    · rintro ⟨s, hs, hlt⟩
      exact absurd ⟨hlt, by linarith⟩ (hnone s hs)
  · constructor
    · intro hall
      have := hall _ (List.getElem_mem hj)
      linarith
    · intro _
      refine ⟨j, hj, ?_, h1, h3, h4⟩
      rw [heq, Nat.zero_add]

/-- Witness of C24: the stored NDFs 3, 5, 5, 2 and a candidate with NDF 1. -/
theorem highestNdfScan_spec_witness :
    ∃ idx, ∃ hidx : idx < [(3 : ℚ), 5, 5, 2].length,
      highestNdfScan 1 [3, 5, 5, 2] 0 (-1) [(3 : ℚ), 5, 5, 2].length =
        ([(3 : ℚ), 5, 5, 2][idx], idx) ∧
      1 < [(3 : ℚ), 5, 5, 2][idx] ∧
      (∀ k, ∀ hk : k < [(3 : ℚ), 5, 5, 2].length, 1 < [(3 : ℚ), 5, 5, 2][k] →
        [(3 : ℚ), 5, 5, 2][k] ≤ [(3 : ℚ), 5, 5, 2][idx]) ∧
      ∀ k, ∀ hk : k < [(3 : ℚ), 5, 5, 2].length, idx < k → 1 < [(3 : ℚ), 5, 5, 2][k] →
        [(3 : ℚ), 5, 5, 2][k] < [(3 : ℚ), 5, 5, 2][idx] :=
  (highestNdfScan_spec 1 [3, 5, 5, 2] (by norm_num)).2 ⟨3, by simp, by norm_num⟩

/-! ## `_update`: the test for recalculating the split points -/

/-- With one split the loop of `_update` compares the same cached split point with the
near clip distance and with the shadow far distance: when the two distances differ it
calls `calculateSplitPoints`, whatever split points are cached and whatever
`calculateSplitPoints` stores. -/
theorem updateShadowMaps_single_split (env : NodeEnv) (args : UpdateArgs)
    (itor : ShadowTextureDefinition) (itShadowCamera : ShadowMapCamera)
    (node : CompositorShadowNode) (calls : List SplitPointsCall) (slot : LightClosest)
    (light : Light) (splitPoints : List ℚ) (first : ℚ) (vpSize : Vector2)
    (htech : itor.shadowMapTechnique = .SHADOWMAP_PSSM) (hsplits : itor.numSplits = 1)
    (hslot : node.mShadowMapCastingLights[itor.light]? = some slot)
    (hlight : slot.light = some light)
    (hsetup : node.shadowCameraSetups[itShadowCamera.shadowCameraSetup]? =
      some (.PSSMShadowCameraSetup splitPoints))
    (hfirst : splitPoints[0]? = some first)
    (hvp : itShadowCamera.scenePassesViewportSize[light.type]? = some vpSize)
    (hne : args.nearClipDistance ≠ args.shadowFarDistance light.id) :
    (updateShadowMaps env args [itor] [itShadowCamera] node calls).map (fun r => r.2) =
      .ok (calls ++ [⟨1, args.nearClipDistance, args.shadowFarDistance light.id,
        itor.pssmLambda⟩]) := by
  have hidx : (1 + SIZE_MAX) % (SIZE_MAX + 1) = 0 := by decide
  by_cases h1 : first = args.nearClipDistance
  · have h2 : ¬ first = args.shadowFarDistance light.id := fun h => hne (h1.symm.trans h)
    simp [updateShadowMaps, hslot, hlight, htech, hsetup, hfirst, hsplits, hidx, h1, h2, hvp]
    simp [← h1, h2, Except.map]
  · simp [updateShadowMaps, hslot, hlight, htech, hsetup, hfirst, hsplits, h1, hvp, Except.map]

/-- C23, at the failing inputs: a node with one PSSM shadow map of one split whose cached
split points 1 and 100 are the near clip distance and the shadow far distance of the
update; the first update calls `calculateSplitPoints`, and the next update, with the
same distances, calls it again. The same holds for three splits sharing a setup whose
cached points run from 1 to 100: each of the two updates calls it once per shadow map. -/
theorem update_recalculates_with_unchanged_distances :
    (CompositorShadowNode._update stdHeaders boundaryEnv (cascadeNode 1 [1, 100])
        (cascadeArgs 0)).map (fun r => (r.1.shadowCameraSetups, r.2)) =
      .ok ([.PSSMShadowCameraSetup [1, 100]], [⟨1, 1, 100, 95 / 100⟩]) ∧
    ((CompositorShadowNode._update stdHeaders boundaryEnv (cascadeNode 1 [1, 100])
        (cascadeArgs 0)).bind (fun r =>
      (CompositorShadowNode._update stdHeaders boundaryEnv r.1 (cascadeArgs 1)).map
        (fun r => r.2))) = .ok [⟨1, 1, 100, 95 / 100⟩] ∧
    (CompositorShadowNode._update stdHeaders boundaryEnv (cascadeNode 3 [1, 1, 1, 100])
        (cascadeArgs 0)).map (fun r => (r.1.shadowCameraSetups, r.2)) =
      .ok ([.PSSMShadowCameraSetup [1, 1, 1, 100]],
        [⟨3, 1, 100, 95 / 100⟩, ⟨3, 1, 100, 95 / 100⟩, ⟨3, 1, 100, 95 / 100⟩]) ∧
    ((CompositorShadowNode._update stdHeaders boundaryEnv (cascadeNode 3 [1, 1, 1, 100])
        (cascadeArgs 0)).bind (fun r =>
      (CompositorShadowNode._update stdHeaders boundaryEnv r.1 (cascadeArgs 1)).map
        (fun r => r.2))) =
      .ok [⟨3, 1, 100, 95 / 100⟩, ⟨3, 1, 100, 95 / 100⟩, ⟨3, 1, 100, 95 / 100⟩] :=
  ⟨rfl, rfl, rfl, rfl⟩

/-! ## The second loop reads the whole scratch buffer -/

/-- C28, at the failing inputs. A fresh node with two slots and a list of one point
light: `std::partial_sort_copy` writes one entry of the scratch buffer, the second loop
reads two, the second being the filler `~0`, and the call leaves the light list. A node
with three slots after a frame with three point lights, then a frame with one
directional and one point light: the frame-0 call is defined, the frame-1 call writes one
entry (index 1) and the loop reads a second one, the index 0 left from frame 0, which
lies before the first non-directional index. -/
theorem buildClosestLightList_reads_unwritten_entries :
    buildClosestLightListReads stdHeaders (freshNode [7, 7]) (mkArgs [(1, 1)]) =
      { startIndex := 0, written := 1, mTmpSortedIndexes := [0, SIZE_MAX],
        reads := [0, SIZE_MAX] } ∧
    buildClosestLightList stdHeaders (freshNode [7, 7]) (mkArgs [(1, 1)]) = none ∧
    (buildClosestLightList stdHeaders (freshNode [7, 7, 7]) threePointArgs).map
        (fun node => node.mTmpSortedIndexes) = some [1, 0, 2] ∧
    (buildClosestLightList stdHeaders (freshNode [7, 7, 7]) threePointArgs).map
        (fun node => buildClosestLightListReads stdHeaders node directionalPointArgs) =
      some { startIndex := 1, written := 1, mTmpSortedIndexes := [1, 0], reads := [1, 0] } := by
  refine ⟨by decide, by decide, by decide, by decide⟩

/-- C29, at the failing input: a node with three slots that accept every light type,
after the call of frame 0 with three point lights, is called in frame 1 with one
directional and one point light. The call returns with the directional light in slots 0
and 2, three active shadow-casting lights, and two affected flags. -/
theorem buildClosestLightList_slots_light_twice :
    ((buildClosestLightList stdHeaders (freshNode [7, 7, 7]) threePointArgs).bind
        (fun node => buildClosestLightList stdHeaders node directionalPointArgs)).map
      (fun node => (node.mShadowMapCastingLights, node.mNumActiveShadowMapCastingLights,
        node.mAffectedLights)) =
      some ([⟨some ⟨100, 0⟩, 0, 0⟩, ⟨some ⟨101, 1⟩, 1, 0⟩, ⟨some ⟨100, 0⟩, 0, 0⟩], 3,
        [true, true]) := by
  decide

/-! ## The slot scan on any slot configuration -/

theorem findNextEmptyScan_spec (masks : List Nat) (m : Nat) :
    ∀ (rest : List LightClosest) (idx ns : Nat),
      (findNextEmptyScan masks m rest idx ns).1 ≤ ns ∧
      (∀ p s, idx + p < (findNextEmptyScan masks m rest idx ns).1 → rest[p]? = some s →
        s.light ≠ none) ∧
      idx ≤ (findNextEmptyScan masks m rest idx ns).2 ∧
      (findNextEmptyScan masks m rest idx ns).2 ≤ idx + rest.length ∧
      (∀ p s, idx + p < (findNextEmptyScan masks m rest idx ns).2 → rest[p]? = some s →
        ¬ (s.light = none ∧ masks.getD (idx + p) 0 &&& m ≠ 0)) ∧
      ((findNextEmptyScan masks m rest idx ns).2 < idx + rest.length →
        ∃ s, rest[(findNextEmptyScan masks m rest idx ns).2 - idx]? = some s ∧
          s.light = none ∧
          masks.getD (findNextEmptyScan masks m rest idx ns).2 0 &&& m ≠ 0) := by
  intro rest
  induction rest with
  | nil =>
    intro idx ns
    simp [findNextEmptyScan]
  | cons s0 rest ih =>
    intro idx ns
    rw [findNextEmptyScan]
    by_cases hs0 : s0.light = none
    · rw [if_pos hs0]
      by_cases hacc : masks.getD idx 0 &&& m ≠ 0
      · rw [if_pos hacc]
        refine ⟨Nat.min_le_right _ _, ?_, le_refl _, by omega, ?_, ?_⟩
        · intro p s hp _
          have := Nat.min_le_left idx ns
          simp only at hp
          omega
        · intro p s hp _
          simp only at hp
          omega
        · intro _
          exact ⟨s0, by simp, hs0, hacc⟩
      · rw [if_neg hacc]
        obtain ⟨h1, h2, h3, h4, h5, h6⟩ := ih (idx + 1) (min idx ns)
        generalize findNextEmptyScan masks m rest (idx + 1) (min idx ns) = r at *
        have hmin1 := Nat.min_le_left idx ns
        have hmin2 := Nat.min_le_right idx ns
        refine ⟨by omega, ?_, by omega, by simp only [List.length_cons]; omega, ?_, ?_⟩
        · intro p s hp _
          omega
        · intro p s hp hget
          cases p with
          | zero =>
            simp at hget
            subst hget
            exact fun hc => hacc hc.2
          | succ q =>
            rw [List.getElem?_cons_succ] at hget
            have := h5 q s (by omega) hget
            rw [show idx + (q + 1) = idx + 1 + q by omega]
            exact this
        · intro hlt
          obtain ⟨s, hs1, hs2, hs3⟩ := h6 (by simp only [List.length_cons] at hlt; omega)
          refine ⟨s, ?_, hs2, hs3⟩
          rw [show r.2 - idx = (r.2 - (idx + 1)) + 1 by omega, List.getElem?_cons_succ]
          exact hs1
    · rw [if_neg hs0]
      obtain ⟨h1, h2, h3, h4, h5, h6⟩ := ih (idx + 1) ns
      generalize findNextEmptyScan masks m rest (idx + 1) ns = r at *
      refine ⟨h1, ?_, by omega, by simp only [List.length_cons]; omega, ?_, ?_⟩
      · intro p s hp hget
        cases p with
        | zero =>
          simp at hget
          subst hget
          exact hs0
        | succ q =>
          rw [List.getElem?_cons_succ] at hget
          exact h2 q s (by omega) hget
      · intro p s hp hget
        cases p with
        | zero =>
          simp at hget
          subst hget
          exact fun hc => hs0 hc.1
        | succ q =>
          rw [List.getElem?_cons_succ] at hget
          have := h5 q s (by omega) hget
          rw [show idx + (q + 1) = idx + 1 + q by omega]
          exact this
      · intro hlt
        obtain ⟨s, hs1, hs2, hs3⟩ := h6 (by simp only [List.length_cons] at hlt; omega)
        refine ⟨s, ?_, hs2, hs3⟩
        rw [show r.2 - idx = (r.2 - (idx + 1)) + 1 by omega, List.getElem?_cons_succ]
        exact hs1

theorem findNextEmpty_spec (node : CompositorShadowNode) (m start : Nat)
    (hstart : start ≤ node.mShadowMapCastingLights.length) :
    (findNextEmptyShadowCastingLightEntry node m start).1 ≤
        node.mShadowMapCastingLights.length ∧
      (∀ j s, start ≤ j → j < (findNextEmptyShadowCastingLightEntry node m start).1 →
        node.mShadowMapCastingLights[j]? = some s → s.light ≠ none) ∧
      (findNextEmptyShadowCastingLightEntry node m start).2 ≤
        node.mShadowMapCastingLights.length ∧
      (∀ j s, start ≤ j → j < (findNextEmptyShadowCastingLightEntry node m start).2 →
        node.mShadowMapCastingLights[j]? = some s →
        ¬ (s.light = none ∧ node.mDefinition.mLightTypesMask.getD j 0 &&& m ≠ 0)) ∧
      ((findNextEmptyShadowCastingLightEntry node m start).2 <
          node.mShadowMapCastingLights.length →
        ∃ s, node.mShadowMapCastingLights[
            (findNextEmptyShadowCastingLightEntry node m start).2]? = some s ∧
          s.light = none ∧
          node.mDefinition.mLightTypesMask.getD
            (findNextEmptyShadowCastingLightEntry node m start).2 0 &&& m ≠ 0) := by
  unfold findNextEmptyShadowCastingLightEntry
  obtain ⟨h1, h2, h3, h4, h5, h6⟩ := findNextEmptyScan_spec node.mDefinition.mLightTypesMask m
    (node.mShadowMapCastingLights.drop start) start node.mShadowMapCastingLights.length
  generalize findNextEmptyScan node.mDefinition.mLightTypesMask m
    (node.mShadowMapCastingLights.drop start) start node.mShadowMapCastingLights.length = r at *
  rw [List.length_drop] at h4 h6
  refine ⟨h1, ?_, by omega, ?_, ?_⟩
  · intro j s hj1 hj2 hget
    refine h2 (j - start) s (by omega) ?_
    rw [List.getElem?_drop, show start + (j - start) = j by omega]
    exact hget
  · intro j s hj1 hj2 hget
    have := h5 (j - start) s (by omega) (by
      rw [List.getElem?_drop, show start + (j - start) = j by omega]
      exact hget)
    rwa [show start + (j - start) = j by omega] at this
  · intro hlt
    obtain ⟨s, hs1, hs2, hs3⟩ := h6 (by omega)
    refine ⟨s, ?_, hs2, hs3⟩
    rw [List.getElem?_drop, show start + (r.2 - start) = r.2 by omega] at hs1
    exact hs1
theorem findNextEmptyScan_start (masks : List Nat) (m : Nat) :
    ∀ (rest : List LightClosest) (idx ns : Nat),
      (findNextEmptyScan masks m rest idx ns).1 < ns →
      idx ≤ (findNextEmptyScan masks m rest idx ns).1 ∧
        ∃ s, rest[(findNextEmptyScan masks m rest idx ns).1 - idx]? = some s ∧
          s.light = none := by
  intro rest
  induction rest with
  | nil =>
    intro idx ns h
    simp [findNextEmptyScan] at h
  | cons s0 rest ih =>
    intro idx ns
    rw [findNextEmptyScan]
    by_cases hs0 : s0.light = none
    · rw [if_pos hs0]
      by_cases hacc : masks.getD idx 0 &&& m ≠ 0
      · rw [if_pos hacc]
        intro h
        simp only at h ⊢
        have hmin : min idx ns = idx := by omega
        rw [hmin]
        exact ⟨le_refl _, s0, by simp, hs0⟩
      · rw [if_neg hacc]
        intro h
        have h1 := (findNextEmptyScan_spec masks m rest (idx + 1) (min idx ns)).1
        have h2 := ih (idx + 1) (min idx ns)
        generalize findNextEmptyScan masks m rest (idx + 1) (min idx ns) = r at *
        have hmin1 := Nat.min_le_left idx ns
        have hr : r.1 = idx := by
          by_contra hne
          by_cases hlt : r.1 < min idx ns
          · have := (h2 hlt).1
            omega
          · omega
        rw [hr]
        exact ⟨le_refl _, s0, by simp, hs0⟩
    · rw [if_neg hs0]
      intro h
      obtain ⟨h1, s, hs1, hs2⟩ := ih (idx + 1) ns h
      generalize findNextEmptyScan masks m rest (idx + 1) ns = r at *
      refine ⟨by omega, s, ?_, hs2⟩
      rw [show r.1 - idx = (r.1 - (idx + 1)) + 1 by omega, List.getElem?_cons_succ]
      exact hs1

theorem findNextEmpty_start (node : CompositorShadowNode) (m start : Nat)
    (h : (findNextEmptyShadowCastingLightEntry node m start).1 <
      node.mShadowMapCastingLights.length) :
    start ≤ (findNextEmptyShadowCastingLightEntry node m start).1 ∧
      ∃ s, node.mShadowMapCastingLights[
          (findNextEmptyShadowCastingLightEntry node m start).1]? = some s ∧
        s.light = none := by
  unfold findNextEmptyShadowCastingLightEntry at h ⊢
  obtain ⟨h1, s, hs1, hs2⟩ := findNextEmptyScan_start node.mDefinition.mLightTypesMask m
    (node.mShadowMapCastingLights.drop start) start node.mShadowMapCastingLights.length h
  generalize findNextEmptyScan node.mDefinition.mLightTypesMask m
    (node.mShadowMapCastingLights.drop start) start node.mShadowMapCastingLights.length = r at *
  refine ⟨h1, s, ?_, hs2⟩
  rw [List.getElem?_drop, show start + (r.1 - start) = r.1 by omega] at hs1
  exact hs1

/-! ## The first loop on any slot configuration -/

theorem mem_directionalSlots (H : Headers) (d : CompositorShadowNodeDef) (j : Nat) :
    j ∈ directionalSlots H d ↔ j < d.mNumLights ∧ slotAccepts d j H.LT_DIRECTIONAL := by
  unfold directionalSlots
  simp [List.mem_filter]

theorem directionalSlots_sorted (H : Headers) (d : CompositorShadowNodeDef) :
    (directionalSlots H d).Pairwise (· < ·) := by
  unfold directionalSlots
  exact List.Pairwise.filter _ (List.pairwise_lt_range _)

theorem findNextEmpty_next (H : Headers) (node : CompositorShadowNode)
    (tDone tRem : List Nat) (beg : Nat)
    (hlen : node.mShadowMapCastingLights.length = node.mDefinition.mNumLights)
    (ht : directionalSlots H node.mDefinition = tDone ++ tRem)
    (hfilled : ∀ j ∈ tDone, ∃ s, node.mShadowMapCastingLights[j]? = some s ∧ s.light ≠ none)
    (hblank : ∀ j, j < node.mDefinition.mNumLights → j ∉ tDone →
      node.mShadowMapCastingLights[j]? = some LightClosest.blank)
    (hbegN : beg ≤ node.mDefinition.mNumLights)
    (hbeg : ∀ j, j < beg → j ∈ tDone) :
    (findNextEmptyShadowCastingLightEntry node (lightTypeBit H.LT_DIRECTIONAL) beg).2 =
        tRem.head?.getD node.mDefinition.mNumLights ∧
      (findNextEmptyShadowCastingLightEntry node (lightTypeBit H.LT_DIRECTIONAL) beg).1 ≤
        node.mDefinition.mNumLights ∧
      (∀ j, j < (findNextEmptyShadowCastingLightEntry node
        (lightTypeBit H.LT_DIRECTIONAL) beg).1 → j ∈ tDone) ∧
      ((findNextEmptyShadowCastingLightEntry node (lightTypeBit H.LT_DIRECTIONAL) beg).1 <
          node.mDefinition.mNumLights →
        (findNextEmptyShadowCastingLightEntry node (lightTypeBit H.LT_DIRECTIONAL) beg).1 ∉
          tDone) := by
  obtain ⟨h1, h2, h3, h4, h5⟩ := findNextEmpty_spec node (lightTypeBit H.LT_DIRECTIONAL) beg
    (by omega)
  have h6 := findNextEmpty_start node (lightTypeBit H.LT_DIRECTIONAL) beg
  generalize findNextEmptyShadowCastingLightEntry node (lightTypeBit H.LT_DIRECTIONAL) beg = r
    at *
  rw [hlen] at h1 h3 h5 h6
  have hsorted := directionalSlots_sorted H node.mDefinition
  rw [ht] at hsorted
  have hfree : r.2 < node.mDefinition.mNumLights → r.2 ∈ tRem := by
    intro hlt
    obtain ⟨s, hs1, hs2, hs3⟩ := h5 hlt
    have hmem : r.2 ∈ directionalSlots H node.mDefinition :=
      (mem_directionalSlots H _ _).2 ⟨hlt, hs3⟩
    rw [ht, List.mem_append] at hmem
    rcases hmem with hmem | hmem
    · obtain ⟨s2, hs4, hs5⟩ := hfilled _ hmem
      rw [hs1] at hs4
      injection hs4 with hs4
      subst hs4
      exact absurd hs2 hs5
    · exact hmem
  refine ⟨?_, h1, ?_, ?_⟩
  · cases tRem with
    | nil =>
      simp only [List.head?_nil, Option.getD_none]
      by_contra hne
      have := hfree (by omega)
      simp at this
    | cons x tl =>
      simp only [List.head?_cons, Option.getD_some]
      have hx : x ∈ directionalSlots H node.mDefinition := by
        rw [ht]; simp
      obtain ⟨hxN, hxacc⟩ := (mem_directionalSlots H _ _).1 hx
      have hxnot : x ∉ tDone := by
        intro hc
        have := (List.pairwise_append.1 hsorted).2.2 x hc x (List.mem_cons_self _ _)
        omega
      have hxblank := hblank x hxN hxnot
      have hbx : beg ≤ x := by
        by_contra hc
        exact hxnot (hbeg x (by omega))
      have hle : r.2 ≤ x := by
        by_contra hc
        exact h4 x _ hbx (by omega) hxblank ⟨rfl, hxacc⟩
      have hmem := hfree (by omega)
      rcases List.mem_cons.1 hmem with heq | hmem
      · exact heq
      · have := (List.pairwise_cons.1 (List.pairwise_append.1 hsorted).2.1).1 _ hmem
        omega
  · intro j hj
    by_cases hjb : j < beg
    · exact hbeg j hjb
    · by_contra hc
      have hb := hblank j (by omega) hc
      exact h2 j _ (by omega) hj hb rfl
  · intro hlt hmem
    obtain ⟨_, s, hs1, hs2⟩ := h6 hlt
    obtain ⟨s2, hs3, hs4⟩ := hfilled _ hmem
    rw [hs1] at hs3
    injection hs3 with hs3
    subst hs3
    exact hs4 hs2
theorem exists_mem_zip_of_mem_left {α β : Type} :
    ∀ (l₁ : List α) (l₂ : List β), l₁.length ≤ l₂.length →
      ∀ a ∈ l₁, ∃ b, (a, b) ∈ List.zip l₁ l₂ := by
  intro l₁
  induction l₁ with
  | nil => intro l₂ _ a ha; simp at ha
  | cons x l₁ ih =>
    intro l₂ hlen a ha
    cases l₂ with
    | nil => simp at hlen
    | cons y l₂ =>
      rcases List.mem_cons.1 ha with rfl | ha
      · exact ⟨y, by simp⟩
      · obtain ⟨b, hb⟩ := ih l₂ (by simpa using hlen) a ha
        exact ⟨b, by simp [hb]⟩

theorem directionalState_filled (lights : LightListInfo) (d : CompositorShadowNodeDef)
    (tDone dDone : List Nat) (node : CompositorShadowNode) (beg : Nat)
    (h : DirectionalState lights d tDone dDone node beg) :
    ∀ j ∈ tDone, ∃ s, node.mShadowMapCastingLights[j]? = some s ∧ s.light ≠ none := by
  obtain ⟨_, _, _, hlens, hzip, _⟩ := h
  intro j hj
  obtain ⟨b, hb⟩ := exists_mem_zip_of_mem_left tDone dDone (by omega) j hj
  exact ⟨_, hzip _ hb, by simp [slotOf]⟩

theorem directionalState_step (H : Headers) (lights : LightListInfo)
    (d : CompositorShadowNodeDef) (tDone tl dDone : List Nat) (node : CompositorShadowNode)
    (beg nxt listIdx : Nat) (e : LightListEntry)
    (ht : directionalSlots H d = tDone ++ nxt :: tl)
    (hstate : DirectionalState lights d tDone dDone node beg)
    (hget : lights.getD listIdx default = e) (hlt : listIdx < lights.length) :
    DirectionalState lights d (tDone ++ [nxt]) (dDone ++ [listIdx])
        { node with
          mAffectedLights := node.mAffectedLights.set listIdx true
          mShadowMapCastingLights :=
            node.mShadowMapCastingLights.set nxt ⟨some e.light, listIdx, 0⟩
          mNumActiveShadowMapCastingLights := node.mNumActiveShadowMapCastingLights + 1 }
        (findNextEmptyShadowCastingLightEntry
          { node with
            mAffectedLights := node.mAffectedLights.set listIdx true
            mShadowMapCastingLights :=
              node.mShadowMapCastingLights.set nxt ⟨some e.light, listIdx, 0⟩ }
          (lightTypeBit H.LT_DIRECTIONAL) beg).1 ∧
      (findNextEmptyShadowCastingLightEntry
          { node with
            mAffectedLights := node.mAffectedLights.set listIdx true
            mShadowMapCastingLights :=
              node.mShadowMapCastingLights.set nxt ⟨some e.light, listIdx, 0⟩ }
          (lightTypeBit H.LT_DIRECTIONAL) beg).2 = tl.head?.getD d.mNumLights := by
  have hfilled := directionalState_filled lights d tDone dDone node beg hstate
  obtain ⟨hdef, hslen, halen, hlens, hzip, hblank, haff, hbegN, hbeg, _⟩ := hstate
  subst hdef
  have hsorted := directionalSlots_sorted H node.mDefinition
  rw [ht] at hsorted
  have hnxt : nxt ∈ directionalSlots H node.mDefinition := by rw [ht]; simp
  have hnxtN : nxt < node.mDefinition.mNumLights := ((mem_directionalSlots H _ nxt).1 hnxt).1
  have hnot : nxt ∉ tDone := by
    intro hc
    have := (List.pairwise_append.1 hsorted).2.2 nxt hc nxt (List.mem_cons_self _ _)
    omega
  have hslot : slotOf lights listIdx = ⟨some e.light, listIdx, 0⟩ := by
    unfold slotOf; rw [hget]
  have h5 : ∀ p ∈ List.zip (tDone ++ [nxt]) (dDone ++ [listIdx]),
      (node.mShadowMapCastingLights.set nxt ⟨some e.light, listIdx, 0⟩)[p.1]? =
        some (slotOf lights p.2) := by
    intro p hp
    rw [List.zip_append hlens, List.mem_append] at hp
    rcases hp with hp | hp
    · have hp1 : p.1 ∈ tDone := (List.of_mem_zip (show (p.1, p.2) ∈ _ from hp)).1
      have hne : nxt ≠ p.1 := fun hc => hnot (hc ▸ hp1)
      rw [List.getElem?_set_ne hne]
      exact hzip p hp
    · simp only [List.zip_cons_cons, List.zip_nil_right, List.mem_singleton] at hp
      subst hp
      simp only
      rw [hslot, List.getElem?_set_eq_of_lt _ (by omega)]
  have h6 : ∀ j, j < node.mDefinition.mNumLights → j ∉ tDone ++ [nxt] →
      (node.mShadowMapCastingLights.set nxt ⟨some e.light, listIdx, 0⟩)[j]? =
        some LightClosest.blank := by
    intro j hj hnotin
    rw [List.mem_append, List.mem_singleton] at hnotin
    push_neg at hnotin
    rw [List.getElem?_set_ne (fun hc => hnotin.2 hc.symm)]
    exact hblank j hj hnotin.1
  have h7 : ∀ k, k < lights.length →
      (node.mAffectedLights.set listIdx true)[k]? =
        some (decide (k ∈ dDone ++ [listIdx])) := by
    intro k hk
    by_cases hkl : k = listIdx
    · subst hkl
      rw [List.getElem?_set_eq_of_lt _ (by omega)]
      simp
    · rw [List.getElem?_set_ne (fun hc => hkl hc.symm), haff k hk]
      simp [hkl]
  have hnext := findNextEmpty_next H
    { node with
      mAffectedLights := node.mAffectedLights.set listIdx true
      mShadowMapCastingLights :=
        node.mShadowMapCastingLights.set nxt ⟨some e.light, listIdx, 0⟩ }
    (tDone ++ [nxt]) tl beg
    (by simp only [List.length_set]; rw [hslen])
    (by rw [ht]; simp)
    (by
      intro j hj
      obtain ⟨b, hb⟩ := exists_mem_zip_of_mem_left (tDone ++ [nxt]) (dDone ++ [listIdx])
        (by simp [hlens]) j hj
      exact ⟨_, h5 _ hb, by simp [slotOf]⟩)
    h6
    hbegN
    (fun j hj => List.mem_append_left _ (hbeg j hj))
  refine ⟨⟨rfl, ?_, ?_, by simp [hlens], h5, h6, h7, hnext.2⟩, hnext.1⟩
  · simp only [List.length_set]; exact hslen
  · simp only [List.length_set]; exact halen

theorem directionalLoop_state (H : Headers) (flags : Nat) (lights : LightListInfo)
    (d : CompositorShadowNodeDef) :
    ∀ (ls : List LightListEntry) (listIdx : Nat) (node : CompositorShadowNode) (beg nxt : Nat)
      (tDone tRem dDone : List Nat),
      lights.drop listIdx = ls →
      directionalSlots H d = tDone ++ tRem →
      DirectionalState lights d tDone dDone node beg →
      nxt = tRem.head?.getD d.mNumLights →
      ∃ tDone1 tRem1 dDone1 dRem1,
        directionalSlots H d = tDone1 ++ tRem1 ∧
        dDone ++ eligibleIdxFrom H flags
          (ls.takeWhile (fun e => decide (e.light.type = H.LT_DIRECTIONAL))) listIdx =
            dDone1 ++ dRem1 ∧
        (tRem1 = [] ∨ dRem1 = []) ∧
        DirectionalState lights d tDone1 dDone1
          (directionalLoop H flags ls listIdx node beg nxt).1
          (directionalLoop H flags ls listIdx node beg nxt).2.1 := by
  intro ls
  induction ls with
  | nil =>
    intro listIdx node beg nxt tDone tRem dDone _ ht hstate _
    exact ⟨tDone, tRem, dDone, [], ht, by simp [eligibleIdxFrom], Or.inr rfl, hstate⟩
  | cons e rest ih =>
    intro listIdx node beg nxt tDone tRem dDone hls ht hstate hnxt
    obtain ⟨hget, hdrop, hlt⟩ := getD_of_drop_eq_cons lights listIdx e rest hls
    rw [directionalLoop]
    by_cases hd : e.light.type = H.LT_DIRECTIONAL
    · by_cases hn : nxt < node.mShadowMapCastingLights.length
      · rw [if_pos ⟨hd, hn⟩]
        have htw : (e :: rest).takeWhile (fun e => decide (e.light.type = H.LT_DIRECTIONAL)) =
            e :: rest.takeWhile (fun e => decide (e.light.type = H.LT_DIRECTIONAL)) := by
          simp [List.takeWhile, hd]
        rw [htw, eligibleIdxFrom]
        by_cases hel : e.visibilityMask &&& flags ≠ 0 ∧
            e.visibilityMask &&& H.LAYER_SHADOW_CASTER ≠ 0
        · rw [if_pos hel, if_pos (show eligible H flags e from hel)]
          have hslen := hstate.2.1
          cases tRem with
          | nil =>
            simp only [List.head?_nil, Option.getD_none] at hnxt
            omega
          | cons x tl =>
            simp only [List.head?_cons, Option.getD_some] at hnxt
            subst hnxt
            obtain ⟨hstate1, hfound⟩ := directionalState_step H lights d tDone tl dDone node
              beg nxt listIdx e ht hstate hget hlt
            obtain ⟨tDone1, tRem1, dDone1, dRem1, h1, h2, h3, h4⟩ :=
              ih (listIdx + 1) _ _ _ (tDone ++ [nxt]) tl (dDone ++ [listIdx]) hdrop
                (by rw [ht]; simp) hstate1 hfound
            exact ⟨tDone1, tRem1, dDone1, dRem1, h1, by rw [← h2]; simp, h3, h4⟩
        · rw [if_neg hel, if_neg (show ¬ eligible H flags e from hel)]
          exact ih (listIdx + 1) node beg nxt tDone tRem dDone hdrop ht hstate hnxt
      · rw [if_neg (fun hc => hn hc.2)]
        have hslen := hstate.2.1
        have htRem : tRem = [] := by
          cases tRem with
          | nil => rfl
          | cons x tl =>
            simp only [List.head?_cons, Option.getD_some] at hnxt
            have hx : x ∈ directionalSlots H d := by rw [ht]; simp
            have := ((mem_directionalSlots H d x).1 hx).1
            omega
        exact ⟨tDone, tRem, dDone, _, ht, rfl, Or.inl htRem, hstate⟩
    · rw [if_neg (fun hc => hd hc.1)]
      refine ⟨tDone, tRem, dDone, [], ht, ?_, Or.inr rfl, hstate⟩
      simp [List.takeWhile, hd, eligibleIdxFrom]
theorem directionalLoop_held (H : Headers) (flags : Nat) (lights : LightListInfo)
    (node : CompositorShadowNode)
    (hslots : node.mShadowMapCastingLights =
      List.replicate node.mDefinition.mNumLights LightClosest.blank)
    (haff : node.mAffectedLights = List.replicate lights.length false) :
    DirectionalSlotsHeld H flags lights node.mDefinition
      (directionalLoop H flags lights 0 node
        (findNextEmptyShadowCastingLightEntry node (lightTypeBit H.LT_DIRECTIONAL) 0).1
        (findNextEmptyShadowCastingLightEntry node (lightTypeBit H.LT_DIRECTIONAL) 0).2).1 := by
  have hblank : ∀ j, j < node.mDefinition.mNumLights → j ∉ ([] : List Nat) →
      node.mShadowMapCastingLights[j]? = some LightClosest.blank := by
    intro j hj _
    rw [hslots, List.getElem?_replicate, if_pos hj]
  have hnext := findNextEmpty_next H node [] (directionalSlots H node.mDefinition) 0
    (by rw [hslots, List.length_replicate]) rfl (by simp) hblank (Nat.zero_le _) (by simp)
  have hstate : DirectionalState lights node.mDefinition [] [] node
      (findNextEmptyShadowCastingLightEntry node (lightTypeBit H.LT_DIRECTIONAL) 0).1 := by
    refine ⟨rfl, by rw [hslots, List.length_replicate], by rw [haff, List.length_replicate],
      rfl, by simp, hblank, ?_, hnext.2⟩
    intro k hk
    rw [haff, List.getElem?_replicate, if_pos hk]
    simp
  obtain ⟨tDone, tRem, dDone, dRem, ht, hd, hor, hst⟩ :=
    directionalLoop_state H flags lights node.mDefinition lights 0 node _ _ [] _ []
      (List.drop_zero _) rfl hstate hnext.1
  generalize (directionalLoop H flags lights 0 node
    (findNextEmptyShadowCastingLightEntry node (lightTypeBit H.LT_DIRECTIONAL) 0).1
    (findNextEmptyShadowCastingLightEntry node (lightTypeBit H.LT_DIRECTIONAL) 0).2).1 = node3
    at *
  generalize (directionalLoop H flags lights 0 node
    (findNextEmptyShadowCastingLightEntry node (lightTypeBit H.LT_DIRECTIONAL) 0).1
    (findNextEmptyShadowCastingLightEntry node (lightTypeBit H.LT_DIRECTIONAL) 0).2).2.1 = beg3
    at *
  have hfilled := directionalState_filled lights _ tDone dDone node3 beg3 hst
  obtain ⟨hdef, hslen, halen, hlens, hzip, hbl, haf, _, _⟩ := hst
  have hcasters : directionalCasters H flags lights = dDone ++ dRem := by
    unfold directionalCasters
    rw [take_directionalRunLength]
    simpa using hd
  have hzipeq : List.zip (directionalSlots H node.mDefinition)
      (directionalCasters H flags lights) = List.zip tDone dDone := by
    rw [ht, hcasters, List.zip_append hlens]
    rcases hor with h | h <;> simp [h]
  have htake : (directionalCasters H flags lights).take
      (directionalSlots H node.mDefinition).length = dDone := by
    rw [ht, hcasters]
    rcases hor with h | h
    · subst h
      rw [List.append_nil, hlens, List.take_left]
    · subst h
      rw [List.append_nil, List.take_of_length_le]
      rw [List.length_append]; omega
  have hrunle := directionalRunLength_le H lights
  refine ⟨hdef, hslen, ?_, ?_⟩
  · intro p hp
    rw [hzipeq] at hp
    refine ⟨hzip p hp, ?_⟩
    have hp2 : p.2 ∈ dDone := (List.of_mem_zip (show (p.1, p.2) ∈ _ from hp)).2
    have hmem : p.2 ∈ directionalCasters H flags lights := by
      rw [hcasters]; exact List.mem_append_left _ hp2
    have hlt := ((mem_directionalRun H flags lights p.2).1 hmem).1
    rw [haf p.2 (by omega)]
    simp [hp2]
  · intro k hk hnot
    rw [htake] at hnot
    refine ⟨?_, ?_⟩
    · rw [haf k (by omega)]
      simp [hnot]
    · intro s hs hlight hidx
      obtain ⟨j, hj, hsj⟩ := List.getElem_of_mem hs
      have hget : node3.mShadowMapCastingLights[j]? = some s := by
        rw [List.getElem?_eq_getElem hj, hsj]
      by_cases hjt : j ∈ tDone
      · obtain ⟨b, hb⟩ := exists_mem_zip_of_mem_left tDone dDone (by omega) j hjt
        have h2 := hzip _ hb
        simp only at h2
        rw [hget] at h2
        injection h2 with h2
        have hb2 : b ∈ dDone := (List.of_mem_zip hb).2
        rw [h2] at hidx
        simp only [slotOf] at hidx
        exact hnot (hidx ▸ hb2)
      · have h2 := hbl j (by omega) hjt
        rw [hget] at h2
        injection h2 with h2
        rw [h2] at hlight
        exact hlight rfl

theorem directionalRun_type (H : Headers) (lights : LightListInfo) (k : Nat)
    (e : LightListEntry) (hk : k < directionalRunLength H lights) (hget : lights[k]? = some e) :
    e.light.type = H.LT_DIRECTIONAL := by
  have h1 : (lights.take (directionalRunLength H lights))[k]? = some e := by
    rw [List.getElem?_take_of_lt hk]; exact hget
  rw [take_directionalRunLength] at h1
  have hmem := List.mem_iff_getElem?.2 ⟨k, h1⟩
  simpa using List.mem_takeWhile_imp hmem

theorem closestLoop_held (H : Headers) (flags : Nat) (lights : LightListInfo)
    (d : CompositorShadowNodeDef) :
    ∀ (es : List Nat) (node : CompositorShadowNode) (beg nxt : Nat)
      (node1 : CompositorShadowNode),
      DirectionalSlotsHeld H flags lights d node →
      closestLoop H lights flags es node beg nxt = some node1 →
      DirectionalSlotsHeld H flags lights d node1 := by
  intro es
  induction es with
  | nil =>
    intro node beg nxt node1 hheld h
    rw [closestLoop] at h
    injection h with h
    exact h ▸ hheld
  | cons idx rest ih =>
    intro node beg nxt node1 hheld h
    rw [closestLoop] at h
    cases hget : lights[idx]? with
    | none =>
      rw [hget] at h
      exact absurd h (by simp)
    | some e =>
      rw [hget] at h
      simp only at h
      by_cases hbreak : ¬ (e.visibilityMask &&& flags ≠ 0) ∨
          ¬ (e.visibilityMask &&& H.LAYER_SHADOW_CASTER ≠ 0) ∨
          beg ≥ node.mShadowMapCastingLights.length
      · rw [if_pos hbreak] at h
        injection h with h
        exact h ▸ hheld
      · rw [if_neg hbreak] at h
        push_neg at hbreak
        obtain ⟨hvis, hcast, hbeglt⟩ := hbreak
        by_cases hfound : (findNextEmptyShadowCastingLightEntry node
            (lightTypeBit e.light.type) beg).2 < node.mShadowMapCastingLights.length
        · rw [if_pos hfound] at h
          refine ih _ _ _ _ ?_ h
          obtain ⟨_, _, _, _, hfree⟩ := findNextEmpty_spec node (lightTypeBit e.light.type) beg
            (by omega)
          obtain ⟨s0, hs0, hempty, hacc⟩ := hfree hfound
          generalize (findNextEmptyShadowCastingLightEntry node
            (lightTypeBit e.light.type) beg).2 = n at *
          obtain ⟨hdef, hslen, hpairs, hothers⟩ := hheld
          have hidxlt : idx < lights.length := by
            by_contra hc
            rw [List.getElem?_eq_none (by omega)] at hget
            exact absurd hget (by simp)
          refine ⟨hdef, by simp only [List.length_set]; exact hslen, ?_, ?_⟩
          · intro p hp
            obtain ⟨h1, h2⟩ := hpairs p hp
            have hne : n ≠ p.1 := by
              intro hc
              rw [← hc, hs0] at h1
              injection h1 with h1
              rw [h1] at hempty
              simp [slotOf] at hempty
            refine ⟨by rw [List.getElem?_set_ne hne]; exact h1, ?_⟩
            by_cases hip : idx = p.2
            · have hlt : p.2 < node.mAffectedLights.length := by
                by_contra hc
                rw [List.getElem?_eq_none (by omega)] at h2
                exact absurd h2 (by simp)
              rw [hip, List.getElem?_set_eq_of_lt _ hlt]
            · rw [List.getElem?_set_ne hip]; exact h2
          · intro k hk hnot
            obtain ⟨h1, h2⟩ := hothers k hk hnot
            have hne : idx ≠ k := by
              intro hc
              subst hc
              have htype := directionalRun_type H lights idx e hk hget
              have hel : eligibleAt H flags lights idx := by
                unfold eligibleAt
                rw [List.getD_eq_getElem?_getD, hget]
                exact ⟨hvis, hcast⟩
              have hmem : idx ∈ directionalCasters H flags lights :=
                (mem_directionalRun H flags lights idx).2 ⟨hk, hel⟩
              have hlen : (directionalSlots H d).length ≤
                  (directionalCasters H flags lights).length := by
                by_contra hc
                exact hnot (by rw [List.take_of_length_le (by omega)]; exact hmem)
              have hn : n ∈ directionalSlots H d := by
                rw [mem_directionalSlots]
                refine ⟨by omega, ?_⟩
                unfold slotAccepts
                rw [← hdef, ← htype]
                exact hacc
              obtain ⟨b, hb⟩ := exists_mem_zip_of_mem_left _ _ hlen n hn
              have h3 := (hpairs _ hb).1
              simp only at h3
              rw [hs0] at h3
              injection h3 with h3
              rw [h3] at hempty
              simp [slotOf] at hempty
            refine ⟨by rw [List.getElem?_set_ne hne]; exact h1, ?_⟩
            intro s hs hlight
            rcases List.mem_or_eq_of_mem_set hs with hs | hs
            · exact h2 s hs hlight
            · rw [hs]
              exact hne
        · rw [if_neg hfound] at h
          exact ih _ _ _ _ hheld h
theorem closestLoop_returns (H : Headers) (flags : Nat) (lights : LightListInfo) :
    ∀ (es : List Nat) (node : CompositorShadowNode) (beg nxt : Nat),
      (∀ j ∈ es, j < lights.length) →
      ∃ node1, closestLoop H lights flags es node beg nxt = some node1 := by
  intro es
  induction es with
  | nil => intro node beg nxt _; exact ⟨node, rfl⟩
  | cons idx rest ih =>
    intro node beg nxt hin
    have hidx := hin idx (List.mem_cons_self _ _)
    have hrest : ∀ j ∈ rest, j < lights.length :=
      fun j hj => hin j (List.mem_cons_of_mem _ hj)
    rw [closestLoop, List.getElem?_eq_getElem hidx]
    simp only
    split_ifs
    · exact ⟨node, rfl⟩
    · exact ih _ _ _ hrest
    · exact ih _ _ _ hrest

/-- The directional slots on any slot configuration: a call of `buildClosestLightList`
that is not answered from the memo, on any
node state, any slot masks and any light list. Write `t` for the slots whose mask
accepts directional lights, in slot order, and `d` for the visible,
shadow-caster-flagged lights of the leading directional run, in list order. The call
returns when the list has at least as many lights after the directional run as the
node has slots. Whenever the call returns: for every `i` below both lengths slot `t[i]`
holds `LightClosest( lights[d[i]], d[i], 0 )` and light `d[i]` is marked affected; and
every other light of the run is marked not affected and is in no slot. -/
theorem buildClosestLightList_directional_slots (H : Headers) (node : CompositorShadowNode)
    (args : BuildArgs)
    (hmemo : ¬ (node.mLastCamera = some args.newCamera ∧
      node.mLastFrame = args.currentFrameCount)) :
    (node.mDefinition.mNumLights ≤
        args.globalLightList.length - directionalRunLength H args.globalLightList →
      ∃ node1, buildClosestLightList H node args = some node1) ∧
    ∀ node1, buildClosestLightList H node args = some node1 →
      (∀ i (h1 : i < (directionalSlots H node.mDefinition).length)
          (h2 : i < (directionalCasters H (combinedFlags args) args.globalLightList).length),
        node1.mShadowMapCastingLights[(directionalSlots H node.mDefinition)[i]]? =
            some ⟨some (args.globalLightList.getD
              (directionalCasters H (combinedFlags args) args.globalLightList)[i]
                default).light,
              (directionalCasters H (combinedFlags args) args.globalLightList)[i], 0⟩ ∧
          node1.mAffectedLights[
            (directionalCasters H (combinedFlags args) args.globalLightList)[i]]? =
              some true) ∧
      (∀ k, k < directionalRunLength H args.globalLightList →
        k ∉ (directionalCasters H (combinedFlags args) args.globalLightList).take
          (directionalSlots H node.mDefinition).length →
        node1.mAffectedLights[k]? = some false ∧
          ∀ s ∈ node1.mShadowMapCastingLights, s.light ≠ none → s.globalIndex ≠ k) := by
  generalize hlights : args.globalLightList = lights at *
  have hheld := directionalLoop_held H (combinedFlags args) lights
    { node with
      mLastFrame := args.currentFrameCount
      mLastCamera := some args.newCamera
      mShadowMapCastingLights := List.replicate node.mDefinition.mNumLights LightClosest.blank
      mNumActiveShadowMapCastingLights := 0
      mAffectedLights := List.replicate lights.length false } rfl rfl
  have hfind : findNextEmptyShadowCastingLightEntry
      { node with
        mLastFrame := args.currentFrameCount
        mLastCamera := some args.newCamera
        mShadowMapCastingLights :=
          List.replicate node.mDefinition.mNumLights LightClosest.blank
        mNumActiveShadowMapCastingLights := 0 } (lightTypeBit H.LT_DIRECTIONAL) 0 =
      findNextEmptyShadowCastingLightEntry
      { node with
        mLastFrame := args.currentFrameCount
        mLastCamera := some args.newCamera
        mShadowMapCastingLights :=
          List.replicate node.mDefinition.mNumLights LightClosest.blank
        mNumActiveShadowMapCastingLights := 0
        mAffectedLights := List.replicate lights.length false }
        (lightTypeBit H.LT_DIRECTIONAL) 0 := rfl
  have hcf : args.viewportVisibilityMask &&& args.sceneVisibilityMask = combinedFlags args := rfl
  unfold buildClosestLightList
  rw [if_neg hmemo]
  simp only [hlights]
  rw [hcf, hfind]
  dsimp only at hheld
  generalize directionalLoop H (combinedFlags args) lights 0
    { node with
      mLastFrame := args.currentFrameCount
      mLastCamera := some args.newCamera
      mShadowMapCastingLights := List.replicate node.mDefinition.mNumLights LightClosest.blank
      mNumActiveShadowMapCastingLights := 0
      mAffectedLights := List.replicate lights.length false }
    (findNextEmptyShadowCastingLightEntry
      { node with
        mLastFrame := args.currentFrameCount
        mLastCamera := some args.newCamera
        mShadowMapCastingLights :=
          List.replicate node.mDefinition.mNumLights LightClosest.blank
        mNumActiveShadowMapCastingLights := 0
        mAffectedLights := List.replicate lights.length false }
      (lightTypeBit H.LT_DIRECTIONAL) 0).1
    (findNextEmptyShadowCastingLightEntry
      { node with
        mLastFrame := args.currentFrameCount
        mLastCamera := some args.newCamera
        mShadowMapCastingLights :=
          List.replicate node.mDefinition.mNumLights LightClosest.blank
        mNumActiveShadowMapCastingLights := 0
        mAffectedLights := List.replicate lights.length false }
      (lightTypeBit H.LT_DIRECTIONAL) 0).2 = r at hheld ⊢
  obtain ⟨node3, beg3, nxt3⟩ := r
  simp only at hheld ⊢
  constructor
  · intro hfill
    have hlen3 : node3.mShadowMapCastingLights.length = node.mDefinition.mNumLights :=
      hheld.2.1
    obtain ⟨node4, h4⟩ := closestLoop_returns H (combinedFlags args) lights
      (partial_sort_copy (ShadowMappingLightCmp H lights (combinedFlags args))
        (List.range' (directionalRunLength H lights)
          (lights.length - directionalRunLength H lights))
        (vectorResize node3.mTmpSortedIndexes
          (node3.mShadowMapCastingLights.length - beg3) SIZE_MAX))
      { node3 with
        mTmpSortedIndexes :=
          partial_sort_copy (ShadowMappingLightCmp H lights (combinedFlags args))
            (List.range' (directionalRunLength H lights)
              (lights.length - directionalRunLength H lights))
            (vectorResize node3.mTmpSortedIndexes
              (node3.mShadowMapCastingLights.length - beg3) SIZE_MAX) }
      beg3 nxt3
      (by
        intro j hj
        rw [partial_sort_copy_full _ _ _ (by
          rw [length_vectorResize, List.length_range']; omega)] at hj
        have hj2 := (List.perm_insertionSort _ _).subset (List.mem_of_mem_take hj)
        have hle := directionalRunLength_le H lights
        rw [List.mem_range'_1] at hj2
        omega)
    rw [h4]
    exact ⟨_, rfl⟩
  · intro node1 hcall
    cases hloop : closestLoop H lights (combinedFlags args)
      (partial_sort_copy (ShadowMappingLightCmp H lights (combinedFlags args))
        (List.range' (directionalRunLength H lights)
          (lights.length - directionalRunLength H lights))
        (vectorResize node3.mTmpSortedIndexes
          (node3.mShadowMapCastingLights.length - beg3) SIZE_MAX))
      { node3 with
        mTmpSortedIndexes :=
          partial_sort_copy (ShadowMappingLightCmp H lights (combinedFlags args))
            (List.range' (directionalRunLength H lights)
              (lights.length - directionalRunLength H lights))
            (vectorResize node3.mTmpSortedIndexes
              (node3.mShadowMapCastingLights.length - beg3) SIZE_MAX) }
      beg3 nxt3 with
    | none =>
      rw [hloop] at hcall
      exact absurd hcall (by simp)
    | some node4 =>
      rw [hloop] at hcall
      simp only [Option.some.injEq] at hcall
      subst hcall
      obtain ⟨_, _, hpairs, hothers⟩ := closestLoop_held H (combinedFlags args) lights
        node.mDefinition _ _ _ _ node4 (by exact hheld) hloop
      refine ⟨?_, hothers⟩
      intro i h1 h2
      have hmem : ((directionalSlots H node.mDefinition)[i],
          (directionalCasters H (combinedFlags args) lights)[i]) ∈
          List.zip (directionalSlots H node.mDefinition)
            (directionalCasters H (combinedFlags args) lights) := by
        rw [List.mem_iff_getElem]
        exact ⟨i, by rw [List.length_zip]; omega, List.getElem_zip⟩
      exact hpairs _ hmem

/-- An instance: slots 1 and 3 accept directional lights, slots 0 and 2 point
lights; three eligible directional lights, then four point lights. -/
theorem buildClosestLightList_directional_slots_witness :
    ∃ node1, buildClosestLightList stdHeaders directionalMixNode directionalMixArgs =
        some node1 ∧
      directionalSlots stdHeaders directionalMixNode.mDefinition = [1, 3] ∧
      directionalCasters stdHeaders (combinedFlags directionalMixArgs)
        directionalMixArgs.globalLightList = [0, 1, 2] ∧
      node1.mShadowMapCastingLights[1]? = some ⟨some ⟨100, 0⟩, 0, 0⟩ ∧
      node1.mShadowMapCastingLights[3]? = some ⟨some ⟨101, 0⟩, 1, 0⟩ ∧
      node1.mAffectedLights[0]? = some true ∧
      node1.mAffectedLights[1]? = some true ∧
      node1.mAffectedLights[2]? = some false ∧
      ∀ s ∈ node1.mShadowMapCastingLights, s.light ≠ none → s.globalIndex ≠ 2 := by
  obtain ⟨hret, hprop⟩ := buildClosestLightList_directional_slots stdHeaders
    directionalMixNode directionalMixArgs (by decide)
  obtain ⟨node1, hcall⟩ := hret (by decide)
  obtain ⟨hpairs, hothers⟩ := hprop node1 hcall
  have ht : directionalSlots stdHeaders directionalMixNode.mDefinition = [1, 3] := by decide
  have hd : directionalCasters stdHeaders (combinedFlags directionalMixArgs)
      directionalMixArgs.globalLightList = [0, 1, 2] := by decide
  have h0 := hpairs 0 (by rw [ht]; decide) (by rw [hd]; decide)
  have h1 := hpairs 1 (by rw [ht]; decide) (by rw [hd]; decide)
  have h2 := hothers 2 (by decide) (by rw [ht, hd]; decide)
  simp only [ht, hd] at h0 h1
  exact ⟨node1, hcall, ht, hd, h0.1, h1.1, h0.2, h1.2, h2.1, h2.2⟩

/-- C25, at the failing input: a freshly constructed node with slot 0 for directional
lights only and slot 1 for point lights only, and a list of one eligible directional
light. The first loop puts the light into slot 0 and leaves `begEmptyLightIdx` at 1; the
scratch buffer gets one entry, the filler `~0`, `std::partial_sort_copy` writes none, and
the second loop uses the filler as an index: the call leaves the light list. -/
theorem buildClosestLightList_directional_then_filler :
    directionalSlots stdHeaders (freshNode [1, 2]).mDefinition = [0] ∧
    directionalCasters stdHeaders (combinedFlags (mkArgs [(0, 5)]))
      (mkArgs [(0, 5)]).globalLightList = [0] ∧
    ((directionalLoop stdHeaders 1 (mkArgs [(0, 5)]).globalLightList 0
        { freshNode [1, 2] with mAffectedLights := [false] } 0 0).1.mShadowMapCastingLights,
      (directionalLoop stdHeaders 1 (mkArgs [(0, 5)]).globalLightList 0
        { freshNode [1, 2] with mAffectedLights := [false] } 0 0).2.1) =
      ([slotOf (mkArgs [(0, 5)]).globalLightList 0, LightClosest.blank], 1) ∧
    buildClosestLightListReads stdHeaders (freshNode [1, 2]) (mkArgs [(0, 5)]) =
      { startIndex := 1, written := 0, mTmpSortedIndexes := [SIZE_MAX],
        reads := [SIZE_MAX] } ∧
    buildClosestLightList stdHeaders (freshNode [1, 2]) (mkArgs [(0, 5)]) = none := by
  refine ⟨by decide, by decide, by decide, by decide, by decide⟩

end Ogre
